import Mathlib

/-!
# Mirror modifier geometry kernel (`blenkernel/intern/mesh_mirror.cc`)

A shallow embedding of `BKE_mesh_mirror_apply_mirror_on_axis_for_modifier` and of
`BKE_mesh_mirror_bisect_on_mirror_plane_for_modifier`, followed by theorems about them.

Conventions of the embedding:

* `float` values are rationals (`ℚ`). The `float` operations that the source writes out
  take their rounding from a parameter `fa : FloatArith`: `binary32` is IEEE 754 single
  precision (round to nearest, ties to even, with subnormals), `exact_arith` rounds nothing.
  The `BLI_math` helpers, which are not under `src/`, are exact algebra. Infinities and NaN
  are not modelled.
* `int` values stored in the mesh (vertex / edge indices, the merge map) are `Int`; element
  counts, loop counters and face offsets are `Nat`. Signed overflow (undefined in C++) is
  not modelled.
* C arrays are `List`s. A write `a[i] = v` is `a.set i v`, a read `a[i]` is `a.getD i d`.
* A `for (int i = lo; i < hi; i++)` loop is `forRange lo hi body init` over the loop state.
* The custom-data layers of the four domains that the kernel reads or writes are fields of
  `Mesh`: `positions`, `shapekeys`, `dvert` (vertex domain), `edges` (edge domain, the
  `.edge_verts` layer), `corner_verts`, `corner_edges`, `uv_layers` (corner domain).
-/

namespace MeshMirror

/-! ## Loops -/

/-- The loop `for (i = lo; i < hi; i++) s = body i s`. -/
def forRange {σ : Type} (lo hi : Nat) (body : Nat → σ → σ) (init : σ) : σ :=
  (List.range' lo (hi - lo)).foldl (fun s i => body i s) init

/-! ## Vector and matrix helpers (`BLI_math`) -/

/-- A `float[3]`. -/
abbrev float3 := Fin 3 → ℚ

/-- A `float[2]`. -/
abbrev float2 := Fin 2 → ℚ

/-- A `float[4]`. -/
abbrev float4 := Fin 4 → ℚ

/-- A `float[4][4]`; `m i j` is the C expression `m[i][j]` (so `m i` is the C row `m[i]`,
which is a column of the transform in the usual mathematical convention). -/
abbrev float4x4 := Fin 4 → Fin 4 → ℚ

/-- The first three components of a `float[4]` read as a `float[3]` (`copy_v3_v3(r, m[i])`). -/
def v3_of_v4 (v : float4) : float3 := ![v 0, v 1, v 2]

/-- Modelled from the spec: `unit_m4` of `BLI_math` (not under `src/`), the "identity
matrix" of section 4.2. -/
def unit_m4 : float4x4 := fun i j => if i = j then 1 else 0

/-- Modelled from the spec: `mul_m4_v3` of `BLI_math` (not under `src/`), "apply the mirror
matrix to a position" (section 4.3): the affine map of the matrix applied to a point. -/
def mul_m4_v3 (M : float4x4) (r : float3) : float3 :=
  ![r 0 * M 0 0 + r 1 * M 1 0 + r 2 * M 2 0 + M 3 0,
    r 0 * M 0 1 + r 1 * M 1 1 + r 2 * M 2 1 + M 3 1,
    r 0 * M 0 2 + r 1 * M 1 2 + r 2 * M 2 2 + M 3 2]

/-- Modelled from the spec: `mul_m4_m4m4(R, A, B)` of `BLI_math` (not under `src/`), the
composition "apply `B`, then `A`" (section 4.2). With the C indexing `m[i][j]` this is
`R[i][j] = Σ k, B[i][k] * A[k][j]`. -/
def mul_m4_m4m4 (A B : float4x4) : float4x4 :=
  fun i j => B i 0 * A 0 j + B i 1 * A 1 j + B i 2 * A 2 j + B i 3 * A 3 j

/-- Modelled from the spec: `invert_m4_m4` of `BLI_math` (not under `src/`), the inverse
transform ("to_local", section 4.2), computed as adjugate over determinant. -/
def invert_m4_m4 (m : float4x4) : float4x4 :=
  (Matrix.det (Matrix.of m))⁻¹ • Matrix.adjugate (Matrix.of m)

/-- Modelled from the spec: `len_squared_v3v3` of `BLI_math` (not under `src/`), the
"squared Euclidean distance" of section 4.4. -/
def len_squared_v3v3 (a b : float3) : ℚ :=
  (b 0 - a 0) * (b 0 - a 0) + (b 1 - a 1) * (b 1 - a 1) + (b 2 - a 2) * (b 2 - a 2)

/-- Modelled from the spec: `len_squared_v3` of `BLI_math` (not under `src/`), the "squared
axis scale" of section 4.2. -/
def len_squared_v3 (a : float3) : ℚ := a 0 * a 0 + a 1 * a 1 + a 2 * a 2

/-- Modelled from the spec: `mid_v3_v3v3` of `BLI_math` (not under `src/`), "average the
two positions" (section 4.4). -/
def mid_v3_v3v3 (a b : float3) : float3 :=
  ![(1 / 2) * (a 0 + b 0), (1 / 2) * (a 1 + b 1), (1 / 2) * (a 2 + b 2)]

/-- Modelled from the spec: `negate_v3_v3` of `BLI_math` (not under `src/`), "the plane normal
is negated" (section 4.1): component-wise negation. -/
def negate_v3_v3 (a : float3) : float3 := ![-a 0, -a 1, -a 2]

/-- Modelled from the spec: `dot_v3v3` of `BLI_math` (not under `src/`), the dot product
behind the plane-side test of section 4.1. -/
def dot_v3v3 (a b : float3) : ℚ := a 0 * b 0 + a 1 * b 1 + a 2 * b 2

/-! ### Floating-point arithmetic

The `float` operations that the source writes out (`tolerance * tolerance`,
`1.0f - u + uv_offset`, `1.0f / ob_scale_max`, `plane[3] - bisect_distance`) are taken from a
`FloatArith`: `binary32` rounds every result to the nearest `float`, `exact_arith` is the
arithmetic of the rationals, used where a property is stated "in exact arithmetic". -/

/-- The arithmetic of `float` expressions: the value of each operation on finite operands.
Infinities and NaN are outside the model. -/
structure FloatArith where
  add : ℚ → ℚ → ℚ
  sub : ℚ → ℚ → ℚ
  mul : ℚ → ℚ → ℚ
  div : ℚ → ℚ → ℚ

/-- The integer nearest to `y`, ties going to the even integer. -/
def round_half_even (y : ℚ) : Int :=
  if y - (⌊y⌋ : ℚ) < 1 / 2 then ⌊y⌋
  else if 1 / 2 < y - (⌊y⌋ : ℚ) then ⌊y⌋ + 1
  else if ⌊y⌋ % 2 = 0 then ⌊y⌋ else ⌊y⌋ + 1

/-- The IEEE 754 binary32 value nearest to `x` (round to nearest, ties to even): 24
significant bits for `|x| ≥ 2^-126`, multiples of `2^-149` below (subnormals, underflow to
zero). Overflow to an infinity (`|x| ≥ 2^128`) is outside the model. -/
def f32_round (x : ℚ) : ℚ :=
  if x = 0 then 0
  else
    ((round_half_even (x / (2 : ℚ) ^ (max (Int.log 2 |x|) (-126) - 23)) : Int) : ℚ) *
      (2 : ℚ) ^ (max (Int.log 2 |x|) (-126) - 23)

/-- The arithmetic of C `float` (IEEE 754 binary32) on finite values: the exact result of
each operation rounded to the nearest `float`. -/
def binary32 : FloatArith :=
  { add := fun a b => f32_round (a + b)
    sub := fun a b => f32_round (a - b)
    mul := fun a b => f32_round (a * b)
    div := fun a b => f32_round (a / b) }

/-- Exact arithmetic: no rounding. -/
def exact_arith : FloatArith :=
  { add := fun a b => a + b
    sub := fun a b => a - b
    mul := fun a b => a * b
    div := fun a b => a / b }

/-- Modelled from the spec: `mul_v3_fl` of `BLI_math` (not under `src/`), the scaling used to
normalise "by the largest squared axis scale" (section 4.2): each component times `f`, a
`float` product. -/
def mul_v3_fl (fa : FloatArith) (a : float3) (f : ℚ) : float3 :=
  ![fa.mul (a 0) f, fa.mul (a 1) f, fa.mul (a 2) f]

/-- Modelled from the spec: `mul_v3_v3` of `BLI_math` (not under `src/`), the component-wise
`float` product by which the normal is "rescaled" (section 4.2). -/
def mul_v3_v3 (fa : FloatArith) (a b : float3) : float3 :=
  ![fa.mul (a 0) (b 0), fa.mul (a 1) (b 1), fa.mul (a 2) (b 2)]

/-- Modelled from the spec: `max_fff` of `BLI_math` (not under `src/`), "the largest squared
axis scale" (section 4.2). -/
def max_fff (a b c : ℚ) : ℚ := max (max a b) c

/-- Modelled from the spec: `plane_from_point_normal_v3` of `BLI_math` (not under `src/`), the
plane through "a planar point" with "a plane normal" (section 4.1): `(no, -dot(no, co))`. -/
def plane_from_point_normal_v3 (plane_co plane_no : float3) : float4 :=
  ![plane_no 0, plane_no 1, plane_no 2, -dot_v3v3 plane_no plane_co]

/-- Modelled from the spec: `plane_point_side_v3` of `BLI_math` (not under `src/`), the side of
a plane a vertex lies on (section 4.1): `dot(co, plane.xyz) + plane.w`. -/
def plane_point_side_v3 (plane : float4) (co : float3) : ℚ :=
  dot_v3v3 co (v3_of_v4 plane) + plane 3

/-- Modelled from the spec: `is_zero_v2` of `BLI_math` (not under `src/`), the test for "a
nonzero UV copy-offset" (section 4.6). -/
def is_zero_v2 (v : float2) : Bool := decide (v 0 = 0 ∧ v 1 = 0)

/-- The C library `fmodf(u, 1.0f)`: `u` minus `u` truncated towards zero. -/
def fmodf_one (u : ℚ) : ℚ := u - (if 0 ≤ u then ((⌊u⌋ : Int) : ℚ) else ((⌈u⌉ : Int) : ℚ))

/-- The C library `ceilf`. -/
def ceilf (u : ℚ) : ℚ := ((⌈u⌉ : Int) : ℚ)

/-! ## Data model -/

/-- Modelled from the spec: the bits of `MirrorModifierData::flag` (`DNA_modifier_types.h`, not
under `src/`), the toggles of the mirror configuration of section 3. -/
def MOD_MIR_MIRROR_U : Nat := 1 <<< 1
/-- See `MOD_MIR_MIRROR_U`. -/
def MOD_MIR_MIRROR_V : Nat := 1 <<< 2
/-- See `MOD_MIR_MIRROR_U`. -/
def MOD_MIR_VGROUP : Nat := 1 <<< 6
/-- See `MOD_MIR_MIRROR_U`. -/
def MOD_MIR_NO_MERGE : Nat := 1 <<< 7
/-- See `MOD_MIR_MIRROR_U`. -/
def MOD_MIR_BISECT_AXIS_X : Nat := 1 <<< 8
/-- See `MOD_MIR_MIRROR_U`. -/
def MOD_MIR_BISECT_AXIS_Y : Nat := 1 <<< 9
/-- See `MOD_MIR_MIRROR_U`. -/
def MOD_MIR_BISECT_AXIS_Z : Nat := 1 <<< 10
/-- See `MOD_MIR_MIRROR_U`. -/
def MOD_MIR_BISECT_FLIP_AXIS_X : Nat := 1 <<< 11
/-- See `MOD_MIR_MIRROR_U`. -/
def MOD_MIR_BISECT_FLIP_AXIS_Y : Nat := 1 <<< 12
/-- See `MOD_MIR_MIRROR_U`. -/
def MOD_MIR_BISECT_FLIP_AXIS_Z : Nat := 1 <<< 13
/-- See `MOD_MIR_MIRROR_U`. -/
def MOD_MIR_MIRROR_UDIM : Nat := 1 <<< 14

/-- The C test `flag & mask` read as a truth value. -/
def flag_test (flag mask : Nat) : Bool := (flag &&& mask) != 0

/-- A deform vert (`MDeformVert`): the (group index, weight) pairs of one vertex. -/
abbrev MDeformVert := List (Int × ℚ)

/-- The parts of `Object` the kernel reads. `supports_vertex_groups` is the value of
`BKE_object_supports_vertex_groups(ob)`, `defgroup_flip_map` the array returned by
`BKE_object_defgroup_flip_map(ob, false, &len)` (`none` for a null result), and
`use_custom_normals` the value of `ob->type == OB_MESH && (ob->data->flag & ME_AUTOSMOOTH)`. -/
structure Object where
  object_to_world : float4x4
  supports_vertex_groups : Bool
  defgroup_flip_map : Option (List Int)
  use_custom_normals : Bool

/-- The fields of `MirrorModifierData` the kernel reads. -/
structure MirrorModifierData where
  flag : Nat
  tolerance : ℚ
  bisect_threshold : ℚ
  uv_offset : float2
  uv_offset_copy : float2
  mirror_ob : Option Object

/-- A mesh: element counts, the face offsets (`poly_offsets()`, `totpoly + 1` entries) and
the custom-data layers the kernel touches. -/
structure Mesh where
  totvert : Nat
  totedge : Nat
  totpoly : Nat
  totloop : Nat
  positions : List float3
  shapekeys : List (List float3)
  dvert : Option (List MDeformVert)
  edges : List (Int × Int)
  poly_offsets : List Nat
  corner_verts : List Int
  corner_edges : List Int
  uv_layers : List (List float2)

/-- Modelled from the spec: `blender::IndexRange` (`BLI_index_range.hh`, not under `src/`), a
"contiguous range of face-corners" (section 3). -/
structure IndexRange where
  start : Nat
  size : Nat
deriving DecidableEq

/-- The accessor `IndexRange::operator[]`. -/
def IndexRange.get (r : IndexRange) (j : Nat) : Nat := r.start + j

/-- The accessor `IndexRange::last(n)`: `start + size - 1 - n`. -/
def IndexRange.last (r : IndexRange) (n : Nat) : Nat := r.start + r.size - 1 - n

/-- Modelled from the spec: `OffsetIndices::operator[]` (`BLI_offset_indices.hh`, not under
`src/`): face `i` is the range from `offsets[i]` to `offsets[i + 1]`. -/
def OffsetIndices_get (offsets : List Nat) (i : Nat) : IndexRange :=
  { start := offsets.getD i 0, size := offsets.getD (i + 1) 0 - offsets.getD i 0 }

/-- The size of `Mesh::polys()`: the offsets span is built with `totpoly + 1` entries, so
`OffsetIndices::size()` is `totpoly`. -/
def Mesh.polys_size (m : Mesh) : Nat := m.totpoly

/-- The face `i` of `Mesh::polys()`. -/
def Mesh.poly (m : Mesh) (i : Nat) : IndexRange := OffsetIndices_get m.poly_offsets i

/-! ## Collaborators -/

/-- The BMesh and vertex-group collaborators, consumed as black boxes: `bisect_plane bm plane
dist` is `BM_mesh_bisect_plane(bm, plane, true, false, 0, 0, dist)`, `verts_kill bm vs` is
`BM_vert_kill` applied to the listed vertices, and the last two are `BKE_defvert_flip` and
`BKE_defvert_flip_merged`. -/
structure Collaborators where
  bisect_plane : Mesh → float4 → ℚ → Mesh
  verts_kill : Mesh → List Nat → Mesh
  defvert_flip : MDeformVert → List Int → MDeformVert
  defvert_flip_merged : MDeformVert → List Int → MDeformVert

/-! ## Allocation and custom-data copies -/

/-- Modelled from the spec: `BKE_mesh_poly_offsets_ensure_alloc` (not under `src/`), the face
offsets of a newly allocated mesh: `polys_num + 1` entries whose first is 0 and whose last
is `loops_num` (the "corner count" of section 3), and no entries when there are no faces. -/
def fresh_poly_offsets (polys_num loops_num : Nat) : List Nat :=
  if polys_num = 0 then []
  else ((List.replicate (polys_num + 1) 0).set 0 0).set polys_num loops_num

/-- Modelled from the spec: `BKE_mesh_new_nomain_from_template` (not under `src/`), which
"allocates an output mesh" with the given element counts and the layers of the template.
New elements hold zeros. -/
def BKE_mesh_new_nomain_from_template (me_src : Mesh)
    (verts_num edges_num polys_num loops_num : Nat) : Mesh :=
  { totvert := verts_num
    totedge := edges_num
    totpoly := polys_num
    totloop := loops_num
    positions := List.replicate verts_num 0
    shapekeys := me_src.shapekeys.map (fun _ => List.replicate verts_num 0)
    dvert := me_src.dvert.map (fun _ => List.replicate verts_num [])
    edges := List.replicate edges_num (0, 0)
    poly_offsets := fresh_poly_offsets polys_num loops_num
    corner_verts := List.replicate loops_num 0
    corner_edges := List.replicate loops_num 0
    uv_layers := me_src.uv_layers.map (fun _ => List.replicate loops_num 0) }

/-- One layer of `CustomData_copy_data(src, dst, source_index, dest_index, count)`. -/
def copy_layer {α : Type} [Inhabited α] (src dst : List α)
    (source_index dest_index count : Nat) : List α :=
  forRange 0 count
    (fun k d => d.set (dest_index + k) (src.getD (source_index + k) default)) dst

/-- The call `CustomData_copy_data` on a family of layers of one type (same layout on both
sides). -/
def copy_layers {α : Type} [Inhabited α] (src dst : List (List α))
    (source_index dest_index count : Nat) : List (List α) :=
  List.zipWith (fun s d => copy_layer s d source_index dest_index count) src dst

/-- The call `CustomData_copy_data(&mesh->vdata, &result->vdata, ...)`. -/
def CustomData_copy_data_vdata (mesh result : Mesh) (source_index dest_index count : Nat) :
    Mesh :=
  { result with
    positions := copy_layer mesh.positions result.positions source_index dest_index count
    shapekeys := copy_layers mesh.shapekeys result.shapekeys source_index dest_index count
    dvert :=
      match mesh.dvert, result.dvert with
      | some s, some d => some (copy_layer s d source_index dest_index count)
      | _, d => d }

/-- The call `CustomData_copy_data(&mesh->edata, &result->edata, ...)`. -/
def CustomData_copy_data_edata (mesh result : Mesh) (source_index dest_index count : Nat) :
    Mesh :=
  { result with
    edges := copy_layer mesh.edges result.edges source_index dest_index count }

/-- The call `CustomData_copy_data(&mesh->ldata, &result->ldata, ...)`. -/
def CustomData_copy_data_ldata (mesh result : Mesh) (source_index dest_index count : Nat) :
    Mesh :=
  { result with
    corner_verts :=
      copy_layer mesh.corner_verts result.corner_verts source_index dest_index count
    corner_edges :=
      copy_layer mesh.corner_edges result.corner_edges source_index dest_index count
    uv_layers := copy_layers mesh.uv_layers result.uv_layers source_index dest_index count }

/-! ## Plane bisection (lines 29-85) -/

/-- The flag `do_bisect_flip_axis` (lines 35-37). -/
def do_bisect_flip_axis (mmd : MirrorModifierData) (axis : Fin 3) : Bool :=
  (axis == 0 && flag_test mmd.flag MOD_MIR_BISECT_FLIP_AXIS_X) ||
  (axis == 1 && flag_test mmd.flag MOD_MIR_BISECT_FLIP_AXIS_Y) ||
  (axis == 2 && flag_test mmd.flag MOD_MIR_BISECT_FLIP_AXIS_Z)

/-- The bisecting plane of lines 57-65. -/
def bisect_plane_of (mmd : MirrorModifierData) (axis : Fin 3) (plane_co plane_no : float3) :
    float4 :=
  let plane_no := if !do_bisect_flip_axis mmd axis then negate_v3_v3 plane_no else plane_no
  plane_from_point_normal_v3 plane_co plane_no

/-- The offset plane used for vertex killing (lines 69-72). -/
def bisect_plane_offset (fa : FloatArith) (plane : float4) (bisect_distance : ℚ) : float4 :=
  ![plane 0, plane 1, plane 2, fa.sub (plane 3) bisect_distance]

/-- The function `BKE_mesh_mirror_bisect_on_mirror_plane_for_modifier`. The conversions to
and from BMesh are the identity of the embedding. -/
def BKE_mesh_mirror_bisect_on_mirror_plane_for_modifier (fa : FloatArith)
    (ops : Collaborators) (mmd : MirrorModifierData) (mesh : Mesh) (axis : Fin 3)
    (plane_co plane_no : float3) : Mesh :=
  let bisect_distance := mmd.bisect_threshold
  let bm := mesh
  let plane := bisect_plane_of mmd axis plane_co plane_no
  let bm := ops.bisect_plane bm plane bisect_distance
  let plane_offset := bisect_plane_offset fa plane bisect_distance
  let bm := ops.verts_kill bm
    ((List.range bm.totvert).filter
      (fun v => decide (plane_point_side_v3 plane_offset (bm.positions.getD v 0) > 0)))
  bm

/-! ## Mirror transform (lines 123-186) -/

/-- The flag `do_vtargetmap` (line 124); `want_merge_map` is `r_vert_merge_map != nullptr`. -/
def do_vtargetmap (mmd : MirrorModifierData) (want_merge_map : Bool) : Bool :=
  (!flag_test mmd.flag MOD_MIR_NO_MERGE) && want_merge_map

/-- The flag `do_bisect` (lines 126-128). -/
def do_bisect (mmd : MirrorModifierData) (axis : Fin 3) : Bool :=
  (axis == 0 && flag_test mmd.flag MOD_MIR_BISECT_AXIS_X) ||
  (axis == 1 && flag_test mmd.flag MOD_MIR_BISECT_AXIS_Y) ||
  (axis == 2 && flag_test mmd.flag MOD_MIR_BISECT_AXIS_Z)

/-- The base mirror matrix of lines 136-137: `unit_m4(mtx); mtx[axis][axis] = -1.0f`. -/
def axis_flip_mtx (axis : Fin 3) : float4x4 :=
  Function.update unit_m4 axis.castSucc
    (Function.update (unit_m4 axis.castSucc) axis.castSucc (-1))

/-- The matrix `tmp` of lines 146-147: from object space to mirror-object space. -/
def mirror_tmp (mirror_ob ob : Object) : float4x4 :=
  mul_m4_m4m4 (invert_m4_m4 mirror_ob.object_to_world) ob.object_to_world

/-- The mirror transformation `mtx` after lines 135-155. -/
def mirror_mtx (mmd : MirrorModifierData) (ob : Object) (axis : Fin 3) : float4x4 :=
  let mtx := axis_flip_mtx axis
  match mmd.mirror_ob with
  | some mirror_ob =>
    let tmp := mirror_tmp mirror_ob ob
    let itmp := invert_m4_m4 tmp
    mul_m4_m4m4 (mul_m4_m4m4 itmp mtx) tmp
  | none => mtx

/-- The rescaling of the plane normal by the object scale (lines 161-172). -/
def rescale_plane_no (fa : FloatArith) (ob : Object) (plane_no : float3) : float3 :=
  let ob_scale : float3 :=
    ![len_squared_v3 (v3_of_v4 (ob.object_to_world 0)),
      len_squared_v3 (v3_of_v4 (ob.object_to_world 1)),
      len_squared_v3 (v3_of_v4 (ob.object_to_world 2))]
  let ob_scale_max := max_fff (ob_scale 0) (ob_scale 1) (ob_scale 2)
  if ob_scale_max ≠ 0 then
    let ob_scale := mul_v3_fl fa ob_scale (fa.div 1 ob_scale_max)
    mul_v3_v3 fa plane_no ob_scale
  else plane_no

/-- The pair `(plane_co, plane_no)` handed to the bisector when `do_bisect` holds
(lines 157-179). -/
def bisect_plane_co_no (fa : FloatArith) (mmd : MirrorModifierData) (ob : Object)
    (axis : Fin 3) : float3 × float3 :=
  match mmd.mirror_ob with
  | some mirror_ob =>
    let itmp := invert_m4_m4 (mirror_tmp mirror_ob ob)
    (v3_of_v4 (itmp 3), rescale_plane_no fa ob (v3_of_v4 (itmp axis.castSucc)))
  | none =>
    let mtx := axis_flip_mtx axis
    (v3_of_v4 (mtx 3), negate_v3_v3 (v3_of_v4 (mtx axis.castSucc)))

/-- The mesh that is doubled (lines 181-186): the input, or its bisection. -/
def source_mesh (fa : FloatArith) (ops : Collaborators) (mmd : MirrorModifierData)
    (ob : Object) (mesh : Mesh) (axis : Fin 3) : Mesh :=
  if do_bisect mmd axis then
    BKE_mesh_mirror_bisect_on_mirror_plane_for_modifier fa ops mmd mesh axis
      (bisect_plane_co_no fa mmd ob axis).1 (bisect_plane_co_no fa mmd ob axis).2
  else mesh

/-! ## Vertex pass (lines 207-277) -/

/-- The state of the vertex loop: the positions of `result`, the merge map
`*r_vert_merge_map` and the counter `*r_vert_merge_map_len`. -/
structure VertLoopState where
  positions : List float3
  vert_merge_map : List Int
  vert_merge_map_len : Nat

/-- One iteration of the vertex loop (lines 220-277). The pointers `vtmap_a` and `vtmap_b`
are the indices `i` and `src_verts_num + i` of the merge map. -/
def mirror_vert_step (mtx : float4x4) (src_verts_num : Nat) (do_vtargetmap : Bool)
    (use_correct_order_on_merge : Bool) (tolerance_sq : ℚ) (i : Nat) (st : VertLoopState) :
    VertLoopState :=
  let vert_index_prev := i
  let vert_index := src_verts_num + i
  let positions := st.positions.set vert_index (mul_m4_v3 mtx (st.positions.getD vert_index 0))
  if do_vtargetmap then
    if use_correct_order_on_merge then
      if len_squared_v3v3 (positions.getD vert_index_prev 0) (positions.getD vert_index 0) <
          tolerance_sq then
        let vtmap := st.vert_merge_map.set (src_verts_num + i) (i : Int)
        let len := st.vert_merge_map_len + 1
        let positions := positions.set vert_index
          (mid_v3_v3v3 (positions.getD vert_index_prev 0) (positions.getD vert_index 0))
        let positions := positions.set vert_index_prev (positions.getD vert_index 0)
        { positions := positions, vert_merge_map := vtmap.set i (-1),
          vert_merge_map_len := len }
      else
        let vtmap := st.vert_merge_map.set (src_verts_num + i) (-1)
        { positions := positions, vert_merge_map := vtmap.set i (-1),
          vert_merge_map_len := st.vert_merge_map_len }
    else
      if len_squared_v3v3 (positions.getD vert_index_prev 0) (positions.getD vert_index 0) <
          tolerance_sq then
        let vtmap := st.vert_merge_map.set i ((src_verts_num : Int) + (i : Int))
        let len := st.vert_merge_map_len + 1
        let positions := positions.set vert_index
          (mid_v3_v3v3 (positions.getD vert_index_prev 0) (positions.getD vert_index 0))
        let positions := positions.set vert_index_prev (positions.getD vert_index 0)
        { positions := positions, vert_merge_map := vtmap.set (src_verts_num + i) (-1),
          vert_merge_map_len := len }
      else
        let vtmap := st.vert_merge_map.set i (-1)
        { positions := positions, vert_merge_map := vtmap.set (src_verts_num + i) (-1),
          vert_merge_map_len := st.vert_merge_map_len }
  else
    { st with positions := positions }

/-- The vertex loop with its initialisation (lines 207-277): the merge map is allocated with
`2 * src_verts_num` entries and the counter starts at 0. -/
def mirror_vert_loop (mtx : float4x4) (src_verts_num : Nat) (do_vtargetmap : Bool)
    (use_correct_order_on_merge : Bool) (tolerance_sq : ℚ) (positions : List float3) :
    VertLoopState :=
  forRange 0 src_verts_num
    (mirror_vert_step mtx src_verts_num do_vtargetmap use_correct_order_on_merge tolerance_sq)
    { positions := positions
      vert_merge_map := List.replicate (src_verts_num * 2) 0
      vert_merge_map_len := 0 }

/-! ## Shape keys, edges, faces and corners (lines 279-333) -/

/-- The shape-key loop over one layer (lines 284-286). -/
def mirror_shapekey_layer (mtx : float4x4) (src_verts_num totvert : Nat) (cos : List float3) :
    List float3 :=
  forRange src_verts_num totvert (fun i cos => cos.set i (mul_m4_v3 mtx (cos.getD i 0))) cos

/-- The operator `int2 += int` used on edges. -/
def int2_add (e : Int × Int) (n : Int) : Int × Int := (e.1 + n, e.2 + n)

/-- The loop "adjust mirrored edge vertex indices" (lines 295-297). -/
def adjust_edges (src_edges_num src_verts_num : Nat) (result_edges : List (Int × Int)) :
    List (Int × Int) :=
  forRange src_edges_num result_edges.length
    (fun i es => es.set i (int2_add (es.getD i (0, 0)) (src_verts_num : Int))) result_edges

/-- The face offsets of the result (lines 299-302). -/
def mirror_poly_offsets (mesh : Mesh) (result_poly_offsets : List Nat) : List Nat :=
  let src_loops_num := mesh.totloop
  let offsets := copy_layer mesh.poly_offsets result_poly_offsets 0 0 mesh.polys_size
  forRange 0 mesh.polys_size
    (fun i o => o.set (mesh.polys_size + i) ((mesh.poly i).start + src_loops_num)) offsets

/-- The body of the loop "reverse loop order" for source face `i` (lines 307-324). -/
def reverse_poly_step (mesh : Mesh) (i : Nat) (result : Mesh) : Mesh :=
  let src_poly := mesh.poly i
  let mirror_i := mesh.polys_size + i
  let mirror_poly := result.poly mirror_i
  let result := CustomData_copy_data_ldata mesh result src_poly.start mirror_poly.start 1
  let result := forRange 1 mirror_poly.size
    (fun j r => CustomData_copy_data_ldata mesh r (src_poly.get j) (mirror_poly.last (j - 1)) 1)
    result
  let e := result.corner_edges.getD mirror_poly.start 0
  let corner_edges := forRange 0 (mirror_poly.size - 1)
    (fun j ce => ce.set (mirror_poly.start + j) (ce.getD (mirror_poly.start + (j + 1)) 0))
    result.corner_edges
  let corner_edges := corner_edges.set (mirror_poly.last 0) e
  { result with corner_edges := corner_edges }

/-- The loops "adjust mirrored loop vertex and edge indices" (lines 328-333), on one array. -/
def adjust_corners (src_loops_num : Nat) (offset : Nat) (corners : List Int) : List Int :=
  forRange src_loops_num corners.length
    (fun i cs => cs.set i (cs.getD i 0 + (offset : Int))) corners

/-! ## UV pass (lines 343-383) -/

/-- The body of the UV loop for one corner value (lines 361-380). -/
def mirror_uv (fa : FloatArith) (mmd : MirrorModifierData) (uv : float2) : float2 :=
  let do_mirr_u := flag_test mmd.flag MOD_MIR_MIRROR_U
  let do_mirr_v := flag_test mmd.flag MOD_MIR_MIRROR_V
  let do_mirr_udim := flag_test mmd.flag MOD_MIR_MIRROR_UDIM
  let u :=
    if do_mirr_u then
      if do_mirr_udim then fa.add (fa.sub (ceilf (uv 0)) (fmodf_one (uv 0))) (mmd.uv_offset 0)
      else fa.add (fa.sub 1 (uv 0)) (mmd.uv_offset 0)
    else uv 0
  let v :=
    if do_mirr_v then
      if do_mirr_udim then fa.add (fa.sub (ceilf (uv 1)) (fmodf_one (uv 1))) (mmd.uv_offset 1)
      else fa.add (fa.sub 1 (uv 1)) (mmd.uv_offset 1)
    else uv 1
  ![fa.add u (mmd.uv_offset_copy 0), fa.add v (mmd.uv_offset_copy 1)]

/-- The UV loop over one layer: the second set of loops only (lines 358-381). -/
def mirror_uv_layer (fa : FloatArith) (mmd : MirrorModifierData) (src_loops_num : Nat)
    (dmloopuv : List float2) : List float2 :=
  forRange src_loops_num (src_loops_num + src_loops_num)
    (fun c uvs => uvs.set c (mirror_uv fa mmd (uvs.getD c 0))) dmloopuv

/-- The UV pass with its guard (lines 345-383). -/
def mirror_uvs (fa : FloatArith) (mmd : MirrorModifierData) (src_loops_num : Nat)
    (uv_layers : List (List float2)) : List (List float2) :=
  if flag_test mmd.flag (MOD_MIR_MIRROR_U ||| MOD_MIR_MIRROR_V) ||
      (is_zero_v2 mmd.uv_offset_copy == false) then
    uv_layers.map (mirror_uv_layer fa mmd src_loops_num)
  else uv_layers

/-! ## Vertex groups (lines 447-472) -/

/-- One iteration of the vertex-group loop (lines 454-467). The pointer `dvert` starts at
`src_verts_num` and advances with `i`, so it designates the entry `src_verts_num + i`. -/
def vgroup_step (ops : Collaborators) (src_verts_num : Nat) (use_correct_order_on_merge : Bool)
    (do_vtargetmap : Bool) (vert_merge_map : List Int) (flip_map : List Int) (i : Nat)
    (dverts : List MDeformVert) : List MDeformVert :=
  let dvert := src_verts_num + i
  if use_correct_order_on_merge && do_vtargetmap &&
      (vert_merge_map.getD (i + src_verts_num) 0 != -1) then
    dverts.set (dvert - src_verts_num)
      (ops.defvert_flip_merged (dverts.getD (dvert - src_verts_num) []) flip_map)
  else if !use_correct_order_on_merge && do_vtargetmap && (vert_merge_map.getD i 0 != -1) then
    dverts.set dvert (ops.defvert_flip_merged (dverts.getD dvert []) flip_map)
  else
    dverts.set dvert (ops.defvert_flip (dverts.getD dvert []) flip_map)

/-- The vertex-group pass with its guards (lines 448-472). -/
def mirror_vgroups (ops : Collaborators) (mmd : MirrorModifierData) (ob : Object)
    (src_verts_num : Nat) (use_correct_order_on_merge : Bool) (do_vtargetmap : Bool)
    (vert_merge_map : List Int) (dvert : Option (List MDeformVert)) :
    Option (List MDeformVert) :=
  if ob.supports_vertex_groups then
    match flag_test mmd.flag MOD_MIR_VGROUP, dvert with
    | true, some dverts =>
      match ob.defgroup_flip_map with
      | some flip_map =>
        some (forRange 0 src_verts_num
          (vgroup_step ops src_verts_num use_correct_order_on_merge do_vtargetmap
            vert_merge_map flip_map) dverts)
      | none => some dverts
    | _, d => d
  else dvert

/-! ## The mirror kernel (lines 115-478) -/

/-- The function `BKE_mesh_mirror_apply_mirror_on_axis_for_modifier`. `want_merge_map` is
`r_vert_merge_map != nullptr`; the second component of the value is the pair
`(*r_vert_merge_map, *r_vert_merge_map_len)` when the function writes them and `none` when
it leaves them untouched. The custom split normal pass (lines 385-445) writes only the
custom-normal layer, which is not part of `Mesh`, and the display-edge bitset (lines
335-341) is runtime data outside `Mesh`. -/
def BKE_mesh_mirror_apply_mirror_on_axis_for_modifier (fa : FloatArith) (ops : Collaborators)
    (mmd : MirrorModifierData) (ob : Object) (mesh : Mesh) (axis : Fin 3)
    (use_correct_order_on_merge : Bool) (want_merge_map : Bool) :
    Mesh × Option (List Int × Nat) :=
  let tolerance_sq := fa.mul mmd.tolerance mmd.tolerance
  let do_vtargetmap := do_vtargetmap mmd want_merge_map
  let mtx := mirror_mtx mmd ob axis
  let mesh := source_mesh fa ops mmd ob mesh axis
  let src_verts_num := mesh.totvert
  let src_edges_num := mesh.totedge
  let src_polys_size := mesh.polys_size
  let src_loops_num := mesh.totloop
  let result := BKE_mesh_new_nomain_from_template mesh
    (src_verts_num * 2) (src_edges_num * 2) (src_polys_size * 2) (src_loops_num * 2)
  -- Copy custom-data to original geometry.
  let result := CustomData_copy_data_vdata mesh result 0 0 src_verts_num
  let result := CustomData_copy_data_edata mesh result 0 0 src_edges_num
  let result := CustomData_copy_data_ldata mesh result 0 0 src_loops_num
  -- Copy custom data to mirrored geometry. Loops are copied later.
  let result := CustomData_copy_data_vdata mesh result 0 src_verts_num src_verts_num
  let result := CustomData_copy_data_edata mesh result 0 src_edges_num src_edges_num
  -- mirror vertex coordinates
  let vst := mirror_vert_loop mtx src_verts_num do_vtargetmap use_correct_order_on_merge
    tolerance_sq result.positions
  let result := { result with positions := vst.positions }
  -- handle shape keys
  let result := { result with
    shapekeys := result.shapekeys.map (mirror_shapekey_layer mtx src_verts_num result.totvert) }
  -- adjust mirrored edge vertex indices
  let result := { result with edges := adjust_edges src_edges_num src_verts_num result.edges }
  let result := { result with poly_offsets := mirror_poly_offsets mesh result.poly_offsets }
  -- reverse loop order (normals)
  let result := forRange 0 src_polys_size (reverse_poly_step mesh) result
  -- adjust mirrored loop vertex and edge indices
  let result := { result with
    corner_verts := adjust_corners src_loops_num src_verts_num result.corner_verts }
  let result := { result with
    corner_edges := adjust_corners src_loops_num src_edges_num result.corner_edges }
  -- handle uvs
  let result := { result with uv_layers := mirror_uvs fa mmd src_loops_num result.uv_layers }
  -- handle vgroup stuff
  let result := { result with
    dvert := mirror_vgroups ops mmd ob src_verts_num use_correct_order_on_merge do_vtargetmap
      vst.vert_merge_map result.dvert }
  (result, if do_vtargetmap then some (vst.vert_merge_map, vst.vert_merge_map_len) else none)

/-! ## Intermediate values of the kernel

The definitions of this section name intermediate values of the kernel (one layer of
`result` after a given line); the lemmas below prove that the kernel computes them. -/

/-- Everything of a mesh except its corner-domain layers: what the loop "reverse loop
order" leaves untouched. -/
def Mesh.non_corner_data (m : Mesh) :
    Nat × Nat × Nat × Nat × List float3 × List (List float3) × Option (List MDeformVert) ×
      List (Int × Int) × List Nat :=
  (m.totvert, m.totedge, m.totpoly, m.totloop, m.positions, m.shapekeys, m.dvert, m.edges,
    m.poly_offsets)

/-- The test of lines 240 and 257 for a vertex at `p` whose copy holds `p2` before the
mirror matrix is applied to it. -/
def merge_test (mtx : float4x4) (tolerance_sq : ℚ) (p p2 : float3) : Bool :=
  decide (len_squared_v3v3 p (mul_m4_v3 mtx p2) < tolerance_sq)

/-- The position layer of `result` after the two vertex copies of lines 197 and 203. -/
def doubled_positions (mesh : Mesh) : List float3 :=
  copy_layer mesh.positions
    (copy_layer mesh.positions (List.replicate (mesh.totvert * 2) 0) 0 0 mesh.totvert)
    0 mesh.totvert mesh.totvert

/-- The final state of the vertex loop inside the kernel. -/
def vert_pass (fa : FloatArith) (ops : Collaborators) (mmd : MirrorModifierData) (ob : Object)
    (mesh : Mesh) (axis : Fin 3) (uco wmm : Bool) : VertLoopState :=
  mirror_vert_loop (mirror_mtx mmd ob axis) (source_mesh fa ops mmd ob mesh axis).totvert
    (do_vtargetmap mmd wmm) uco (fa.mul mmd.tolerance mmd.tolerance)
    (doubled_positions (source_mesh fa ops mmd ob mesh axis))

/-- The effect of lines 313-317 on one corner layer: the first corner of the source face is
copied to the first corner of the mirrored face, the others in reverse order. -/
def reverse_poly_layer {α : Type} [Inhabited α] (src : List α) (src_poly mirror_poly : IndexRange)
    (dst : List α) : List α :=
  forRange 1 mirror_poly.size
    (fun j d => copy_layer src d (src_poly.get j) (mirror_poly.last (j - 1)) 1)
    (copy_layer src dst src_poly.start mirror_poly.start 1)

/-- The effect of lines 319-324 on the corner-edge array: the entries of the mirrored face
are shifted down by one and the first entry becomes the last. -/
def rotate_poly_edges (mirror_poly : IndexRange) (corner_edges : List Int) : List Int :=
  (forRange 0 (mirror_poly.size - 1)
    (fun j ce => ce.set (mirror_poly.start + j) (ce.getD (mirror_poly.start + (j + 1)) 0))
    corner_edges).set (mirror_poly.last 0) (corner_edges.getD mirror_poly.start 0)

/-- The edge layer of `result` after the two edge copies of lines 198 and 204. -/
def doubled_edges (mesh : Mesh) : List (Int × Int) :=
  copy_layer mesh.edges
    (copy_layer mesh.edges (List.replicate (mesh.totedge * 2) (0, 0)) 0 0 mesh.totedge)
    0 mesh.totedge mesh.totedge

/-- The face offsets of `result` after lines 299-302. -/
def result_poly_offsets (mesh : Mesh) : List Nat :=
  mirror_poly_offsets mesh (fresh_poly_offsets (mesh.totpoly * 2) (mesh.totloop * 2))

/-- The corner-vertex layer of `result` after the loop "reverse loop order", before the
index adjustment of lines 328-330. -/
def reversed_corner_verts (mesh : Mesh) : List Int :=
  forRange 0 mesh.polys_size
    (fun i cv => reverse_poly_layer mesh.corner_verts (mesh.poly i)
      (OffsetIndices_get (result_poly_offsets mesh) (mesh.polys_size + i)) cv)
    (copy_layer mesh.corner_verts (List.replicate (mesh.totloop * 2) 0) 0 0 mesh.totloop)

/-- The corner-edge layer of `result` after the loop "reverse loop order", before the index
adjustment of lines 331-333. -/
def reversed_corner_edges (mesh : Mesh) : List Int :=
  forRange 0 mesh.polys_size
    (fun i ce => rotate_poly_edges
      (OffsetIndices_get (result_poly_offsets mesh) (mesh.polys_size + i))
      (reverse_poly_layer mesh.corner_edges (mesh.poly i)
        (OffsetIndices_get (result_poly_offsets mesh) (mesh.polys_size + i)) ce))
    (copy_layer mesh.corner_edges (List.replicate (mesh.totloop * 2) 0) 0 0 mesh.totloop)

/-- The face invariant of the input mesh (section 3 of the specification): the face corner
ranges are non-empty and contiguous, running from offset `0` to offset `totloop`. -/
def Mesh.faces_ok (m : Mesh) : Prop :=
  m.poly_offsets.getD 0 0 = 0 ∧ m.poly_offsets.getD m.totpoly 0 = m.totloop ∧
    ∀ i, i < m.totpoly → m.poly_offsets.getD i 0 < m.poly_offsets.getD (i + 1) 0

instance (m : Mesh) : Decidable m.faces_ok := by
  unfold Mesh.faces_ok
  infer_instance

/-! ## Example inputs -/

/-- A small mesh: the unit quad `0-1-2-3` in the plane `z = 0` with a triangle `1-4-2`
attached to its edge `1-2`. Vertices 0 and 3 lie on the plane `x = 0`. -/
def example_mesh : Mesh :=
  { totvert := 5
    totedge := 6
    totpoly := 2
    totloop := 7
    positions := [![0, 0, 0], ![1, 0, 0], ![1, 1, 0], ![0, 1, 0], ![2, 1 / 2, 0]]
    shapekeys := []
    dvert := none
    edges := [(0, 1), (1, 2), (2, 3), (3, 0), (1, 4), (4, 2)]
    poly_offsets := [0, 4, 7]
    corner_verts := [0, 1, 2, 3, 1, 4, 2]
    corner_edges := [0, 1, 2, 3, 4, 5, 1]
    uv_layers := [] }

/-- An object at the world origin with no vertex-group flip map. -/
def example_ob : Object :=
  { object_to_world := unit_m4
    supports_vertex_groups := true
    defgroup_flip_map := none
    use_custom_normals := false }

/-- Mirror settings with merging enabled (tolerance 1/2), no bisection, no reference
object. -/
def example_mmd : MirrorModifierData :=
  { flag := 0
    tolerance := 1 / 2
    bisect_threshold := 0
    uv_offset := ![0, 0]
    uv_offset_copy := ![0, 0]
    mirror_ob := none }

/-- Collaborators that leave their argument unchanged. -/
def example_ops : Collaborators :=
  { bisect_plane := fun m _ _ => m
    verts_kill := fun m _ => m
    defvert_flip := fun d _ => d
    defvert_flip_merged := fun d _ => d }

/-- The unit cube `[0, 1]³`: 8 vertices, 12 edges, 6 quads, 24 corners. Vertex
`x + 2 y + 4 z` is at `(x, y, z)`. -/
def unit_cube : Mesh :=
  { totvert := 8
    totedge := 12
    totpoly := 6
    totloop := 24
    positions := [![0, 0, 0], ![1, 0, 0], ![0, 1, 0], ![1, 1, 0],
      ![0, 0, 1], ![1, 0, 1], ![0, 1, 1], ![1, 1, 1]]
    shapekeys := []
    dvert := none
    edges := [(0, 1), (0, 2), (0, 4), (1, 3), (1, 5), (2, 3), (2, 6), (3, 7), (4, 5), (4, 6),
      (5, 7), (6, 7)]
    poly_offsets := [0, 4, 8, 12, 16, 20, 24]
    corner_verts := [0, 2, 3, 1, 4, 5, 7, 6, 0, 1, 5, 4, 2, 6, 7, 3, 0, 4, 6, 2, 1, 3, 7, 5]
    corner_edges := [1, 5, 3, 0, 8, 10, 11, 9, 0, 4, 8, 2, 6, 11, 7, 5, 2, 9, 6, 1, 3, 7, 10, 4]
    uv_layers := [] }

/-- Mirror settings with merging disabled (`MOD_MIR_NO_MERGE`), no bisection, no reference
object. -/
def example_mmd_no_merge : MirrorModifierData :=
  { flag := MOD_MIR_NO_MERGE
    tolerance := 1 / 1000
    bisect_threshold := 1 / 1000
    uv_offset := ![0, 0]
    uv_offset_copy := ![0, 0]
    mirror_ob := none }

/-- Mirror settings with `MOD_MIR_MIRROR_U` and `MOD_MIR_MIRROR_UDIM` set and all UV offsets
zero. -/
def example_mmd_udim : MirrorModifierData :=
  { flag := MOD_MIR_MIRROR_U ||| MOD_MIR_MIRROR_UDIM
    tolerance := 1 / 1000
    bisect_threshold := 1 / 1000
    uv_offset := ![0, 0]
    uv_offset_copy := ![0, 0]
    mirror_ob := none }

/-- Mirror settings with `MOD_MIR_MIRROR_U` set, UDIM mode off, flip offset
`uv_offset[0] = 1/2` and zero copy offset. -/
def example_mmd_flip_offset : MirrorModifierData :=
  { flag := MOD_MIR_MIRROR_U
    tolerance := 1 / 1000
    bisect_threshold := 1 / 1000
    uv_offset := ![1 / 2, 0]
    uv_offset_copy := ![0, 0]
    mirror_ob := none }

/-- Mirror settings with `MOD_MIR_MIRROR_U` and `MOD_MIR_MIRROR_V` set, UDIM mode off and
all UV offsets zero. -/
def example_mmd_flip_uv : MirrorModifierData :=
  { flag := MOD_MIR_MIRROR_U ||| MOD_MIR_MIRROR_V
    tolerance := 1 / 1000
    bisect_threshold := 1 / 1000
    uv_offset := ![0, 0]
    uv_offset_copy := ![0, 0]
    mirror_ob := none }

/-- The flip flag that `do_bisect_flip_axis` tests for the given axis (lines 35-37). -/
def bisect_flip_flag (axis : Fin 3) : Nat :=
  if axis = 0 then MOD_MIR_BISECT_FLIP_AXIS_X
  else if axis = 1 then MOD_MIR_BISECT_FLIP_AXIS_Y
  else MOD_MIR_BISECT_FLIP_AXIS_Z

/-- The mesh after the cut of line 67, before the vertex killing. -/
def bisect_cut (ops : Collaborators) (mmd : MirrorModifierData) (mesh : Mesh) (axis : Fin 3)
    (plane_co plane_no : float3) : Mesh :=
  ops.bisect_plane mesh (bisect_plane_of mmd axis plane_co plane_no) mmd.bisect_threshold

/-- The vertices of the cut mesh that the loop of lines 75-79 kills. -/
def bisect_kill_list (fa : FloatArith) (ops : Collaborators) (mmd : MirrorModifierData)
    (mesh : Mesh) (axis : Fin 3) (plane_co plane_no : float3) : List Nat :=
  (List.range (bisect_cut ops mmd mesh axis plane_co plane_no).totvert).filter
    (fun v => decide (plane_point_side_v3
      (bisect_plane_offset fa (bisect_plane_of mmd axis plane_co plane_no)
        mmd.bisect_threshold)
      ((bisect_cut ops mmd mesh axis plane_co plane_no).positions.getD v 0) > 0))

/-- Mirror settings with bisection on the X axis (`MOD_MIR_BISECT_AXIS_X`), flip off,
threshold 1/10, no reference object. -/
def example_mmd_bisect : MirrorModifierData :=
  { flag := MOD_MIR_BISECT_AXIS_X
    tolerance := 1 / 1000
    bisect_threshold := 1 / 10
    uv_offset := ![0, 0]
    uv_offset_copy := ![0, 0]
    mirror_ob := none }

/-- The settings of `example_mmd_bisect` with the flip flag of the X axis also set. -/
def example_mmd_bisect_flip : MirrorModifierData :=
  { flag := MOD_MIR_BISECT_AXIS_X ||| MOD_MIR_BISECT_FLIP_AXIS_X
    tolerance := 1 / 1000
    bisect_threshold := 1 / 10
    uv_offset := ![0, 0]
    uv_offset_copy := ![0, 0]
    mirror_ob := none }

/-- Mirror settings with merging enabled and a zero merge tolerance. -/
def example_mmd_zero_tol : MirrorModifierData :=
  { flag := 0
    tolerance := 0
    bisect_threshold := 0
    uv_offset := ![0, 0]
    uv_offset_copy := ![0, 0]
    mirror_ob := none }

/-- A corner layer of `result` after the first-half copy of line 200 and the loop "reverse
loop order", for a source layer `sl` whose result layer was allocated filled with `z`. -/
def reversed_layer {α : Type} [Inhabited α] (mesh : Mesh) (sl : List α) (z : α) : List α :=
  forRange 0 mesh.polys_size
    (fun i l => reverse_poly_layer sl (mesh.poly i)
      (OffsetIndices_get (result_poly_offsets mesh) (mesh.polys_size + i)) l)
    (copy_layer sl (List.replicate (mesh.totloop * 2) z) 0 0 mesh.totloop)

/-- The mesh `result` after lines 188-302 of the kernel (allocation, custom-data copies,
vertex pass, shape keys, edge adjustment, face offsets), before the loop "reverse loop
order". -/
def result_before_reverse (fa : FloatArith) (ops : Collaborators) (mmd : MirrorModifierData)
    (ob : Object) (mesh : Mesh) (axis : Fin 3) (uco wmm : Bool) : Mesh :=
  let mtx := mirror_mtx mmd ob axis
  let mesh := source_mesh fa ops mmd ob mesh axis
  let src_verts_num := mesh.totvert
  let src_edges_num := mesh.totedge
  let src_polys_size := mesh.polys_size
  let src_loops_num := mesh.totloop
  let result := BKE_mesh_new_nomain_from_template mesh
    (src_verts_num * 2) (src_edges_num * 2) (src_polys_size * 2) (src_loops_num * 2)
  let result := CustomData_copy_data_vdata mesh result 0 0 src_verts_num
  let result := CustomData_copy_data_edata mesh result 0 0 src_edges_num
  let result := CustomData_copy_data_ldata mesh result 0 0 src_loops_num
  let result := CustomData_copy_data_vdata mesh result 0 src_verts_num src_verts_num
  let result := CustomData_copy_data_edata mesh result 0 src_edges_num src_edges_num
  let vst := mirror_vert_loop mtx src_verts_num (do_vtargetmap mmd wmm) uco
    (fa.mul mmd.tolerance mmd.tolerance) result.positions
  let result := { result with positions := vst.positions }
  let result := { result with
    shapekeys := result.shapekeys.map (mirror_shapekey_layer mtx src_verts_num result.totvert) }
  let result := { result with edges := adjust_edges src_edges_num src_verts_num result.edges }
  { result with poly_offsets := mirror_poly_offsets mesh result.poly_offsets }

/-- A single triangle with one UV layer. -/
def example_uv_mesh : Mesh :=
  { totvert := 3
    totedge := 3
    totpoly := 1
    totloop := 3
    positions := [![1, 0, 0], ![2, 0, 0], ![1, 1, 0]]
    shapekeys := []
    dvert := none
    edges := [(0, 1), (1, 2), (2, 0)]
    poly_offsets := [0, 3]
    corner_verts := [0, 1, 2]
    corner_edges := [0, 1, 2]
    uv_layers := [[![0, 0], ![1 / 2, 0], ![1 / 4, 1]]] }

/-- Mirror settings that flip U with a flip offset and a copy offset, without UDIM. -/
def example_mmd_uv_offsets : MirrorModifierData :=
  { flag := MOD_MIR_MIRROR_U
    tolerance := 1 / 1000
    bisect_threshold := 1 / 1000
    uv_offset := ![1 / 8, 0]
    uv_offset_copy := ![2, 3]
    mirror_ob := none }

/-- The index of the deform-vert entry that iteration `i` of the vertex-group loop passes to
the collaborator: `dvert - src_verts_num` at line 458, `dvert` at lines 462 and 465. -/
def vgroup_entry (src_verts_num : Nat) (uco do_vtargetmap : Bool) (vert_merge_map : List Int)
    (i : Nat) : Nat :=
  if uco && do_vtargetmap && (vert_merge_map.getD (i + src_verts_num) 0 != -1) then i
  else src_verts_num + i

/-- The collaborator call of iteration `i` of the vertex-group loop (lines 456-466). -/
def vgroup_call (ops : Collaborators) (src_verts_num : Nat) (uco do_vtargetmap : Bool)
    (vert_merge_map : List Int) (flip_map : List Int) (i : Nat) (d : MDeformVert) :
    MDeformVert :=
  if uco && do_vtargetmap && (vert_merge_map.getD (i + src_verts_num) 0 != -1) then
    ops.defvert_flip_merged d flip_map
  else if !uco && do_vtargetmap && (vert_merge_map.getD i 0 != -1) then
    ops.defvert_flip_merged d flip_map
  else ops.defvert_flip d flip_map

/-- The deform-vert layer of `result` after the two vertex copies of lines 197 and 203. -/
def doubled_dvert (N : Nat) (sd : List MDeformVert) : List MDeformVert :=
  copy_layer sd (copy_layer sd (List.replicate (N * 2) []) 0 0 N) 0 N N

/-- Modelled from the spec: an instance of the vertex-group collaborators
`BKE_defvert_flip` and `BKE_defvert_flip_merged` (not under `src/`), for the examples:
the flip "flips the single vertex's own weight group assignments via the map" (a group
whose map entry is non-negative is renamed to that entry), and the merging flip "combines
both sides' weight assignments under the flip map" (the renamed assignments are added to
the existing ones). -/
def example_flip_ops : Collaborators :=
  { bisect_plane := fun m _ _ => m
    verts_kill := fun m _ => m
    defvert_flip := fun d fm =>
      d.map (fun gw => if 0 ≤ fm.getD gw.1.toNat (-1) then (fm.getD gw.1.toNat (-1), gw.2) else gw)
    defvert_flip_merged := fun d fm =>
      d ++ d.map
        (fun gw => if 0 ≤ fm.getD gw.1.toNat (-1) then (fm.getD gw.1.toNat (-1), gw.2) else gw) }

/-- An object whose vertex groups 0 and 1 are each other's flip counterpart. -/
def example_ob_flip : Object :=
  { object_to_world := unit_m4
    supports_vertex_groups := true
    defgroup_flip_map := some [1, 0]
    use_custom_normals := false }

/-- Mirror settings with vertex-group mirroring enabled. -/
def example_mmd_vgroup : MirrorModifierData :=
  { flag := MOD_MIR_VGROUP
    tolerance := 1 / 10
    bisect_threshold := 1 / 1000
    uv_offset := ![0, 0]
    uv_offset_copy := ![0, 0]
    mirror_ob := none }

/-- Two vertices at `(1, 0, 0)` and `(2, 1, 0)`, both assigned to vertex group 0. -/
def example_vgroup_mesh : Mesh :=
  { totvert := 2
    totedge := 1
    totpoly := 0
    totloop := 0
    positions := [![1, 0, 0], ![2, 1, 0]]
    shapekeys := []
    dvert := some [[(0, 1)], [(0, 1 / 2)]]
    edges := [(0, 1)]
    poly_offsets := []
    corner_verts := []
    corner_edges := []
    uv_layers := [] }

/-- An affine transform in the storage of a `float[4][4]`: the fourth component of the three
basis rows is 0 and that of the translation row is 1. Object world matrices are of this
form. -/
def is_affine (m : float4x4) : Prop := m 0 3 = 0 ∧ m 1 3 = 0 ∧ m 2 3 = 0 ∧ m 3 3 = 1

instance (m : float4x4) : Decidable (is_affine m) := by
  unfold is_affine
  infer_instance

/-- A reference object translated by 2 along X and scaled by 2 along Y. -/
def example_mirror_ob : Object :=
  { object_to_world := ![![1, 0, 0, 0], ![0, 2, 0, 0], ![0, 0, 1, 0], ![2, 0, 0, 1]]
    supports_vertex_groups := true
    defgroup_flip_map := none
    use_custom_normals := false }

/-- Mirror settings with the reference object `example_mirror_ob`. -/
def example_mmd_mirror_ob : MirrorModifierData :=
  { flag := 0
    tolerance := 1 / 1000
    bisect_threshold := 1 / 1000
    uv_offset := ![0, 0]
    uv_offset_copy := ![0, 0]
    mirror_ob := some example_mirror_ob }

/-- Two vertices, the first on the plane `x = 0`, with one shape-key layer. -/
def example_shapekey_mesh : Mesh :=
  { totvert := 2
    totedge := 1
    totpoly := 0
    totloop := 0
    positions := [![0, 1, 0], ![1, 0, 0]]
    shapekeys := [[![1 / 4, 1, 0], ![1, 2, 3]]]
    dvert := none
    edges := [(0, 1)]
    poly_offsets := []
    corner_verts := []
    corner_edges := []
    uv_layers := [] }

/-- An object at the origin scaled by 1, 2 and 1/2 along its three axes. -/
def example_ob_scaled : Object :=
  { object_to_world := ![![1, 0, 0, 0], ![0, 2, 0, 0], ![0, 0, 1 / 2, 0], ![0, 0, 0, 1]]
    supports_vertex_groups := true
    defgroup_flip_map := none
    use_custom_normals := false }

/-- Edge `e` of the edge array `edges` joins the vertices `a` and `b`, as an unordered
pair. -/
def edge_joins (edges : List (Int × Int)) (e a b : Int) : Prop :=
  0 ≤ e ∧ (edges[e.toNat]? = some (a, b) ∨ edges[e.toNat]? = some (b, a))

instance (edges : List (Int × Int)) (e a b : Int) : Decidable (edge_joins edges e a b) := by
  unfold edge_joins
  infer_instance

/-- The index `mirrorj` of the custom-normal pass (lines 427-430), in the `int` arithmetic of
the source: `src_poly` is `src_polys[i]`, `mirror_poly` is `result_polys[mirror_i]` and `j`
a corner of `src_poly`. -/
def mirrorj (src_poly mirror_poly : IndexRange) (j : Nat) : Int :=
  if j > src_poly.start then
    (mirror_poly.start : Int) + ((mirror_poly.size : Int) - ((j : Int) - (src_poly.start : Int)))
  else (mirror_poly.start : Int)

/-- The destination corner of the copies of the loop "reverse loop order" (lines 313-317):
corner `src_poly[0]` is copied to `mirror_poly.start()` and corner `src_poly[t]`, `t ≥ 1`, to
`mirror_poly.last(t - 1)`. -/
def reversal_dest (mirror_poly : IndexRange) (t : Nat) : Nat :=
  if t = 0 then mirror_poly.start else mirror_poly.last (t - 1)

/-! ## The hook modifier's vertex-index setter (`rna_modifier.c`, lines 974-1013) -/

/-- The fields of `HookModifierData` that the setter touches: the index array `indexar`
(`none` for a null pointer) and its length `indexar_num`. -/
structure HookModifierData where
  indexar : Option (List Int)
  indexar_num : Int
deriving DecidableEq

/-- The error reports of the setter (`BKE_reportf(reports, RPT_ERROR, ...)`). -/
inductive HookReport where
  | negative_index : HookReport
  | duplicate_index (value : Int) : HookReport
deriving DecidableEq

/-- A `for (i = lo; i < hi; i++)` loop whose body returns from the function when `p i`
holds: the first such `i`, if any. -/
def loop_find (lo hi : Nat) (p : Nat → Bool) : Option Nat :=
  (List.range' lo (hi - lo)).find? p

/-- Modelled from the spec: `qsort(buffer, n, sizeof(int), BLI_sortutil_cmp_int)`, the C
library sort with the integer comparison of `BLI_sort_utils` (not under `src/`): the buffer
sorted into increasing order. -/
def qsort_int (buffer : List Int) : List Int := buffer.insertionSort (fun a b => a ≤ b)

/-- The function `rna_HookModifier_vertex_indices_set`. The pair `(indices_len, indices)` is
the list `indices`; the value is the modifier data and the report list after the call. -/
def rna_HookModifier_vertex_indices_set (hmd : HookModifierData) (reports : List HookReport)
    (indices : List Int) : HookModifierData × List HookReport :=
  let indices_len := indices.length
  if indices_len = 0 then
    ({ hmd with indexar := none, indexar_num := 0 }, reports)
  else
    -- Reject negative indices.
    match loop_find 0 indices_len (fun i => decide (indices.getD i 0 < 0)) with
    | some _ => (hmd, reports ++ [HookReport.negative_index])
    | none =>
      -- Copy and sort the index array.
      let buffer := qsort_int indices
      -- Reject duplicate indices.
      match loop_find 1 indices_len (fun i => buffer.getD i 0 == buffer.getD (i - 1) 0) with
      | some i => (hmd, reports ++ [HookReport.duplicate_index (buffer.getD i 0)])
      | none =>
        -- Success - save the new array.
        ({ hmd with indexar := some buffer, indexar_num := (indices_len : Int) }, reports)

/-! ## The console indent operator (`console_ops.c`, lines 571-602) -/

/-- The fields of `ConsoleLine` that the indent operator touches: the characters of the C
string `line` (without its terminator), its length `len` and the cursor. The capacity
`len_alloc`, which `console_line_verify_length` only grows, is not modelled. -/
structure ConsoleLine where
  line : List Char
  len : Nat
  cursor : Int
deriving DecidableEq

/-- The selection of `SpaceConsole`. -/
structure SpaceConsole where
  sel_start : Int
  sel_end : Int
deriving DecidableEq

/-- The macro `TAB_LENGTH` (line 445). -/
def TAB_LENGTH : Nat := 4

/-- The function `console_select_offset` (lines 130-134). -/
def console_select_offset (sc : SpaceConsole) (offset : Int) : SpaceConsole :=
  { sel_start := sc.sel_start + offset, sel_end := sc.sel_end + offset }

/-- The function `console_line_cursor_set` (lines 176-197): the cursor clamped to
`[0, len]`. -/
def console_line_cursor_set (cl : ConsoleLine) (cursor : Int) : ConsoleLine :=
  let cursor_new : Int :=
    if cursor < 0 then 0
    else if cursor > (cl.len : Int) then (cl.len : Int)
    else cursor
  if cursor_new = cl.cursor then cl else { cl with cursor := cursor_new }

/-- The function `console_indent_exec` on the line `ci` that `console_history_verify`
returns; the redraw and scroll calls at its end touch neither the line nor the selection. -/
def console_indent_exec (sc : SpaceConsole) (ci : ConsoleLine) : SpaceConsole × ConsoleLine :=
  -- the loop counting the leading spaces
  let spaces := (loop_find 0 ci.len (fun i => ci.line.getD i ' ' != ' ')).getD ci.len
  let len := TAB_LENGTH - spaces % TAB_LENGTH
  -- memmove(ci->line + len, ci->line, ci->len + 1); memset(ci->line, ' ', len);
  let ci := { ci with line := List.replicate len ' ' ++ ci.line.take ci.len }
  let ci := { ci with len := ci.len + len }
  let ci := console_line_cursor_set ci (ci.cursor + (len : Int))
  let sc := console_select_offset sc (len : Int)
  (sc, ci)

/-- A stored hook index array. -/
def example_hmd : HookModifierData := { indexar := some [2, 5], indexar_num := 2 }

/-- The console line `" x"` (one leading space) with the cursor at its end. -/
def example_console_line : ConsoleLine := { line := [' ', 'x'], len := 2, cursor := 2 }

/-- A console selection. -/
def example_space_console : SpaceConsole := { sel_start := 0, sel_end := 0 }

/-- A single triangle with one UV layer whose first corner has `u = 0.1f`, the `float`
nearest to one tenth. -/
def example_uv_mesh_tenth : Mesh :=
  { totvert := 3
    totedge := 3
    totpoly := 1
    totloop := 3
    positions := [![1, 0, 0], ![2, 0, 0], ![1, 1, 0]]
    shapekeys := []
    dvert := none
    edges := [(0, 1), (1, 2), (2, 0)]
    poly_offsets := [0, 3]
    corner_verts := [0, 1, 2]
    corner_edges := [0, 1, 2]
    uv_layers := [[![13421773 / 134217728, 0], ![1 / 2, 0], ![1 / 4, 1]]] }

/-- An integer within one half of `y` is the rounding of `y`. -/
theorem round_half_even_of_lt (y : ℚ) (n : Int) (h1 : (n : ℚ) - 1 / 2 < y)
    (h2 : y < (n : ℚ) + 1 / 2) : round_half_even y = n := by
  unfold round_half_even
  by_cases hf : ⌊y⌋ = n
  · have hy : y - (⌊y⌋ : ℚ) < 1 / 2 := by rw [hf]; linarith
    rw [if_pos hy, hf]
  · have hfl : ⌊y⌋ = n - 1 := by
      rw [Int.floor_eq_iff]
      constructor
      · push_cast
        by_contra hc
        push_neg at hc
        have : ⌊y⌋ < n - 1 := by
          rw [Int.floor_lt]
          push_cast
          exact hc
        have h3 : (n : ℚ) - 1 / 2 < n - 1 := lt_trans h1 hc
        linarith
      · push_cast
        have hlt : y < n := by
          by_contra hc
          push_neg at hc
          apply hf
          rw [Int.floor_eq_iff]
          exact ⟨hc, by linarith⟩
        linarith
    have e : ((⌊y⌋ : Int) : ℚ) = (n : ℚ) - 1 := by rw [hfl]; push_cast; ring
    have hy1 : ¬ y - (⌊y⌋ : ℚ) < 1 / 2 := by rw [e]; linarith
    have hy2 : 1 / 2 < y - (⌊y⌋ : ℚ) := by rw [e]; linarith
    rw [if_neg hy1, if_pos hy2, hfl]
    ring

/-- Integers round to themselves. -/
theorem round_half_even_int (n : Int) : round_half_even (n : ℚ) = n :=
  round_half_even_of_lt _ n (by linarith) (by linarith)

/-- The binary exponent of a value between two consecutive powers of two. -/
theorem log2_eq (x : ℚ) (e : Int) (h1 : (2 : ℚ) ^ e ≤ |x|) (h2 : |x| < (2 : ℚ) ^ (e + 1)) :
    Int.log 2 |x| = e := by
  have hpos : 0 < |x| := lt_of_lt_of_le (by positivity) h1
  have a : e ≤ Int.log 2 |x| := (Int.zpow_le_iff_le_log (by norm_num) hpos).1 (by exact_mod_cast h1)
  have b : Int.log 2 |x| < e + 1 := (Int.lt_zpow_iff_log_lt (by norm_num) hpos).1 (by exact_mod_cast h2)
  omega

/-- Evaluation of `f32_round` on a normal-range value. -/
theorem f32_round_val (x : ℚ) (e n : Int) (h1 : (2 : ℚ) ^ e ≤ |x|)
    (h2 : |x| < (2 : ℚ) ^ (e + 1)) (he : -126 ≤ e)
    (hn : round_half_even (x / (2 : ℚ) ^ (e - 23)) = n) :
    f32_round x = (n : ℚ) * (2 : ℚ) ^ (e - 23) := by
  have hx : x ≠ 0 := by
    intro h
    rw [h, abs_zero] at h1
    have : (0 : ℚ) < 2 ^ e := by positivity
    linarith
  unfold f32_round
  rw [if_neg hx, log2_eq x e h1 h2, max_eq_left he, hn]

/-- Evaluation of `f32_round` on a positive normal-range value. -/
theorem f32_round_val_pos (x : ℚ) (e n : Int) (h1 : (2 : ℚ) ^ e ≤ x)
    (h2 : x < (2 : ℚ) ^ (e + 1)) (he : -126 ≤ e)
    (hn : round_half_even (x / (2 : ℚ) ^ (e - 23)) = n) :
    f32_round x = (n : ℚ) * (2 : ℚ) ^ (e - 23) := by
  have hpos : 0 < x := lt_of_lt_of_le (by positivity) h1
  exact f32_round_val x e n (by rw [abs_of_pos hpos]; exact h1)
    (by rw [abs_of_pos hpos]; exact h2) he hn

theorem f32_round_zero : f32_round 0 = 0 := by
  unfold f32_round
  rw [if_pos rfl]

/-- The `float` square of a zero tolerance is zero. -/
theorem binary32_mul_zero_zero : binary32.mul 0 0 = 0 := by
  show f32_round (0 * 0) = 0
  rw [mul_zero, f32_round_zero]

/-- A positive value with a 24-bit significand in the normal range is a `float`. -/
theorem f32_round_exact_pos (x : ℚ) (e n : Int) (h1 : (2 : ℚ) ^ e ≤ x)
    (h2 : x < (2 : ℚ) ^ (e + 1)) (he : -126 ≤ e) (hx : x = (n : ℚ) * (2 : ℚ) ^ (e - 23)) :
    f32_round x = x := by
  have hn : round_half_even (x / (2 : ℚ) ^ (e - 23)) = n := by
    have hq : x / (2 : ℚ) ^ (e - 23) = (n : ℚ) := by
      rw [hx, mul_div_assoc, div_self (by positivity), mul_one]
    rw [hq, round_half_even_int]
  rw [f32_round_val_pos x e n h1 h2 he hn, ← hx]

theorem f32_round_one : f32_round 1 = 1 :=
  f32_round_exact_pos 1 0 (2 ^ 23) (by norm_num) (by norm_num) (by norm_num) (by norm_num)

theorem f32_round_half : f32_round (1 / 2) = 1 / 2 :=
  f32_round_exact_pos _ (-1) (2 ^ 23) (by norm_num) (by norm_num) (by norm_num) (by norm_num)

theorem f32_round_quarter : f32_round (1 / 4) = 1 / 4 :=
  f32_round_exact_pos _ (-2) (2 ^ 23) (by norm_num) (by norm_num) (by norm_num) (by norm_num)

theorem f32_round_three_quarters : f32_round (3 / 4) = 3 / 4 :=
  f32_round_exact_pos _ (-1) (3 * 2 ^ 22) (by norm_num) (by norm_num) (by norm_num)
    (by norm_num)

theorem f32_round_three_halves : f32_round (3 / 2) = 3 / 2 :=
  f32_round_exact_pos _ 0 (3 * 2 ^ 22) (by norm_num) (by norm_num) (by norm_num) (by norm_num)

/-- The value `0.1f` is a `float`. -/
theorem f32_round_tenth : f32_round (13421773 / 134217728) = 13421773 / 134217728 :=
  f32_round_exact_pos _ (-4) 13421773 (by norm_num) (by norm_num) (by norm_num) (by norm_num)

/-- The `float` difference `1.0f - 0.1f`: the exact difference `120795955 / 2^27` is not a
`float` and rounds to `7549747 / 2^23`. -/
theorem binary32_one_sub_tenth :
    binary32.sub 1 (13421773 / 134217728) = 7549747 / 8388608 := by
  show f32_round (1 - 13421773 / 134217728) = 7549747 / 8388608
  rw [f32_round_val_pos _ (-1) 15099494 (by norm_num) (by norm_num) (by norm_num)
    (round_half_even_of_lt _ _ (by norm_num) (by norm_num))]
  norm_num

theorem f32_round_one_sub_tenth : f32_round (7549747 / 8388608) = 7549747 / 8388608 :=
  f32_round_exact_pos _ (-1) 15099494 (by norm_num) (by norm_num) (by norm_num) (by norm_num)

theorem exact_arith_add (a b : ℚ) : exact_arith.add a b = a + b := rfl

theorem exact_arith_sub (a b : ℚ) : exact_arith.sub a b = a - b := rfl

theorem binary32_add (a b : ℚ) : binary32.add a b = f32_round (a + b) := rfl

theorem binary32_sub (a b : ℚ) : binary32.sub a b = f32_round (a - b) := rfl

theorem binary32_div (a b : ℚ) : binary32.div a b = f32_round (a / b) := rfl

/-- The `float` square of the tolerance `1/2` is exactly `1/4`. -/
theorem binary32_mul_half_half : binary32.mul (1 / 2) (1 / 2) = 1 / 4 := by
  show f32_round (1 / 2 * (1 / 2)) = 1 / 4
  rw [show (1 / 2 * (1 / 2) : ℚ) = 1 / 4 by norm_num, f32_round_quarter]

theorem binary32_mul_example_tolerance :
    binary32.mul example_mmd.tolerance example_mmd.tolerance = 1 / 4 :=
  binary32_mul_half_half

/-! ## Loop rules -/

theorem forRange_of_le {σ : Type} (lo hi : Nat) (body : Nat → σ → σ) (init : σ) (h : hi ≤ lo) :
    forRange lo hi body init = init := by
  have : hi - lo = 0 := by omega
  simp [forRange, this]

theorem forRange_succ {σ : Type} (lo hi : Nat) (body : Nat → σ → σ) (init : σ) (h : lo ≤ hi) :
    forRange lo (hi + 1) body init = body hi (forRange lo hi body init) := by
  have h1 : hi + 1 - lo = (hi - lo) + 1 := by omega
  have h2 : lo + (hi - lo) = hi := by omega
  simp [forRange, h1, List.range'_concat, List.foldl_append, h2]

theorem forRange_induction {σ : Type} (P : Nat → σ → Prop) (lo hi : Nat) (body : Nat → σ → σ)
    (init : σ) (hle : lo ≤ hi) (h0 : P lo init)
    (hstep : ∀ k s, lo ≤ k → k < hi → P k s → P (k + 1) (body k s)) :
    P hi (forRange lo hi body init) := by
  induction hi, hle using Nat.le_induction with
  | base => rw [forRange_of_le _ _ _ _ (Nat.le_refl _)]; exact h0
  | succ n hn ih =>
    rw [forRange_succ _ _ _ _ hn]
    exact hstep n _ hn (Nat.lt_succ_self n)
      (ih (fun k s hk hlt hp => hstep k s hk (Nat.lt_succ_of_lt hlt) hp))

theorem forRange_fusion {σ τ : Type} (g : σ → τ) (lo hi : Nat) (body : Nat → σ → σ)
    (body2 : Nat → τ → τ) (init : σ) (h : ∀ k s, g (body k s) = body2 k (g s)) :
    g (forRange lo hi body init) = forRange lo hi body2 (g init) := by
  unfold forRange
  generalize List.range' lo (hi - lo) = l
  induction l generalizing init with
  | nil => rfl
  | cons a t ih => simp only [List.foldl_cons]; rw [ih, h]

/-! ## Array lemmas -/

theorem length_copy_layer {α : Type} [Inhabited α] (src dst : List α) (s d c : Nat) :
    (copy_layer src dst s d c).length = dst.length := by
  unfold copy_layer
  refine forRange_induction (fun _ acc => acc.length = dst.length) 0 c _ dst (Nat.zero_le _) rfl
    ?_
  intro k acc _ _ h
  simpa using h

theorem getElem?_copy_layer {α : Type} [Inhabited α] (src dst : List α) (s d c j : Nat) :
    (copy_layer src dst s d c)[j]? =
      if d ≤ j ∧ j < d + c ∧ j < dst.length then some (src.getD (s + (j - d)) default)
      else dst[j]? := by
  unfold copy_layer
  refine forRange_induction
    (fun k acc => acc.length = dst.length ∧ ∀ j, acc[j]? =
      if d ≤ j ∧ j < d + k ∧ j < dst.length then some (src.getD (s + (j - d)) default)
      else dst[j]?) 0 c _ dst (Nat.zero_le _) ?_ ?_ |>.2 j
  · refine ⟨rfl, fun j => ?_⟩
    have : ¬ (d ≤ j ∧ j < d + 0 ∧ j < dst.length) := by omega
    simp only [this, if_false]
  · rintro k acc - - ⟨hlen, hacc⟩
    refine ⟨by simp [hlen], fun j => ?_⟩
    rw [List.getElem?_set, hacc j, hlen]
    by_cases hj : d + k = j
    · subst hj
      by_cases hb : d + k < dst.length
      · simp [hb]
      · have : dst[d + k]? = none := by simp; omega
        simp [hb, this]
    · simp only [hj, if_false]
      by_cases h1 : d ≤ j ∧ j < d + k ∧ j < dst.length
      · have : d ≤ j ∧ j < d + (k + 1) ∧ j < dst.length := by omega
        simp [h1, this]
      · have : ¬ (d ≤ j ∧ j < d + (k + 1) ∧ j < dst.length) := by omega
        simp [h1, this]

/-- The in-place map `a[i] = f(a[i])` over `lo ≤ i < hi`. -/
theorem getElem?_forRange_modify {α : Type} (f : α → α) (dflt : α) (lo hi : Nat) (l : List α)
    (j : Nat) :
    (forRange lo hi (fun i acc => acc.set i (f (acc.getD i dflt))) l)[j]? =
      if lo ≤ j ∧ j < hi then (l[j]?).map f else l[j]? := by
  by_cases hle : lo ≤ hi
  · refine forRange_induction
      (fun k acc => acc.length = l.length ∧ ∀ j, acc[j]? =
        if lo ≤ j ∧ j < k then (l[j]?).map f else l[j]?) lo hi _ l hle ?_ ?_ |>.2 j
    · refine ⟨rfl, fun j => ?_⟩
      have : ¬ (lo ≤ j ∧ j < lo) := by omega
      simp [this]
    · rintro k acc hk - ⟨hlen, hacc⟩
      refine ⟨by simp [hlen], fun j => ?_⟩
      rw [List.getElem?_set, hlen]
      by_cases hj : k = j
      · subst hj
        have h1 : lo ≤ k ∧ k < k + 1 := by omega
        have h2 := hacc k
        have h3 : ¬ (lo ≤ k ∧ k < k) := by omega
        simp only [h3, if_false] at h2
        by_cases hb : k < l.length
        · simp [hb, h1, List.getD_eq_getElem?_getD, h2, List.getElem?_eq_getElem hb]
        · have : l[k]? = none := by simp; omega
          simp [hb, h1, this]
      · simp only [hj, if_false]
        rw [hacc j]
        by_cases h1 : lo ≤ j ∧ j < k
        · have : lo ≤ j ∧ j < k + 1 := by omega
          simp [h1, this]
        · have : ¬ (lo ≤ j ∧ j < k + 1) := by omega
          simp [h1, this]
  · rw [forRange_of_le _ _ _ _ (by omega)]
    have : ¬ (lo ≤ j ∧ j < hi) := by omega
    simp [this]

theorem length_forRange_modify {α : Type} (f : α → α) (dflt : α) (lo hi : Nat) (l : List α) :
    (forRange lo hi (fun i acc => acc.set i (f (acc.getD i dflt))) l).length = l.length := by
  by_cases hle : lo ≤ hi
  · refine forRange_induction (fun _ acc => acc.length = l.length) lo hi _ l hle rfl ?_
    intro k acc _ _ h
    simpa using h
  · rw [forRange_of_le _ _ _ _ (by omega)]

theorem forRange_id {σ : Type} (lo hi : Nat) (init : σ) :
    forRange lo hi (fun _ s => s) init = init := by
  unfold forRange
  generalize List.range' lo (hi - lo) = l
  induction l with
  | nil => rfl
  | cons a t ih => simp [ih]

/-! ## Frame of the corner loops -/

theorem non_corner_data_reverse_poly_step (mesh : Mesh) (i : Nat) (result : Mesh) :
    (reverse_poly_step mesh i result).non_corner_data = result.non_corner_data := by
  unfold reverse_poly_step
  simp only [Mesh.non_corner_data]
  have h := forRange_fusion Mesh.non_corner_data 1 (result.poly (mesh.polys_size + i)).size
    (fun j r => CustomData_copy_data_ldata mesh r ((mesh.poly i).get j)
      ((result.poly (mesh.polys_size + i)).last (j - 1)) 1)
    (fun _ x => x)
    (CustomData_copy_data_ldata mesh result (mesh.poly i).start
      (result.poly (mesh.polys_size + i)).start 1)
    (fun k s => rfl)
  rw [forRange_id] at h
  simp only [Mesh.non_corner_data, CustomData_copy_data_ldata, Prod.mk.injEq] at h
  simp only [Prod.mk.injEq]
  exact h

theorem non_corner_data_reverse_loop (mesh : Mesh) (n : Nat) (result : Mesh) :
    (forRange 0 n (reverse_poly_step mesh) result).non_corner_data = result.non_corner_data := by
  have h := forRange_fusion Mesh.non_corner_data 0 n (reverse_poly_step mesh) (fun _ x => x)
    result (fun k s => non_corner_data_reverse_poly_step mesh k s)
  rw [forRange_id] at h
  exact h

/-! ## Projections of the kernel's result -/

theorem result_positions (fa : FloatArith) (ops : Collaborators) (mmd : MirrorModifierData)
    (ob : Object) (mesh : Mesh) (axis : Fin 3) (uco wmm : Bool) :
    (BKE_mesh_mirror_apply_mirror_on_axis_for_modifier fa ops mmd ob mesh axis uco wmm).1.positions =
      (vert_pass fa ops mmd ob mesh axis uco wmm).positions := by
  simp only [BKE_mesh_mirror_apply_mirror_on_axis_for_modifier]
  have h := non_corner_data_reverse_loop (source_mesh fa ops mmd ob mesh axis)
  simp only [Mesh.non_corner_data, Prod.mk.injEq] at h
  rw [(h _ _).2.2.2.2.1]
  rfl

theorem result_merge_map (fa : FloatArith) (ops : Collaborators) (mmd : MirrorModifierData)
    (ob : Object) (mesh : Mesh) (axis : Fin 3) (uco wmm : Bool) :
    (BKE_mesh_mirror_apply_mirror_on_axis_for_modifier fa ops mmd ob mesh axis uco wmm).2 =
      if do_vtargetmap mmd wmm then
        some ((vert_pass fa ops mmd ob mesh axis uco wmm).vert_merge_map,
          (vert_pass fa ops mmd ob mesh axis uco wmm).vert_merge_map_len)
      else none := by
  rfl

theorem getD_set_ne {α : Type} (l : List α) (a b : Nat) (v d : α) (h : a ≠ b) :
    (l.set a v).getD b d = l.getD b d := by
  simp [List.getD_eq_getElem?_getD, List.getElem?_set_ne h]

theorem getD_set_self {α : Type} (l : List α) (a : Nat) (v d : α) (h : a < l.length) :
    (l.set a v).getD a d = v := by
  simp [List.getD_eq_getElem?_getD, List.getElem?_set_self h]

theorem mirror_vert_step_positions_eq (mtx : float4x4) (N : Nat) (dvt uco : Bool) (tsq : ℚ)
    (i : Nat) (st : VertLoopState) (hi : i < N) (hlen : st.positions.length = N * 2) :
    (mirror_vert_step mtx N dvt uco tsq i st).positions =
      if dvt && merge_test mtx tsq (st.positions.getD i 0) (st.positions.getD (N + i) 0) then
        ((st.positions.set (N + i) (mul_m4_v3 mtx (st.positions.getD (N + i) 0))).set (N + i)
          (mid_v3_v3v3 (st.positions.getD i 0)
            (mul_m4_v3 mtx (st.positions.getD (N + i) 0)))).set i
          (mid_v3_v3v3 (st.positions.getD i 0) (mul_m4_v3 mtx (st.positions.getD (N + i) 0)))
      else st.positions.set (N + i) (mul_m4_v3 mtx (st.positions.getD (N + i) 0)) := by
  have h1 : N + i < st.positions.length := by omega
  have h3 : N + i ≠ i := by omega
  have hp := getD_set_ne st.positions (N + i) i
    (mul_m4_v3 mtx (st.positions.getD (N + i) 0)) 0 h3
  have hq := getD_set_self st.positions (N + i)
    (mul_m4_v3 mtx (st.positions.getD (N + i) 0)) 0 h1
  have hq2 := getD_set_self
    (st.positions.set (N + i) (mul_m4_v3 mtx (st.positions.getD (N + i) 0))) (N + i)
    (mid_v3_v3v3 (st.positions.getD i 0) (mul_m4_v3 mtx (st.positions.getD (N + i) 0))) 0
    (by simpa using h1)
  unfold mirror_vert_step merge_test
  simp only [hp, hq, hq2]
  cases dvt <;> cases uco <;>
    by_cases hm : len_squared_v3v3 (st.positions.getD i 0)
        (mul_m4_v3 mtx (st.positions.getD (N + i) 0)) < tsq <;>
    simp only [hm] <;> simp

theorem mirror_vert_step_positions (mtx : float4x4) (N : Nat) (dvt uco : Bool) (tsq : ℚ)
    (i : Nat) (st : VertLoopState) (hi : i < N) (hlen : st.positions.length = N * 2) (j : Nat) :
    (mirror_vert_step mtx N dvt uco tsq i st).positions[j]? =
      if j = i then
        some (if dvt && merge_test mtx tsq (st.positions.getD i 0) (st.positions.getD (N + i) 0)
          then mid_v3_v3v3 (st.positions.getD i 0) (mul_m4_v3 mtx (st.positions.getD (N + i) 0))
          else st.positions.getD i 0)
      else if j = N + i then
        some (if dvt && merge_test mtx tsq (st.positions.getD i 0) (st.positions.getD (N + i) 0)
          then mid_v3_v3v3 (st.positions.getD i 0) (mul_m4_v3 mtx (st.positions.getD (N + i) 0))
          else mul_m4_v3 mtx (st.positions.getD (N + i) 0))
      else st.positions[j]? := by
  have h1 : N + i < st.positions.length := by omega
  have h2 : i < st.positions.length := by omega
  have h3 : N + i ≠ i := by omega
  rw [mirror_vert_step_positions_eq mtx N dvt uco tsq i st hi hlen]
  by_cases hc : (dvt && merge_test mtx tsq (st.positions.getD i 0)
      (st.positions.getD (N + i) 0)) = true
  · simp only [hc, if_true]
    by_cases hj1 : j = i
    · subst hj1
      simp [List.getElem?_set_self, h2]
    · by_cases hj2 : j = N + i
      · subst hj2
        simp [List.getElem?_set_ne (Ne.symm hj1), List.getElem?_set_self, h1, hj1]
      · simp [List.getElem?_set_ne (Ne.symm hj1), List.getElem?_set_ne (Ne.symm hj2), hj1, hj2]
  · simp only [hc]
    by_cases hj1 : j = i
    · subst hj1
      simp [List.getElem?_set_ne h3, List.getD_eq_getElem?_getD, List.getElem?_eq_getElem h2]
    · by_cases hj2 : j = N + i
      · subst hj2
        simp [List.getElem?_set_self, h1, hj1]
      · simp [List.getElem?_set_ne (Ne.symm hj2), hj1, hj2]

theorem mirror_vert_step_map (mtx : float4x4) (N : Nat) (uco : Bool) (tsq : ℚ)
    (i : Nat) (st : VertLoopState) (hi : i < N) (hlen : st.positions.length = N * 2) :
    (mirror_vert_step mtx N true uco tsq i st).vert_merge_map =
        (if uco then
          (st.vert_merge_map.set (N + i)
            (if merge_test mtx tsq (st.positions.getD i 0) (st.positions.getD (N + i) 0)
              then (i : Int) else -1)).set i (-1)
        else
          (st.vert_merge_map.set i
            (if merge_test mtx tsq (st.positions.getD i 0) (st.positions.getD (N + i) 0)
              then (N : Int) + (i : Int) else -1)).set (N + i) (-1)) ∧
      (mirror_vert_step mtx N true uco tsq i st).vert_merge_map_len =
        st.vert_merge_map_len +
          (if merge_test mtx tsq (st.positions.getD i 0) (st.positions.getD (N + i) 0)
            then 1 else 0) := by
  have h1 : N + i < st.positions.length := by omega
  have h3 : N + i ≠ i := by omega
  have hp := getD_set_ne st.positions (N + i) i
    (mul_m4_v3 mtx (st.positions.getD (N + i) 0)) 0 h3
  have hq := getD_set_self st.positions (N + i)
    (mul_m4_v3 mtx (st.positions.getD (N + i) 0)) 0 h1
  unfold mirror_vert_step merge_test
  simp only [hp, hq]
  cases uco <;>
    by_cases hm : len_squared_v3v3 (st.positions.getD i 0)
        (mul_m4_v3 mtx (st.positions.getD (N + i) 0)) < tsq <;>
    simp only [hm] <;> simp

theorem mirror_vert_step_no_map (mtx : float4x4) (N : Nat) (uco : Bool) (tsq : ℚ)
    (i : Nat) (st : VertLoopState) :
    (mirror_vert_step mtx N false uco tsq i st).vert_merge_map = st.vert_merge_map ∧
      (mirror_vert_step mtx N false uco tsq i st).vert_merge_map_len =
        st.vert_merge_map_len := by
  simp [mirror_vert_step]

/-- The closed form of the vertex loop, for an arbitrary initial position array `P0` of
`2 * N` entries. -/
theorem mirror_vert_loop_spec (mtx : float4x4) (N : Nat) (dvt uco : Bool) (tsq : ℚ)
    (P0 : List float3) (hlen : P0.length = N * 2) :
    (mirror_vert_loop mtx N dvt uco tsq P0).positions.length = N * 2 ∧
    (mirror_vert_loop mtx N dvt uco tsq P0).vert_merge_map.length = N * 2 ∧
    (∀ i, i < N →
      (mirror_vert_loop mtx N dvt uco tsq P0).positions[i]? =
        some (if dvt && merge_test mtx tsq (P0.getD i 0) (P0.getD (N + i) 0)
          then mid_v3_v3v3 (P0.getD i 0) (mul_m4_v3 mtx (P0.getD (N + i) 0))
          else P0.getD i 0) ∧
      (mirror_vert_loop mtx N dvt uco tsq P0).positions[N + i]? =
        some (if dvt && merge_test mtx tsq (P0.getD i 0) (P0.getD (N + i) 0)
          then mid_v3_v3v3 (P0.getD i 0) (mul_m4_v3 mtx (P0.getD (N + i) 0))
          else mul_m4_v3 mtx (P0.getD (N + i) 0))) ∧
    (dvt = true → ∀ i, i < N →
      (mirror_vert_loop mtx N dvt uco tsq P0).vert_merge_map[i]? =
        some (if uco then -1
          else if merge_test mtx tsq (P0.getD i 0) (P0.getD (N + i) 0)
            then (N : Int) + (i : Int) else -1) ∧
      (mirror_vert_loop mtx N dvt uco tsq P0).vert_merge_map[N + i]? =
        some (if uco then
            (if merge_test mtx tsq (P0.getD i 0) (P0.getD (N + i) 0) then (i : Int) else -1)
          else -1)) ∧
    (dvt = true → (mirror_vert_loop mtx N dvt uco tsq P0).vert_merge_map_len =
      (List.range N).countP (fun i => merge_test mtx tsq (P0.getD i 0) (P0.getD (N + i) 0))) := by
  unfold mirror_vert_loop
  have key := forRange_induction
    (fun k (st : VertLoopState) =>
      st.positions.length = N * 2 ∧ st.vert_merge_map.length = N * 2 ∧
      (∀ i, i < k →
        st.positions[i]? =
          some (if dvt && merge_test mtx tsq (P0.getD i 0) (P0.getD (N + i) 0)
            then mid_v3_v3v3 (P0.getD i 0) (mul_m4_v3 mtx (P0.getD (N + i) 0))
            else P0.getD i 0) ∧
        st.positions[N + i]? =
          some (if dvt && merge_test mtx tsq (P0.getD i 0) (P0.getD (N + i) 0)
            then mid_v3_v3v3 (P0.getD i 0) (mul_m4_v3 mtx (P0.getD (N + i) 0))
            else mul_m4_v3 mtx (P0.getD (N + i) 0))) ∧
      (∀ i, k ≤ i → i < N →
        st.positions[i]? = P0[i]? ∧ st.positions[N + i]? = P0[N + i]?) ∧
      (dvt = true → ∀ i, i < k →
        st.vert_merge_map[i]? =
          some (if uco then -1
            else if merge_test mtx tsq (P0.getD i 0) (P0.getD (N + i) 0)
              then (N : Int) + (i : Int) else -1) ∧
        st.vert_merge_map[N + i]? =
          some (if uco then
              (if merge_test mtx tsq (P0.getD i 0) (P0.getD (N + i) 0) then (i : Int) else -1)
            else -1)) ∧
      (dvt = true → st.vert_merge_map_len =
        (List.range k).countP
          (fun i => merge_test mtx tsq (P0.getD i 0) (P0.getD (N + i) 0))))
    0 N (mirror_vert_step mtx N dvt uco tsq)
    { positions := P0, vert_merge_map := List.replicate (N * 2) 0, vert_merge_map_len := 0 }
    (Nat.zero_le _) ?_ ?_
  · obtain ⟨h1, h2, h3, -, h5, h6⟩ := key
    exact ⟨h1, h2, h3, h5, h6⟩
  · refine ⟨hlen, by simp, ?_, ?_, ?_, ?_⟩
    · intro i hi; omega
    · intro i _ _; exact ⟨rfl, rfl⟩
    · intro _ i hi; omega
    · intro _; simp
  · rintro k st - hk ⟨hl, hml, hdone, htodo, hmap, hcnt⟩
    have hpk : st.positions.getD k 0 = P0.getD k 0 := by
      simp only [List.getD_eq_getElem?_getD, (htodo k (Nat.le_refl k) hk).1]
    have hqk : st.positions.getD (N + k) 0 = P0.getD (N + k) 0 := by
      simp only [List.getD_eq_getElem?_getD, (htodo k (Nat.le_refl k) hk).2]
    have hpos := mirror_vert_step_positions mtx N dvt uco tsq k st hk hl
    rw [hpk, hqk] at hpos
    have hposeq := mirror_vert_step_positions_eq mtx N dvt uco tsq k st hk hl
    refine ⟨?_, ?_, ?_, ?_, ?_, ?_⟩
    · rw [hposeq]; split <;> simp [hl]
    · cases dvt
      · rw [(mirror_vert_step_no_map mtx N uco tsq k st).1]; exact hml
      · rw [(mirror_vert_step_map mtx N uco tsq k st hk hl).1]; split <;> simp [hml]
    · intro i hi
      by_cases hik : i = k
      · subst hik
        have h3 : N + i ≠ i := by omega
        exact ⟨by rw [hpos i]; simp, by rw [hpos (N + i)]; simp [h3]⟩
      · have hi2 : i < k := by omega
        have h4 : N + i ≠ k := by omega
        have h5 : N + i ≠ N + k := by omega
        exact ⟨by rw [hpos i]; simp only [hik, if_false]
                  have h6 : i ≠ N + k := by omega
                  simp only [h6, if_false]; exact (hdone i hi2).1,
               by rw [hpos (N + i)]; simp only [h4, h5, if_false]; exact (hdone i hi2).2⟩
    · intro i hki hiN
      have h1 : i ≠ k := by omega
      have h2 : i ≠ N + k := by omega
      have h4 : N + i ≠ k := by omega
      have h5 : N + i ≠ N + k := by omega
      exact ⟨by rw [hpos i]; simp only [h1, h2, if_false]; exact (htodo i (by omega) hiN).1,
             by rw [hpos (N + i)]; simp only [h4, h5, if_false]
                exact (htodo i (by omega) hiN).2⟩
    · intro hd i hi
      subst hd
      have hm := (mirror_vert_step_map mtx N uco tsq k st hk hl).1
      rw [hpk, hqk] at hm
      rw [hm]
      have hkl : k < st.vert_merge_map.length := by omega
      have hNkl : N + k < st.vert_merge_map.length := by omega
      by_cases hik : i = k
      · subst hik
        have h3 : N + i ≠ i := by omega
        cases uco <;>
          simp [List.getElem?_set_self, List.getElem?_set_ne, h3, h3.symm, hkl, hNkl]
      · have hi2 : i < k := by omega
        have h1 : k ≠ i := by omega
        have h2 : N + k ≠ i := by omega
        have h4 : k ≠ N + i := by omega
        have h5 : N + k ≠ N + i := by omega
        have := hmap rfl i hi2
        cases uco <;>
          simp only [if_true, if_false, List.getElem?_set_ne h1, List.getElem?_set_ne h2,
            List.getElem?_set_ne h4, List.getElem?_set_ne h5, Bool.false_eq_true] <;>
          simpa using this
    · intro hd
      subst hd
      have hm := (mirror_vert_step_map mtx N uco tsq k st hk hl).2
      rw [hpk, hqk] at hm
      rw [hm, hcnt rfl, List.range_succ, List.countP_append]
      simp [List.countP_cons]

/-! ## The two copies of a vertex or edge layer -/

theorem double_copy_spec {α : Type} [Inhabited α] (src : List α) (n : Nat) (z : α) :
    (copy_layer src (copy_layer src (List.replicate (n * 2) z) 0 0 n) 0 n n).length = n * 2 ∧
    ∀ i, i < n →
      (copy_layer src (copy_layer src (List.replicate (n * 2) z) 0 0 n) 0 n n)[i]? =
        some (src.getD i default) ∧
      (copy_layer src (copy_layer src (List.replicate (n * 2) z) 0 0 n) 0 n n)[n + i]? =
        some (src.getD i default) := by
  refine ⟨by simp [length_copy_layer], fun i hi => ⟨?_, ?_⟩⟩
  · rw [getElem?_copy_layer]
    have h1 : ¬ (n ≤ i ∧ i < n + n ∧
        i < (copy_layer src (List.replicate (n * 2) z) 0 0 n).length) := by omega
    simp only [h1, if_false]
    rw [getElem?_copy_layer]
    have h2 : 0 ≤ i ∧ i < 0 + n ∧ i < (List.replicate (n * 2) z).length := by
      simp; omega
    simp only [h2, and_self, if_true]
    simp
  · rw [getElem?_copy_layer]
    have h1 : n ≤ n + i ∧ n + i < n + n ∧
        n + i < (copy_layer src (List.replicate (n * 2) z) 0 0 n).length := by
      simp [length_copy_layer]; omega
    simp only [h1, and_self, if_true]
    simp

theorem doubled_positions_spec (mesh : Mesh) :
    (doubled_positions mesh).length = mesh.totvert * 2 ∧
    ∀ i, i < mesh.totvert →
      (doubled_positions mesh).getD i 0 = mesh.positions.getD i 0 ∧
      (doubled_positions mesh).getD (mesh.totvert + i) 0 = mesh.positions.getD i 0 := by
  have hcopy := double_copy_spec mesh.positions mesh.totvert (0 : float3)
  refine ⟨hcopy.1, fun i hi => ⟨?_, ?_⟩⟩
  · unfold doubled_positions
    rw [List.getD_eq_getElem?_getD, (hcopy.2 i hi).1]; rfl
  · unfold doubled_positions
    rw [List.getD_eq_getElem?_getD, (hcopy.2 i hi).2]; rfl

/-- The closed form of the vertex pass of the kernel, in terms of the source positions. -/
theorem vert_pass_spec (fa : FloatArith) (ops : Collaborators) (mmd : MirrorModifierData)
    (ob : Object) (mesh : Mesh) (axis : Fin 3) (uco wmm : Bool) :
    (vert_pass fa ops mmd ob mesh axis uco wmm).vert_merge_map.length =
      (source_mesh fa ops mmd ob mesh axis).totvert * 2 ∧
    (∀ i p, i < (source_mesh fa ops mmd ob mesh axis).totvert →
      (source_mesh fa ops mmd ob mesh axis).positions.getD i 0 = p →
      (vert_pass fa ops mmd ob mesh axis uco wmm).positions[i]? =
        some (if do_vtargetmap mmd wmm &&
            merge_test (mirror_mtx mmd ob axis) (fa.mul mmd.tolerance mmd.tolerance) p p
          then mid_v3_v3v3 p (mul_m4_v3 (mirror_mtx mmd ob axis) p) else p) ∧
      (vert_pass fa ops mmd ob mesh axis uco wmm).positions[
          (source_mesh fa ops mmd ob mesh axis).totvert + i]? =
        some (if do_vtargetmap mmd wmm &&
            merge_test (mirror_mtx mmd ob axis) (fa.mul mmd.tolerance mmd.tolerance) p p
          then mid_v3_v3v3 p (mul_m4_v3 (mirror_mtx mmd ob axis) p)
          else mul_m4_v3 (mirror_mtx mmd ob axis) p)) ∧
    (do_vtargetmap mmd wmm = true →
      ∀ i p, i < (source_mesh fa ops mmd ob mesh axis).totvert →
      (source_mesh fa ops mmd ob mesh axis).positions.getD i 0 = p →
      (vert_pass fa ops mmd ob mesh axis uco wmm).vert_merge_map[i]? =
        some (if uco then -1
          else if merge_test (mirror_mtx mmd ob axis) (fa.mul mmd.tolerance mmd.tolerance) p p
            then ((source_mesh fa ops mmd ob mesh axis).totvert : Int) + (i : Int) else -1) ∧
      (vert_pass fa ops mmd ob mesh axis uco wmm).vert_merge_map[
          (source_mesh fa ops mmd ob mesh axis).totvert + i]? =
        some (if uco then
            (if merge_test (mirror_mtx mmd ob axis) (fa.mul mmd.tolerance mmd.tolerance) p p
              then (i : Int) else -1)
          else -1)) ∧
    (do_vtargetmap mmd wmm = true →
      (vert_pass fa ops mmd ob mesh axis uco wmm).vert_merge_map_len =
        (List.range (source_mesh fa ops mmd ob mesh axis).totvert).countP
          (fun i => merge_test (mirror_mtx mmd ob axis) (fa.mul mmd.tolerance mmd.tolerance)
            ((source_mesh fa ops mmd ob mesh axis).positions.getD i 0)
            ((source_mesh fa ops mmd ob mesh axis).positions.getD i 0))) := by
  have hP := doubled_positions_spec (source_mesh fa ops mmd ob mesh axis)
  have hloop := mirror_vert_loop_spec (mirror_mtx mmd ob axis)
    (source_mesh fa ops mmd ob mesh axis).totvert (do_vtargetmap mmd wmm) uco
    (fa.mul mmd.tolerance mmd.tolerance) _ hP.1
  refine ⟨hloop.2.1, ?_, ?_, ?_⟩
  · intro i p hi hp
    have := hloop.2.2.1 i hi
    rw [(hP.2 i hi).1, (hP.2 i hi).2, hp] at this
    exact this
  · intro hm i p hi hp
    have := hloop.2.2.2.1 hm i hi
    rw [(hP.2 i hi).1, (hP.2 i hi).2, hp] at this
    exact this
  · intro hm
    have := hloop.2.2.2.2 hm
    unfold vert_pass
    rw [this]
    apply List.countP_congr
    intro i hi
    rw [List.mem_range] at hi
    rw [(hP.2 i hi).1, (hP.2 i hi).2]

theorem mul_axis_flip_mtx (axis : Fin 3) (p : float3) :
    mul_m4_v3 (axis_flip_mtx axis) p = fun k => if k = axis then -p k else p k := by
  have h2 : Fin.castSucc (2 : Fin 3) = (2 : Fin 4) := rfl
  funext k
  fin_cases axis <;> fin_cases k <;>
    simp [mul_m4_v3, axis_flip_mtx, unit_m4, Function.update, h2]

theorem axis_flip_mtx_apply (axis : Fin 3) (r c : Fin 4) :
    axis_flip_mtx axis r c = if r = c then (if r = axis.castSucc then -1 else 1) else 0 := by
  have h2 : Fin.castSucc (2 : Fin 3) = (2 : Fin 4) := rfl
  fin_cases axis <;> fin_cases r <;> fin_cases c <;>
    simp [axis_flip_mtx, unit_m4, Function.update, h2]

theorem eq_map_range_append {α : Type} (l : List α) (N : Nat) (a b : Nat → α)
    (hlen : l.length = N * 2) (h : ∀ i, i < N → l[i]? = some (a i) ∧ l[N + i]? = some (b i)) :
    l = (List.range N).map a ++ (List.range N).map b := by
  apply List.ext_getElem?
  intro j
  by_cases hj : j < N
  · rw [List.getElem?_append_left (by simpa using hj), (h j hj).1]
    simp [List.getElem?_map, List.getElem?_range hj]
  · by_cases hj2 : j < N * 2
    · have hj3 : j = N + (j - N) := by omega
      have hj4 : j - N < N := by omega
      rw [List.getElem?_append_right (by simpa using Nat.le_of_not_lt hj)]
      simp only [List.length_map, List.length_range]
      rw [List.getElem?_map, List.getElem?_range hj4]
      rw [hj3, (h (j - N) hj4).2]
      simp
    · have h1 : l[j]? = none := by
        rw [List.getElem?_eq_none_iff]; omega
      rw [h1, eq_comm, List.getElem?_eq_none_iff]
      simp; omega

theorem len_squared_axis_flip (axis : Fin 3) (p : float3) :
    len_squared_v3v3 p (mul_m4_v3 (axis_flip_mtx axis) p) = 4 * (p axis) ^ 2 := by
  rw [mul_axis_flip_mtx]
  unfold len_squared_v3v3
  fin_cases axis <;> simp <;> ring

theorem mid_v3_v3v3_eq (a b : float3) :
    mid_v3_v3v3 a b = fun k => (a k + b k) / 2 := by
  funext k
  fin_cases k <;> simp [mid_v3_v3v3] <;> ring

/-! ## The corner loops, layer by layer -/

theorem forRange_preserves {σ : Type} (P : σ → Prop) (lo hi : Nat) (body : Nat → σ → σ)
    (init : σ) (h0 : P init) (hstep : ∀ k s, P s → P (body k s)) :
    P (forRange lo hi body init) := by
  unfold forRange
  generalize List.range' lo (hi - lo) = l
  induction l generalizing init with
  | nil => exact h0
  | cons a t ih => simp only [List.foldl_cons]; exact ih _ (hstep a init h0)

theorem reverse_poly_step_corner_verts (mesh : Mesh) (i : Nat) (result : Mesh) :
    (reverse_poly_step mesh i result).corner_verts =
      reverse_poly_layer mesh.corner_verts (mesh.poly i) (result.poly (mesh.polys_size + i))
        result.corner_verts := by
  unfold reverse_poly_step reverse_poly_layer
  exact forRange_fusion Mesh.corner_verts 1 (result.poly (mesh.polys_size + i)).size
    (fun j r => CustomData_copy_data_ldata mesh r ((mesh.poly i).get j)
      ((result.poly (mesh.polys_size + i)).last (j - 1)) 1) _
    (CustomData_copy_data_ldata mesh result (mesh.poly i).start
      (result.poly (mesh.polys_size + i)).start 1)
    (fun k s => rfl)

theorem reverse_poly_step_corner_edges (mesh : Mesh) (i : Nat) (result : Mesh) :
    (reverse_poly_step mesh i result).corner_edges =
      rotate_poly_edges (result.poly (mesh.polys_size + i))
        (reverse_poly_layer mesh.corner_edges (mesh.poly i) (result.poly (mesh.polys_size + i))
          result.corner_edges) := by
  have h := forRange_fusion Mesh.corner_edges 1 (result.poly (mesh.polys_size + i)).size
    (fun j r => CustomData_copy_data_ldata mesh r ((mesh.poly i).get j)
      ((result.poly (mesh.polys_size + i)).last (j - 1)) 1)
    (fun j ce => copy_layer mesh.corner_edges ce ((mesh.poly i).get j)
      ((result.poly (mesh.polys_size + i)).last (j - 1)) 1)
    (CustomData_copy_data_ldata mesh result (mesh.poly i).start
      (result.poly (mesh.polys_size + i)).start 1)
    (fun k s => rfl)
  unfold reverse_poly_step rotate_poly_edges reverse_poly_layer
  simp only []
  rw [h]
  rfl

theorem reverse_loop_layer {α : Type} (g : Mesh → List α)
    (layer_step : Nat → IndexRange → List α → List α) (mesh : Mesh)
    (hg : ∀ i r, g (reverse_poly_step mesh i r) =
      layer_step i (r.poly (mesh.polys_size + i)) (g r)) (n : Nat) (R0 : Mesh) :
    g (forRange 0 n (reverse_poly_step mesh) R0) =
      forRange 0 n
        (fun i l => layer_step i (OffsetIndices_get R0.poly_offsets (mesh.polys_size + i)) l)
        (g R0) := by
  refine (forRange_induction
    (fun k r => r.poly_offsets = R0.poly_offsets ∧
      g r = forRange 0 k
        (fun i l => layer_step i (OffsetIndices_get R0.poly_offsets (mesh.polys_size + i)) l)
        (g R0)) 0 n (reverse_poly_step mesh) R0 (Nat.zero_le _) ?_ ?_).2
  · exact ⟨rfl, by rw [forRange_of_le _ _ _ _ (Nat.le_refl _)]⟩
  · rintro k r - - ⟨hpo, hgr⟩
    have hnc := non_corner_data_reverse_poly_step mesh k r
    simp only [Mesh.non_corner_data, Prod.mk.injEq] at hnc
    refine ⟨hnc.2.2.2.2.2.2.2.2.trans hpo, ?_⟩
    rw [forRange_succ _ _ _ _ (Nat.zero_le _), hg, hgr]
    simp only [Mesh.poly, hpo]

theorem result_non_corner (fa : FloatArith) (ops : Collaborators) (mmd : MirrorModifierData)
    (ob : Object) (mesh : Mesh) (axis : Fin 3) (uco wmm : Bool) :
    (BKE_mesh_mirror_apply_mirror_on_axis_for_modifier fa ops mmd ob mesh axis uco wmm).1.totvert =
      (source_mesh fa ops mmd ob mesh axis).totvert * 2 ∧
    (BKE_mesh_mirror_apply_mirror_on_axis_for_modifier fa ops mmd ob mesh axis uco wmm).1.totedge =
      (source_mesh fa ops mmd ob mesh axis).totedge * 2 ∧
    (BKE_mesh_mirror_apply_mirror_on_axis_for_modifier fa ops mmd ob mesh axis uco wmm).1.totpoly =
      (source_mesh fa ops mmd ob mesh axis).totpoly * 2 ∧
    (BKE_mesh_mirror_apply_mirror_on_axis_for_modifier fa ops mmd ob mesh axis uco wmm).1.totloop =
      (source_mesh fa ops mmd ob mesh axis).totloop * 2 ∧
    (BKE_mesh_mirror_apply_mirror_on_axis_for_modifier fa ops mmd ob mesh axis uco wmm).1.edges =
      adjust_edges (source_mesh fa ops mmd ob mesh axis).totedge
        (source_mesh fa ops mmd ob mesh axis).totvert
        (doubled_edges (source_mesh fa ops mmd ob mesh axis)) ∧
    (BKE_mesh_mirror_apply_mirror_on_axis_for_modifier fa ops mmd ob mesh axis uco
        wmm).1.poly_offsets =
      result_poly_offsets (source_mesh fa ops mmd ob mesh axis) := by
  simp only [BKE_mesh_mirror_apply_mirror_on_axis_for_modifier]
  have h := non_corner_data_reverse_loop (source_mesh fa ops mmd ob mesh axis)
  simp only [Mesh.non_corner_data, Prod.mk.injEq] at h
  refine ⟨?_, ?_, ?_, ?_, ?_, ?_⟩
  · rw [(h _ _).1]; rfl
  · rw [(h _ _).2.1]; rfl
  · rw [(h _ _).2.2.1]; rfl
  · rw [(h _ _).2.2.2.1]; rfl
  · rw [(h _ _).2.2.2.2.2.2.2.1]; rfl
  · rw [(h _ _).2.2.2.2.2.2.2.2]; rfl

theorem result_corner_verts (fa : FloatArith) (ops : Collaborators) (mmd : MirrorModifierData)
    (ob : Object) (mesh : Mesh) (axis : Fin 3) (uco wmm : Bool) :
    (BKE_mesh_mirror_apply_mirror_on_axis_for_modifier fa ops mmd ob mesh axis uco
        wmm).1.corner_verts =
      adjust_corners (source_mesh fa ops mmd ob mesh axis).totloop
        (source_mesh fa ops mmd ob mesh axis).totvert
        (reversed_corner_verts (source_mesh fa ops mmd ob mesh axis)) := by
  simp only [BKE_mesh_mirror_apply_mirror_on_axis_for_modifier]
  rw [reverse_loop_layer Mesh.corner_verts
    (fun i mp l => reverse_poly_layer (source_mesh fa ops mmd ob mesh axis).corner_verts
      ((source_mesh fa ops mmd ob mesh axis).poly i) mp l)
    (source_mesh fa ops mmd ob mesh axis)
    (fun i r => reverse_poly_step_corner_verts _ i r)]
  rfl

theorem result_corner_edges (fa : FloatArith) (ops : Collaborators) (mmd : MirrorModifierData)
    (ob : Object) (mesh : Mesh) (axis : Fin 3) (uco wmm : Bool) :
    (BKE_mesh_mirror_apply_mirror_on_axis_for_modifier fa ops mmd ob mesh axis uco
        wmm).1.corner_edges =
      adjust_corners (source_mesh fa ops mmd ob mesh axis).totloop
        (source_mesh fa ops mmd ob mesh axis).totedge
        (reversed_corner_edges (source_mesh fa ops mmd ob mesh axis)) := by
  simp only [BKE_mesh_mirror_apply_mirror_on_axis_for_modifier]
  rw [reverse_loop_layer Mesh.corner_edges
    (fun i mp l => rotate_poly_edges mp
      (reverse_poly_layer (source_mesh fa ops mmd ob mesh axis).corner_edges
        ((source_mesh fa ops mmd ob mesh axis).poly i) mp l))
    (source_mesh fa ops mmd ob mesh axis)
    (fun i r => reverse_poly_step_corner_edges _ i r)]
  rfl

/-! ## Face offsets and edges -/

theorem getElem?_forRange_set {α : Type} (g : Nat → α) (b n : Nat) (l : List α) (j : Nat) :
    (forRange 0 n (fun i o => o.set (b + i) (g i)) l)[j]? =
      if b ≤ j ∧ j < b + n ∧ j < l.length then some (g (j - b)) else l[j]? := by
  refine forRange_induction
    (fun k acc => acc.length = l.length ∧ ∀ j, acc[j]? =
      if b ≤ j ∧ j < b + k ∧ j < l.length then some (g (j - b)) else l[j]?)
    0 n _ l (Nat.zero_le _) ?_ ?_ |>.2 j
  · refine ⟨rfl, fun j => ?_⟩
    have : ¬ (b ≤ j ∧ j < b + 0 ∧ j < l.length) := by omega
    simp only [this, if_false]
  · rintro k acc - - ⟨hlen, hacc⟩
    refine ⟨by simp [hlen], fun j => ?_⟩
    rw [List.getElem?_set, hacc j, hlen]
    by_cases hj : b + k = j
    · subst hj
      by_cases hb : b + k < l.length
      · simp [hb]
      · have : l[b + k]? = none := by simp; omega
        simp [hb, this]
    · simp only [hj, if_false]
      by_cases h1 : b ≤ j ∧ j < b + k ∧ j < l.length
      · have : b ≤ j ∧ j < b + (k + 1) ∧ j < l.length := by omega
        simp [h1, this]
      · have : ¬ (b ≤ j ∧ j < b + (k + 1) ∧ j < l.length) := by omega
        simp [h1, this]

/-- The face offsets of the result in closed form (for a mesh with at least one face). -/
theorem result_poly_offsets_spec (mesh : Mesh) (hF : 0 < mesh.totpoly) (j : Nat) :
    (result_poly_offsets mesh)[j]? =
      if j < mesh.totpoly then some (mesh.poly_offsets.getD j 0)
      else if j < mesh.totpoly * 2 then
        some (mesh.poly_offsets.getD (j - mesh.totpoly) 0 + mesh.totloop)
      else if j = mesh.totpoly * 2 then some (mesh.totloop * 2)
      else none := by
  have hne : mesh.totpoly * 2 ≠ 0 := by omega
  have hfresh : ∀ j, (fresh_poly_offsets (mesh.totpoly * 2) (mesh.totloop * 2))[j]? =
      if j = mesh.totpoly * 2 then some (mesh.totloop * 2)
      else if j < mesh.totpoly * 2 then some 0 else none := by
    intro j
    unfold fresh_poly_offsets
    rw [if_neg hne, List.getElem?_set, List.getElem?_set]
    by_cases h1 : mesh.totpoly * 2 = j
    · subst h1; simp
    · have h4 : ¬ (j = mesh.totpoly * 2) := fun h => h1 h.symm
      rw [if_neg h1, if_neg h4]
      by_cases h2 : 0 = j
      · subst h2
        have h5 : 0 < mesh.totpoly * 2 := by omega
        simp [h5]
      · rw [if_neg h2, List.getElem?_replicate]
        by_cases h5 : j < mesh.totpoly * 2
        · have h6 : j < mesh.totpoly * 2 + 1 := by omega
          rw [if_pos h5, if_pos h6]
        · have h6 : ¬ j < mesh.totpoly * 2 + 1 := by omega
          rw [if_neg h5, if_neg h6]
  have hflen : (fresh_poly_offsets (mesh.totpoly * 2) (mesh.totloop * 2)).length =
      mesh.totpoly * 2 + 1 := by
    unfold fresh_poly_offsets
    simp [hne]
  unfold result_poly_offsets mirror_poly_offsets
  simp only [Mesh.polys_size]
  rw [getElem?_forRange_set (fun i => (mesh.poly i).start + mesh.totloop), length_copy_layer,
    hflen, getElem?_copy_layer, hflen, hfresh]
  by_cases h1 : j < mesh.totpoly
  · have h2 : ¬ (mesh.totpoly ≤ j ∧ j < mesh.totpoly + mesh.totpoly ∧
        j < mesh.totpoly * 2 + 1) := by omega
    have h3 : 0 ≤ j ∧ j < 0 + mesh.totpoly ∧ j < mesh.totpoly * 2 + 1 := by omega
    rw [if_neg h2, if_pos h3, if_pos h1]
    simp
  · by_cases h2 : j < mesh.totpoly * 2
    · have h3 : mesh.totpoly ≤ j ∧ j < mesh.totpoly + mesh.totpoly ∧
          j < mesh.totpoly * 2 + 1 := by omega
      rw [if_pos h3, if_neg h1, if_pos h2]
      simp [Mesh.poly, OffsetIndices_get]
    · have h3 : ¬ (mesh.totpoly ≤ j ∧ j < mesh.totpoly + mesh.totpoly ∧
          j < mesh.totpoly * 2 + 1) := by omega
      have h4 : ¬ (0 ≤ j ∧ j < 0 + mesh.totpoly ∧ j < mesh.totpoly * 2 + 1) := by omega
      rw [if_neg h3, if_neg h4, if_neg h1]
      by_cases h5 : j = mesh.totpoly * 2
      · rw [if_pos h5, if_neg h2, if_pos h5]
      · rw [if_neg h5, if_neg h2, if_neg h2, if_neg h5]

theorem result_poly_offsets_getD (mesh : Mesh) (hF : 0 < mesh.totpoly) (j : Nat) :
    (result_poly_offsets mesh).getD j 0 =
      if j < mesh.totpoly then mesh.poly_offsets.getD j 0
      else if j < mesh.totpoly * 2 then
        mesh.poly_offsets.getD (j - mesh.totpoly) 0 + mesh.totloop
      else if j = mesh.totpoly * 2 then mesh.totloop * 2
      else 0 := by
  rw [List.getD_eq_getElem?_getD, result_poly_offsets_spec mesh hF j]
  split
  · rfl
  · split
    · rfl
    · split <;> rfl

/-- The faces of the result: face `i` is the source face, face `F + i` is the source face
shifted by the source corner count. -/
theorem result_poly_spec (mesh : Mesh) (i : Nat) (hi : i < mesh.totpoly)
    (h0 : mesh.poly_offsets.getD 0 0 = 0)
    (hL : mesh.poly_offsets.getD mesh.totpoly 0 = mesh.totloop) :
    OffsetIndices_get (result_poly_offsets mesh) i = mesh.poly i ∧
    OffsetIndices_get (result_poly_offsets mesh) (mesh.totpoly + i) =
      { start := (mesh.poly i).start + mesh.totloop, size := (mesh.poly i).size } := by
  have hF : 0 < mesh.totpoly := by omega
  have e1 : (result_poly_offsets mesh).getD i 0 = mesh.poly_offsets.getD i 0 := by
    rw [result_poly_offsets_getD mesh hF i, if_pos hi]
  have e2 : (result_poly_offsets mesh).getD (mesh.totpoly + i) 0 =
      mesh.poly_offsets.getD i 0 + mesh.totloop := by
    have h1 : ¬ (mesh.totpoly + i < mesh.totpoly) := by omega
    have h2 : mesh.totpoly + i < mesh.totpoly * 2 := by omega
    have h4 : mesh.totpoly + i - mesh.totpoly = i := by omega
    rw [result_poly_offsets_getD mesh hF _, if_neg h1, if_pos h2, h4]
  have e3 : (result_poly_offsets mesh).getD (i + 1) 0 = mesh.poly_offsets.getD (i + 1) 0 := by
    rw [result_poly_offsets_getD mesh hF _]
    by_cases hlast : i + 1 < mesh.totpoly
    · rw [if_pos hlast]
    · have h7 : i + 1 = mesh.totpoly := by omega
      have h8 : mesh.totpoly < mesh.totpoly * 2 := by omega
      have h9 : mesh.totpoly - mesh.totpoly = 0 := by omega
      rw [h7, if_neg (Nat.lt_irrefl _), if_pos h8, h9, h0, hL]
      omega
  have e4 : (result_poly_offsets mesh).getD (mesh.totpoly + i + 1) 0 =
      mesh.poly_offsets.getD (i + 1) 0 + mesh.totloop := by
    have h1 : ¬ (mesh.totpoly + i + 1 < mesh.totpoly) := by omega
    rw [result_poly_offsets_getD mesh hF _, if_neg h1]
    by_cases hlast : i + 1 < mesh.totpoly
    · have h5 : mesh.totpoly + i + 1 < mesh.totpoly * 2 := by omega
      have h6 : mesh.totpoly + i + 1 - mesh.totpoly = i + 1 := by omega
      rw [if_pos h5, h6]
    · have h5 : ¬ (mesh.totpoly + i + 1 < mesh.totpoly * 2) := by omega
      have h6 : mesh.totpoly + i + 1 = mesh.totpoly * 2 := by omega
      have h7 : i + 1 = mesh.totpoly := by omega
      rw [if_neg h5, if_pos h6, h7, hL]
      omega
  unfold OffsetIndices_get Mesh.poly OffsetIndices_get
  rw [e1, e2, e3, e4]
  simp only [IndexRange.mk.injEq, true_and]
  omega

theorem doubled_edges_spec (mesh : Mesh) :
    (doubled_edges mesh).length = mesh.totedge * 2 ∧
    ∀ k, k < mesh.totedge →
      (doubled_edges mesh)[k]? = some (mesh.edges.getD k (0, 0)) ∧
      (doubled_edges mesh)[mesh.totedge + k]? = some (mesh.edges.getD k (0, 0)) :=
  double_copy_spec mesh.edges mesh.totedge ((0, 0) : Int × Int)

theorem adjust_edges_spec (E N : Nat) (es : List (Int × Int)) (j : Nat) :
    (adjust_edges E N es)[j]? =
      if E ≤ j ∧ j < es.length then (es[j]?).map (fun e => int2_add e (N : Int))
      else es[j]? := by
  unfold adjust_edges
  exact getElem?_forRange_modify (fun e => int2_add e (N : Int)) (0, 0) E es.length es j

/-! ## Array lengths of the result -/

theorem length_reverse_poly_layer {α : Type} [Inhabited α] (src : List α)
    (sp mp : IndexRange) (dst : List α) :
    (reverse_poly_layer src sp mp dst).length = dst.length := by
  unfold reverse_poly_layer
  refine forRange_preserves (fun (d : List α) => d.length = dst.length) _ _ _ _ ?_ ?_
  · exact length_copy_layer _ _ _ _ _
  · intro k d hd
    rw [length_copy_layer]; exact hd

theorem length_rotate_poly_edges (mp : IndexRange) (ce : List Int) :
    (rotate_poly_edges mp ce).length = ce.length := by
  unfold rotate_poly_edges
  rw [List.length_set]
  refine forRange_preserves (fun (d : List Int) => d.length = ce.length) _ _ _ _ rfl ?_
  intro k d hd
  rw [List.length_set]; exact hd

theorem length_reversed_corner_verts (mesh : Mesh) :
    (reversed_corner_verts mesh).length = mesh.totloop * 2 := by
  unfold reversed_corner_verts
  refine forRange_preserves (fun (d : List Int) => d.length = mesh.totloop * 2) _ _ _ _ ?_ ?_
  · simp [length_copy_layer]
  · intro k d hd
    rw [length_reverse_poly_layer]; exact hd

theorem length_reversed_corner_edges (mesh : Mesh) :
    (reversed_corner_edges mesh).length = mesh.totloop * 2 := by
  unfold reversed_corner_edges
  refine forRange_preserves (fun (d : List Int) => d.length = mesh.totloop * 2) _ _ _ _ ?_ ?_
  · simp [length_copy_layer]
  · intro k d hd
    rw [length_rotate_poly_edges, length_reverse_poly_layer]; exact hd

theorem length_adjust_corners (L offset : Nat) (cs : List Int) :
    (adjust_corners L offset cs).length = cs.length := by
  unfold adjust_corners
  exact length_forRange_modify (fun c => c + (offset : Int)) 0 L cs.length cs

theorem length_adjust_edges (E N : Nat) (es : List (Int × Int)) :
    (adjust_edges E N es).length = es.length := by
  unfold adjust_edges
  exact length_forRange_modify (fun e => int2_add e (N : Int)) (0, 0) E es.length es

theorem length_vert_pass_positions (fa : FloatArith) (ops : Collaborators)
    (mmd : MirrorModifierData) (ob : Object) (mesh : Mesh) (axis : Fin 3) (uco wmm : Bool) :
    (vert_pass fa ops mmd ob mesh axis uco wmm).positions.length =
      (source_mesh fa ops mmd ob mesh axis).totvert * 2 :=
  (mirror_vert_loop_spec _ _ _ _ _ _
    (doubled_positions_spec (source_mesh fa ops mmd ob mesh axis)).1).1

/-! ## Winding reversal of one face -/

theorem getElem?_copy_one {α : Type} [Inhabited α] (src dst : List α) (s d j : Nat)
    (hd : d < dst.length) :
    (copy_layer src dst s d 1)[j]? = if j = d then some (src.getD s default) else dst[j]? := by
  rw [getElem?_copy_layer]
  by_cases hj : j = d
  · subst hj
    have h : j ≤ j ∧ j < j + 1 ∧ j < dst.length := by omega
    rw [if_pos h, if_pos rfl]
    simp
  · have h : ¬ (d ≤ j ∧ j < d + 1 ∧ j < dst.length) := by omega
    rw [if_neg h, if_neg hj]

/-- The effect of the reversed copy on one layer: corner `m` of the mirrored face receives
source corner `s`, corner `m + t` (`0 < t < n`) receives source corner `s + n - t`. -/
theorem getElem?_reverse_poly_layer {α : Type} [Inhabited α] (src dst : List α)
    (sp : IndexRange) (m n : Nat) (hn : 1 ≤ n) (hb : m + n ≤ dst.length) (idx : Nat) :
    (reverse_poly_layer src sp { start := m, size := n } dst)[idx]? =
      if m ≤ idx ∧ idx < m + n then
        some (src.getD (sp.start + (if idx = m then 0 else n - (idx - m))) default)
      else dst[idx]? := by
  unfold reverse_poly_layer
  have key := forRange_induction
    (fun k (acc : List α) => acc.length = dst.length ∧ ∀ idx, acc[idx]? =
      if idx = m ∨ (m + n - k < idx ∧ idx < m + n) then
        some (src.getD (sp.start + (if idx = m then 0 else n - (idx - m))) default)
      else dst[idx]?)
    1 n
    (fun j d => copy_layer src d (sp.get j)
      (IndexRange.last { start := m, size := n } (j - 1)) 1)
    (copy_layer src dst sp.start m 1) hn ?_ ?_
  · have h := key.2 idx
    simp only [] at h ⊢
    rw [h]
    by_cases hc : m ≤ idx ∧ idx < m + n
    · have hc2 : idx = m ∨ (m + n - n < idx ∧ idx < m + n) := by omega
      rw [if_pos hc, if_pos hc2]
    · have hc2 : ¬ (idx = m ∨ (m + n - n < idx ∧ idx < m + n)) := by omega
      rw [if_neg hc, if_neg hc2]
  · refine ⟨length_copy_layer _ _ _ _ _, fun idx => ?_⟩
    rw [getElem?_copy_one src dst sp.start m idx (by omega)]
    by_cases hc : idx = m
    · have hc2 : idx = m ∨ (m + n - 1 < idx ∧ idx < m + n) := Or.inl hc
      rw [if_pos hc, if_pos hc2, if_pos hc]
      simp
    · have hc2 : ¬ (idx = m ∨ (m + n - 1 < idx ∧ idx < m + n)) := by omega
      rw [if_neg hc, if_neg hc2]
  · rintro k acc hk1 hkn ⟨hlen, hacc⟩
    refine ⟨by rw [length_copy_layer]; exact hlen, fun idx => ?_⟩
    have hlast : IndexRange.last { start := m, size := n } (k - 1) = m + n - k := by
      simp only [IndexRange.last]; omega
    beta_reduce
    rw [hlast, getElem?_copy_one src acc (sp.get k) (m + n - k) idx (by omega), hacc idx]
    by_cases hc : idx = m + n - k
    · have hc2 : idx = m ∨ (m + n - (k + 1) < idx ∧ idx < m + n) := by omega
      have hc3 : ¬ idx = m := by omega
      have hc4 : n - (idx - m) = k := by omega
      rw [if_pos hc, if_pos hc2, if_neg hc3, hc4]
      rfl
    · rw [if_neg hc]
      by_cases hc2 : idx = m ∨ (m + n - k < idx ∧ idx < m + n)
      · have hc3 : idx = m ∨ (m + n - (k + 1) < idx ∧ idx < m + n) := by omega
        rw [if_pos hc2, if_pos hc3]
      · have hc3 : ¬ (idx = m ∨ (m + n - (k + 1) < idx ∧ idx < m + n)) := by omega
        rw [if_neg hc2, if_neg hc3]

/-- The effect of the rotation of the corner-edge references of one mirrored face. -/
theorem getElem?_rotate_poly_edges (ce : List Int) (m n : Nat) (hn : 1 ≤ n)
    (hb : m + n ≤ ce.length) (idx : Nat) :
    (rotate_poly_edges { start := m, size := n } ce)[idx]? =
      if m ≤ idx ∧ idx < m + n then (if idx + 1 < m + n then ce[idx + 1]? else ce[m]?)
      else ce[idx]? := by
  unfold rotate_poly_edges
  have key := forRange_induction
    (fun k (acc : List Int) => acc.length = ce.length ∧ ∀ idx, acc[idx]? =
      if m ≤ idx ∧ idx < m + k then ce[idx + 1]? else ce[idx]?)
    0 (n - 1)
    (fun j d => d.set (m + j) (d.getD (m + (j + 1)) 0)) ce (Nat.zero_le _) ?_ ?_
  · simp only [] at key ⊢
    have hlast : IndexRange.last { start := m, size := n } 0 = m + n - 1 := by
      simp only [IndexRange.last]; omega
    rw [hlast, List.getElem?_set, key.1, key.2 idx]
    have hm : ce.getD m 0 = ce[m] := by
      rw [List.getD_eq_getElem?_getD, List.getElem?_eq_getElem (by omega)]; rfl
    by_cases hc : m + n - 1 = idx
    · have h1 : m + n - 1 < ce.length := by omega
      have h2 : m ≤ idx ∧ idx < m + n := by omega
      have h3 : ¬ idx + 1 < m + n := by omega
      rw [if_pos hc, if_pos h1, if_pos h2, if_neg h3, hm,
        List.getElem?_eq_getElem (by omega)]
    · rw [if_neg hc]
      by_cases h2 : m ≤ idx ∧ idx < m + n
      · have h3 : idx + 1 < m + n := by omega
        have h4 : m ≤ idx ∧ idx < m + (n - 1) := by omega
        rw [if_pos h2, if_pos h3, if_pos h4]
      · have h4 : ¬ (m ≤ idx ∧ idx < m + (n - 1)) := by omega
        rw [if_neg h2, if_neg h4]
  · refine ⟨rfl, fun idx => ?_⟩
    have h : ¬ (m ≤ idx ∧ idx < m + 0) := by omega
    rw [if_neg h]
  · rintro k acc - hk ⟨hlen, hacc⟩
    refine ⟨by rw [List.length_set]; exact hlen, fun idx => ?_⟩
    have hnext : some (acc.getD (m + (k + 1)) 0) = ce[m + (k + 1)]? := by
      have h : ¬ (m ≤ m + (k + 1) ∧ m + (k + 1) < m + k) := by omega
      have hin : m + (k + 1) < ce.length := by omega
      rw [List.getD_eq_getElem?_getD, hacc, if_neg h, List.getElem?_eq_getElem hin]
      rfl
    beta_reduce
    rw [List.getElem?_set, hlen, hacc idx]
    by_cases hc : m + k = idx
    · have h1 : m + k < ce.length := by omega
      have h2 : m ≤ idx ∧ idx < m + (k + 1) := by omega
      rw [if_pos hc, if_pos h1, if_pos h2]
      subst hc
      exact hnext
    · rw [if_neg hc]
      by_cases h2 : m ≤ idx ∧ idx < m + k
      · have h3 : m ≤ idx ∧ idx < m + (k + 1) := by omega
        rw [if_pos h2, if_pos h3]
      · have h3 : ¬ (m ≤ idx ∧ idx < m + (k + 1)) := by omega
        rw [if_neg h2, if_neg h3]

/-! ## The loop over all faces -/

theorem offsets_mono (off : Nat → Nat) (F : Nat) (hstrict : ∀ i, i < F → off i < off (i + 1))
    (i j : Nat) (hij : i ≤ j) (hj : j ≤ F) : off i ≤ off j := by
  induction j, hij using Nat.le_induction with
  | base => exact Nat.le_refl _
  | succ k hk ih =>
    exact Nat.le_trans (ih (by omega)) (Nat.le_of_lt (hstrict k (by omega)))

/-- A loop over the faces in which step `k` rewrites exactly the corners
`[off k + L, off (k+1) + L)`: afterwards every face holds what its own step wrote, and the
corners outside `[off 0 + L, off F + L)` are untouched. -/
theorem face_loop_spec {α : Type} (step : Nat → List α → List α) (val : Nat → Nat → α)
    (off : Nat → Nat) (F L : Nat) (init : List α) (hstrict : ∀ i, i < F → off i < off (i + 1))
    (hstep : ∀ k, k < F → ∀ acc : List α, acc.length = init.length →
      (step k acc).length = init.length ∧
      ∀ idx, (step k acc)[idx]? =
        if off k + L ≤ idx ∧ idx < off (k + 1) + L then some (val k (idx - (off k + L)))
        else acc[idx]?) :
    (forRange 0 F step init).length = init.length ∧
    (∀ i, i < F → ∀ t, t < off (i + 1) - off i →
      (forRange 0 F step init)[off i + L + t]? = some (val i t)) ∧
    (∀ idx, idx < off 0 + L ∨ off F + L ≤ idx →
      (forRange 0 F step init)[idx]? = init[idx]?) := by
  have key := forRange_induction
    (fun k (acc : List α) => k ≤ F ∧ acc.length = init.length ∧
      (∀ i, i < k → ∀ t, t < off (i + 1) - off i → acc[off i + L + t]? = some (val i t)) ∧
      (∀ idx, idx < off 0 + L ∨ off k + L ≤ idx → acc[idx]? = init[idx]?))
    0 F step init (Nat.zero_le _) ?_ ?_
  · exact key.2
  · exact ⟨Nat.zero_le _, rfl, fun i hi => by omega, fun idx _ => rfl⟩
  · rintro k acc - hk ⟨-, hlen, hdone, hout⟩
    have hs := hstep k hk acc hlen
    refine ⟨hk, hs.1, ?_, ?_⟩
    · intro i hi t ht
      rw [hs.2]
      by_cases hik : i = k
      · subst hik
        have hc : off i + L ≤ off i + L + t ∧ off i + L + t < off (i + 1) + L := by omega
        have ht2 : off i + L + t - (off i + L) = t := by omega
        rw [if_pos hc, ht2]
      · have hm := offsets_mono off F hstrict (i + 1) k (by omega) (by omega)
        have hc : ¬ (off k + L ≤ off i + L + t ∧ off i + L + t < off (k + 1) + L) := by omega
        rw [if_neg hc]
        exact hdone i (by omega) t ht
    · intro idx hidx
      rw [hs.2]
      have hm0 := offsets_mono off F hstrict 0 k (Nat.zero_le _) (by omega)
      have hm1 := hstrict k hk
      have hc : ¬ (off k + L ≤ idx ∧ idx < off (k + 1) + L) := by omega
      rw [if_neg hc]
      exact hout idx (by omega)

theorem getElem?_rotate_reverse (src dst : List Int) (sp : IndexRange) (m n : Nat)
    (hn : 1 ≤ n) (hb : m + n ≤ dst.length) (idx : Nat) :
    (rotate_poly_edges { start := m, size := n }
        (reverse_poly_layer src sp { start := m, size := n } dst))[idx]? =
      if m ≤ idx ∧ idx < m + n then some (src.getD (sp.start + (n - 1 - (idx - m))) 0)
      else dst[idx]? := by
  rw [getElem?_rotate_poly_edges _ m n hn (by rw [length_reverse_poly_layer]; exact hb)]
  by_cases hc : m ≤ idx ∧ idx < m + n
  · rw [if_pos hc, if_pos hc]
    by_cases hc2 : idx + 1 < m + n
    · have h1 : m ≤ idx + 1 ∧ idx + 1 < m + n := by omega
      have h2 : ¬ idx + 1 = m := by omega
      have h3 : n - (idx + 1 - m) = n - 1 - (idx - m) := by omega
      rw [if_pos hc2, getElem?_reverse_poly_layer src dst sp m n hn hb, if_pos h1, if_neg h2, h3]
      rfl
    · have h1 : m ≤ m ∧ m < m + n := by omega
      have h3 : n - 1 - (idx - m) = 0 := by omega
      rw [if_neg hc2, getElem?_reverse_poly_layer src dst sp m n hn hb, if_pos h1, if_pos rfl, h3]
      rfl
  · rw [if_neg hc, if_neg hc, getElem?_reverse_poly_layer src dst sp m n hn hb, if_neg hc]

theorem getElem?_copy_first_half (src : List Int) (L idx : Nat) :
    (copy_layer src (List.replicate (L * 2) 0) 0 0 L)[idx]? =
      if idx < L then some (src.getD idx 0)
      else if idx < L * 2 then some 0 else none := by
  rw [getElem?_copy_layer, List.length_replicate, List.getElem?_replicate]
  by_cases h : idx < L
  · have h1 : 0 ≤ idx ∧ idx < 0 + L ∧ idx < L * 2 := by omega
    rw [if_pos h1, if_pos h]
    simp
  · have h1 : ¬ (0 ≤ idx ∧ idx < 0 + L ∧ idx < L * 2) := by omega
    rw [if_neg h1, if_neg h]

/-- The corner-vertex layer after the reversal loop: the first half is the source layer,
and corner `t` of mirrored face `i` holds source corner `0` (if `t = 0`) or `n - t` of the
source face. -/
theorem reversed_corner_verts_spec (mesh : Mesh) (hok : mesh.faces_ok) :
    (∀ i, i < mesh.totpoly → ∀ t, t < (mesh.poly i).size →
      (reversed_corner_verts mesh)[(mesh.poly i).start + mesh.totloop + t]? =
        some (mesh.corner_verts.getD
          ((mesh.poly i).start + (if t = 0 then 0 else (mesh.poly i).size - t)) 0)) ∧
    (∀ idx, idx < mesh.totloop →
      (reversed_corner_verts mesh)[idx]? = some (mesh.corner_verts.getD idx 0)) := by
  obtain ⟨h0, hL, hstrict⟩ := hok
  have hlen0 : (copy_layer mesh.corner_verts (List.replicate (mesh.totloop * 2) 0) 0 0
      mesh.totloop).length = mesh.totloop * 2 := by simp [length_copy_layer]
  have h := face_loop_spec
    (fun i cv => reverse_poly_layer mesh.corner_verts (mesh.poly i)
      (OffsetIndices_get (result_poly_offsets mesh) (mesh.polys_size + i)) cv)
    (fun i t => mesh.corner_verts.getD
      ((mesh.poly i).start + (if t = 0 then 0 else (mesh.poly i).size - t)) 0)
    (fun i => mesh.poly_offsets.getD i 0) mesh.totpoly mesh.totloop
    (copy_layer mesh.corner_verts (List.replicate (mesh.totloop * 2) 0) 0 0 mesh.totloop)
    hstrict ?_
  · refine ⟨fun i hi t ht => h.2.1 i hi t ht, fun idx hidx => ?_⟩
    have := h.2.2 idx (Or.inl (by simp only []; omega))
    have e : (reversed_corner_verts mesh)[idx]? =
        (copy_layer mesh.corner_verts (List.replicate (mesh.totloop * 2) 0) 0 0
          mesh.totloop)[idx]? := this
    rw [e, getElem?_copy_first_half, if_pos hidx]
  · intro k hk acc hacc
    have hmp := (result_poly_spec mesh k hk h0 hL).2
    have hm := offsets_mono (fun i => mesh.poly_offsets.getD i 0) mesh.totpoly hstrict
      (k + 1) mesh.totpoly (by omega) (Nat.le_refl _)
    have hs := hstrict k hk
    simp only [] at hm
    simp only [Mesh.polys_size]
    rw [hmp]
    refine ⟨by rw [length_reverse_poly_layer]; exact hacc, fun idx => ?_⟩
    have hb : (mesh.poly k).start + mesh.totloop + (mesh.poly k).size ≤ acc.length := by
      simp only [Mesh.poly, OffsetIndices_get]; omega
    have hn : 1 ≤ (mesh.poly k).size := by
      simp only [Mesh.poly, OffsetIndices_get]; omega
    rw [getElem?_reverse_poly_layer _ _ _ _ _ hn hb]
    have hstart : (mesh.poly k).start = mesh.poly_offsets.getD k 0 := rfl
    have hsize : (mesh.poly k).size =
        mesh.poly_offsets.getD (k + 1) 0 - mesh.poly_offsets.getD k 0 := rfl
    by_cases hc : (mesh.poly k).start + mesh.totloop ≤ idx ∧
        idx < (mesh.poly k).start + mesh.totloop + (mesh.poly k).size
    · have hc2 : mesh.poly_offsets.getD k 0 + mesh.totloop ≤ idx ∧
          idx < mesh.poly_offsets.getD (k + 1) 0 + mesh.totloop := by omega
      rw [if_pos hc, if_pos hc2]
      by_cases he : idx = (mesh.poly k).start + mesh.totloop
      · have he2 : idx - (mesh.poly_offsets.getD k 0 + mesh.totloop) = 0 := by omega
        rw [if_pos he, he2, if_pos rfl]
        rfl
      · have he2 : ¬ idx - (mesh.poly_offsets.getD k 0 + mesh.totloop) = 0 := by omega
        rw [if_neg he, if_neg he2, hstart]
        rfl
    · have hc2 : ¬ (mesh.poly_offsets.getD k 0 + mesh.totloop ≤ idx ∧
          idx < mesh.poly_offsets.getD (k + 1) 0 + mesh.totloop) := by omega
      rw [if_neg hc, if_neg hc2]

/-- The corner-edge layer after the reversal loop: the first half is the source layer, and
corner `t` of mirrored face `i` holds the reference of source corner `n - 1 - t`. -/
theorem reversed_corner_edges_spec (mesh : Mesh) (hok : mesh.faces_ok) :
    (∀ i, i < mesh.totpoly → ∀ t, t < (mesh.poly i).size →
      (reversed_corner_edges mesh)[(mesh.poly i).start + mesh.totloop + t]? =
        some (mesh.corner_edges.getD
          ((mesh.poly i).start + ((mesh.poly i).size - 1 - t)) 0)) ∧
    (∀ idx, idx < mesh.totloop →
      (reversed_corner_edges mesh)[idx]? = some (mesh.corner_edges.getD idx 0)) := by
  obtain ⟨h0, hL, hstrict⟩ := hok
  have hlen0 : (copy_layer mesh.corner_edges (List.replicate (mesh.totloop * 2) 0) 0 0
      mesh.totloop).length = mesh.totloop * 2 := by simp [length_copy_layer]
  have h := face_loop_spec
    (fun i ce => rotate_poly_edges
      (OffsetIndices_get (result_poly_offsets mesh) (mesh.polys_size + i))
      (reverse_poly_layer mesh.corner_edges (mesh.poly i)
        (OffsetIndices_get (result_poly_offsets mesh) (mesh.polys_size + i)) ce))
    (fun i t => mesh.corner_edges.getD
      ((mesh.poly i).start + ((mesh.poly i).size - 1 - t)) 0)
    (fun i => mesh.poly_offsets.getD i 0) mesh.totpoly mesh.totloop
    (copy_layer mesh.corner_edges (List.replicate (mesh.totloop * 2) 0) 0 0 mesh.totloop)
    hstrict ?_
  · refine ⟨fun i hi t ht => h.2.1 i hi t ht, fun idx hidx => ?_⟩
    have := h.2.2 idx (Or.inl (by simp only []; omega))
    have e : (reversed_corner_edges mesh)[idx]? =
        (copy_layer mesh.corner_edges (List.replicate (mesh.totloop * 2) 0) 0 0
          mesh.totloop)[idx]? := this
    rw [e, getElem?_copy_first_half, if_pos hidx]
  · intro k hk acc hacc
    have hmp := (result_poly_spec mesh k hk h0 hL).2
    have hm := offsets_mono (fun i => mesh.poly_offsets.getD i 0) mesh.totpoly hstrict
      (k + 1) mesh.totpoly (by omega) (Nat.le_refl _)
    have hs := hstrict k hk
    simp only [] at hm
    simp only [Mesh.polys_size]
    rw [hmp]
    refine ⟨by rw [length_rotate_poly_edges, length_reverse_poly_layer]; exact hacc,
      fun idx => ?_⟩
    have hb : (mesh.poly k).start + mesh.totloop + (mesh.poly k).size ≤ acc.length := by
      simp only [Mesh.poly, OffsetIndices_get]; omega
    have hn : 1 ≤ (mesh.poly k).size := by
      simp only [Mesh.poly, OffsetIndices_get]; omega
    rw [getElem?_rotate_reverse _ _ _ _ _ hn hb]
    have hstart : (mesh.poly k).start = mesh.poly_offsets.getD k 0 := rfl
    have hsize : (mesh.poly k).size =
        mesh.poly_offsets.getD (k + 1) 0 - mesh.poly_offsets.getD k 0 := rfl
    by_cases hc : (mesh.poly k).start + mesh.totloop ≤ idx ∧
        idx < (mesh.poly k).start + mesh.totloop + (mesh.poly k).size
    · have hc2 : mesh.poly_offsets.getD k 0 + mesh.totloop ≤ idx ∧
          idx < mesh.poly_offsets.getD (k + 1) 0 + mesh.totloop := by omega
      rw [if_pos hc, if_pos hc2, hstart]
    · have hc2 : ¬ (mesh.poly_offsets.getD k 0 + mesh.totloop ≤ idx ∧
          idx < mesh.poly_offsets.getD (k + 1) 0 + mesh.totloop) := by omega
      rw [if_neg hc, if_neg hc2]

/-! ## The corner layers of the result -/

theorem adjust_corners_spec (L offset : Nat) (cs : List Int) (j : Nat) :
    (adjust_corners L offset cs)[j]? =
      if L ≤ j ∧ j < cs.length then (cs[j]?).map (fun c => c + (offset : Int))
      else cs[j]? := by
  unfold adjust_corners
  exact getElem?_forRange_modify (fun c => c + (offset : Int)) 0 L cs.length cs j

theorem poly_end_le_totloop (mesh : Mesh) (hok : mesh.faces_ok) (i : Nat)
    (hi : i < mesh.totpoly) :
    1 ≤ (mesh.poly i).size ∧ (mesh.poly i).start + (mesh.poly i).size ≤ mesh.totloop := by
  obtain ⟨h0, hL, hstrict⟩ := hok
  have hm := offsets_mono (fun i => mesh.poly_offsets.getD i 0) mesh.totpoly hstrict
    (i + 1) mesh.totpoly (by omega) (Nat.le_refl _)
  have hs := hstrict i hi
  simp only [] at hm
  simp only [Mesh.poly, OffsetIndices_get]
  omega

/-- Corner `t` of mirrored face `F + i` references the mirrored copy of the vertex of source
corner `0` (if `t = 0`) or `n - t`. -/
theorem result_corner_verts_mirrored (fa : FloatArith) (ops : Collaborators)
    (mmd : MirrorModifierData) (ob : Object) (mesh : Mesh) (axis : Fin 3) (uco wmm : Bool)
    (hok : (source_mesh fa ops mmd ob mesh axis).faces_ok) (i : Nat)
    (hi : i < (source_mesh fa ops mmd ob mesh axis).totpoly) (t : Nat)
    (ht : t < ((source_mesh fa ops mmd ob mesh axis).poly i).size) :
    (BKE_mesh_mirror_apply_mirror_on_axis_for_modifier fa ops mmd ob mesh axis uco
        wmm).1.corner_verts[((source_mesh fa ops mmd ob mesh axis).poly i).start +
          (source_mesh fa ops mmd ob mesh axis).totloop + t]? =
      some ((source_mesh fa ops mmd ob mesh axis).corner_verts.getD
        (((source_mesh fa ops mmd ob mesh axis).poly i).start +
          (if t = 0 then 0 else ((source_mesh fa ops mmd ob mesh axis).poly i).size - t)) 0 +
        ((source_mesh fa ops mmd ob mesh axis).totvert : Int)) := by
  have hb := poly_end_le_totloop _ hok i hi
  have hc : (source_mesh fa ops mmd ob mesh axis).totloop ≤
      ((source_mesh fa ops mmd ob mesh axis).poly i).start +
        (source_mesh fa ops mmd ob mesh axis).totloop + t ∧
      ((source_mesh fa ops mmd ob mesh axis).poly i).start +
        (source_mesh fa ops mmd ob mesh axis).totloop + t <
        (source_mesh fa ops mmd ob mesh axis).totloop * 2 := by omega
  rw [result_corner_verts, adjust_corners_spec, length_reversed_corner_verts, if_pos hc,
    (reversed_corner_verts_spec _ hok).1 i hi t ht]
  rfl

/-- Corner `t` of mirrored face `F + i` references the mirrored copy of the edge of source
corner `n - 1 - t`. -/
theorem result_corner_edges_mirrored (fa : FloatArith) (ops : Collaborators)
    (mmd : MirrorModifierData) (ob : Object) (mesh : Mesh) (axis : Fin 3) (uco wmm : Bool)
    (hok : (source_mesh fa ops mmd ob mesh axis).faces_ok) (i : Nat)
    (hi : i < (source_mesh fa ops mmd ob mesh axis).totpoly) (t : Nat)
    (ht : t < ((source_mesh fa ops mmd ob mesh axis).poly i).size) :
    (BKE_mesh_mirror_apply_mirror_on_axis_for_modifier fa ops mmd ob mesh axis uco
        wmm).1.corner_edges[((source_mesh fa ops mmd ob mesh axis).poly i).start +
          (source_mesh fa ops mmd ob mesh axis).totloop + t]? =
      some ((source_mesh fa ops mmd ob mesh axis).corner_edges.getD
        (((source_mesh fa ops mmd ob mesh axis).poly i).start +
          (((source_mesh fa ops mmd ob mesh axis).poly i).size - 1 - t)) 0 +
        ((source_mesh fa ops mmd ob mesh axis).totedge : Int)) := by
  have hb := poly_end_le_totloop _ hok i hi
  have hc : (source_mesh fa ops mmd ob mesh axis).totloop ≤
      ((source_mesh fa ops mmd ob mesh axis).poly i).start +
        (source_mesh fa ops mmd ob mesh axis).totloop + t ∧
      ((source_mesh fa ops mmd ob mesh axis).poly i).start +
        (source_mesh fa ops mmd ob mesh axis).totloop + t <
        (source_mesh fa ops mmd ob mesh axis).totloop * 2 := by omega
  rw [result_corner_edges, adjust_corners_spec, length_reversed_corner_edges, if_pos hc,
    (reversed_corner_edges_spec _ hok).1 i hi t ht]
  rfl

/-- The first half of the corner layers of the result is the source. -/
theorem result_corners_first_half (fa : FloatArith) (ops : Collaborators) (mmd : MirrorModifierData)
    (ob : Object) (mesh : Mesh) (axis : Fin 3) (uco wmm : Bool)
    (hok : (source_mesh fa ops mmd ob mesh axis).faces_ok) (idx : Nat)
    (hidx : idx < (source_mesh fa ops mmd ob mesh axis).totloop) :
    (BKE_mesh_mirror_apply_mirror_on_axis_for_modifier fa ops mmd ob mesh axis uco
        wmm).1.corner_verts[idx]? =
      some ((source_mesh fa ops mmd ob mesh axis).corner_verts.getD idx 0) ∧
    (BKE_mesh_mirror_apply_mirror_on_axis_for_modifier fa ops mmd ob mesh axis uco
        wmm).1.corner_edges[idx]? =
      some ((source_mesh fa ops mmd ob mesh axis).corner_edges.getD idx 0) := by
  have hc : ¬ ((source_mesh fa ops mmd ob mesh axis).totloop ≤ idx ∧
      idx < (source_mesh fa ops mmd ob mesh axis).totloop * 2) := by omega
  constructor
  · rw [result_corner_verts, adjust_corners_spec, length_reversed_corner_verts, if_neg hc,
      (reversed_corner_verts_spec _ hok).2 idx hidx]
  · rw [result_corner_edges, adjust_corners_spec, length_reversed_corner_edges, if_neg hc,
      (reversed_corner_edges_spec _ hok).2 idx hidx]

/-- The face ranges of the result: face `i` is the source face, face `F + i` is the source
face shifted by the source corner count. -/
theorem result_face_ranges (fa : FloatArith) (ops : Collaborators) (mmd : MirrorModifierData)
    (ob : Object) (mesh : Mesh) (axis : Fin 3) (uco wmm : Bool) (i : Nat)
    (hi : i < (source_mesh fa ops mmd ob mesh axis).totpoly)
    (h0 : (source_mesh fa ops mmd ob mesh axis).poly_offsets.getD 0 0 = 0)
    (hL : (source_mesh fa ops mmd ob mesh axis).poly_offsets.getD
      (source_mesh fa ops mmd ob mesh axis).totpoly 0 = (source_mesh fa ops mmd ob mesh axis).totloop) :
    ((BKE_mesh_mirror_apply_mirror_on_axis_for_modifier fa ops mmd ob mesh axis uco wmm).1.poly
        i).start = ((source_mesh fa ops mmd ob mesh axis).poly i).start ∧
    ((BKE_mesh_mirror_apply_mirror_on_axis_for_modifier fa ops mmd ob mesh axis uco wmm).1.poly
        i).size = ((source_mesh fa ops mmd ob mesh axis).poly i).size ∧
    ((BKE_mesh_mirror_apply_mirror_on_axis_for_modifier fa ops mmd ob mesh axis uco wmm).1.poly
        ((source_mesh fa ops mmd ob mesh axis).totpoly + i)).start =
      ((source_mesh fa ops mmd ob mesh axis).poly i).start +
        (source_mesh fa ops mmd ob mesh axis).totloop ∧
    ((BKE_mesh_mirror_apply_mirror_on_axis_for_modifier fa ops mmd ob mesh axis uco wmm).1.poly
        ((source_mesh fa ops mmd ob mesh axis).totpoly + i)).size =
      ((source_mesh fa ops mmd ob mesh axis).poly i).size := by
  have h := result_poly_spec (source_mesh fa ops mmd ob mesh axis) i hi h0 hL
  have hpo := (result_non_corner fa ops mmd ob mesh axis uco wmm).2.2.2.2.2
  unfold Mesh.poly at h ⊢
  rw [hpo, h.1, h.2]
  exact ⟨rfl, rfl, rfl, rfl⟩

/-! ## The UV flip -/

/-- The two components of `mirror_uv` when UDIM mode is off. -/
theorem mirror_uv_no_udim (fa : FloatArith) (mmd : MirrorModifierData) (uv : float2)
    (hudim : flag_test mmd.flag MOD_MIR_MIRROR_UDIM = false) :
    mirror_uv fa mmd uv 0 =
      fa.add (if flag_test mmd.flag MOD_MIR_MIRROR_U then
          fa.add (fa.sub 1 (uv 0)) (mmd.uv_offset 0) else uv 0) (mmd.uv_offset_copy 0) ∧
    mirror_uv fa mmd uv 1 =
      fa.add (if flag_test mmd.flag MOD_MIR_MIRROR_V then
          fa.add (fa.sub 1 (uv 1)) (mmd.uv_offset 1) else uv 1) (mmd.uv_offset_copy 1) := by
  unfold mirror_uv
  simp [hudim]

/-- The `u` component of `mirror_uv` when `MOD_MIR_MIRROR_U` and UDIM mode are set. -/
theorem mirror_uv_udim (fa : FloatArith) (mmd : MirrorModifierData) (uv : float2)
    (hu : flag_test mmd.flag MOD_MIR_MIRROR_U = true)
    (hudim : flag_test mmd.flag MOD_MIR_MIRROR_UDIM = true) :
    mirror_uv fa mmd uv 0 =
      fa.add (fa.add (fa.sub (ceilf (uv 0)) (fmodf_one (uv 0))) (mmd.uv_offset 0))
        (mmd.uv_offset_copy 0) := by
  unfold mirror_uv
  simp [hu, hudim]

/-- The UDIM expression `ceilf(u) - fmodf(u, 1)` in closed form: `u` itself at an integer,
the reflection about the centre of the tile for positive non-integers, and the reflection
about the upper tile boundary for negative non-integers. -/
theorem udim_flip_closed_form (u : ℚ) :
    ceilf u - fmodf_one u =
      if (⌊u⌋ : ℚ) = u then u
      else if 0 ≤ u then 2 * (⌊u⌋ : ℚ) + 1 - u
      else 2 * (⌊u⌋ : ℚ) + 2 - u := by
  unfold ceilf fmodf_one
  by_cases hint : ((⌊u⌋ : Int) : ℚ) = u
  · rw [if_pos hint]
    have hc : ((⌈u⌉ : Int) : ℚ) = u := by
      have h1 : ⌈u⌉ = ⌊u⌋ := by
        rw [Int.ceil_eq_iff]
        constructor
        · rw [hint]; linarith
        · rw [hint]
      rw [h1, hint]
    rw [hc, hint]
    split <;> ring
  · rw [if_neg hint]
    have hlt : ((⌊u⌋ : Int) : ℚ) < u := lt_of_le_of_ne (Int.floor_le u) hint
    have hceil : ((⌈u⌉ : Int) : ℚ) = (⌊u⌋ : ℚ) + 1 := by
      have h1 : ⌈u⌉ = ⌊u⌋ + 1 := by
        rw [Int.ceil_eq_iff]
        constructor
        · push_cast; linarith
        · push_cast; exact le_of_lt (Int.lt_floor_add_one u)
      rw [h1]; push_cast; ring
    rw [hceil]
    by_cases h0 : 0 ≤ u
    · rw [if_pos h0, if_pos h0]; ring
    · rw [if_neg h0, if_neg h0]; ring

/-- With `MOD_MIR_MIRROR_U` set, UDIM mode off and a zero copy offset, the U flip is in exact
arithmetic the reflection about the point `1/2 + uv_offset[0] / 2`, which is its only fixed
point. -/
theorem mirror_uv_flip_point (mmd : MirrorModifierData) (uv : float2)
    (hu : flag_test mmd.flag MOD_MIR_MIRROR_U = true)
    (hudim : flag_test mmd.flag MOD_MIR_MIRROR_UDIM = false)
    (hcopy : mmd.uv_offset_copy 0 = 0) :
    mirror_uv exact_arith mmd uv 0 = 2 * (1 / 2 + mmd.uv_offset 0 / 2) - uv 0 ∧
    (mirror_uv exact_arith mmd uv 0 = uv 0 ↔ uv 0 = 1 / 2 + mmd.uv_offset 0 / 2) := by
  have h := (mirror_uv_no_udim exact_arith mmd uv hudim).1
  rw [hu, if_pos rfl, hcopy] at h
  simp only [exact_arith_add, exact_arith_sub] at h
  rw [h]
  constructor
  · ring
  · constructor
    · intro h1; linarith
    · intro h1; linarith

/-! ## The bisecting plane -/

theorem do_bisect_flip_axis_eq (mmd : MirrorModifierData) (axis : Fin 3) :
    do_bisect_flip_axis mmd axis = flag_test mmd.flag (bisect_flip_flag axis) := by
  fin_cases axis <;> simp [do_bisect_flip_axis, bisect_flip_flag]

theorem bisect_plane_of_eq (mmd : MirrorModifierData) (axis : Fin 3) (c n : float3) :
    bisect_plane_of mmd axis c n =
      if flag_test mmd.flag (bisect_flip_flag axis) then ![n 0, n 1, n 2, -dot_v3v3 n c]
      else ![-n 0, -n 1, -n 2, dot_v3v3 n c] := by
  unfold bisect_plane_of
  rw [do_bisect_flip_axis_eq]
  by_cases h : flag_test mmd.flag (bisect_flip_flag axis) = true
  · simp [h, plane_from_point_normal_v3]
  · simp only [h, plane_from_point_normal_v3, negate_v3_v3, dot_v3v3, Bool.not_false,
      Bool.false_eq_true, if_true, if_false, Matrix.cons_val_zero, Matrix.cons_val_one,
      Matrix.head_cons, Matrix.cons_val_two, Matrix.tail_cons]
    have e : -(-n 0 * c 0 + -n 1 * c 1 + -n 2 * c 2) = n 0 * c 0 + n 1 * c 1 + n 2 * c 2 := by
      ring
    rw [e]

theorem len_squared_v3v3_nonneg (a b : float3) : 0 ≤ len_squared_v3v3 a b := by
  unfold len_squared_v3v3
  have h0 := mul_self_nonneg (b 0 - a 0)
  have h1 := mul_self_nonneg (b 1 - a 1)
  have h2 := mul_self_nonneg (b 2 - a 2)
  linarith

/-- With a squared tolerance of zero the strict test fails for every pair. -/
theorem merge_test_zero (mtx : float4x4) (p p2 : float3) :
    merge_test mtx 0 p p2 = false := by
  unfold merge_test
  have h := len_squared_v3v3_nonneg p (mul_m4_v3 mtx p2)
  simp only [decide_eq_false_iff_not, not_lt]
  exact h

/-- The value returned through the merge-map arguments when merging is active. -/
theorem result_merge_map_active (fa : FloatArith) (ops : Collaborators) (mmd : MirrorModifierData)
    (ob : Object)
    (mesh : Mesh) (axis : Fin 3) (uco wmm : Bool) (hmerge : do_vtargetmap mmd wmm = true) :
    (BKE_mesh_mirror_apply_mirror_on_axis_for_modifier fa ops mmd ob mesh axis uco wmm).2 =
      some ((vert_pass fa ops mmd ob mesh axis uco wmm).vert_merge_map,
        (vert_pass fa ops mmd ob mesh axis uco wmm).vert_merge_map_len) := by
  rw [result_merge_map, hmerge]; rfl

theorem forRange_option_map {β : Type} (lo hi : Nat) (f : Nat → β → β) (o : Option β) :
    forRange lo hi (fun j (x : Option β) => x.map (f j)) o = o.map (forRange lo hi f) := by
  cases o with
  | none =>
    exact forRange_preserves (fun x : Option β => x = none) lo hi _ none rfl
      (fun k s hs => by rw [hs]; rfl)
  | some x =>
    exact (forRange_fusion (fun b : β => some b) lo hi f
      (fun j (x : Option β) => x.map (f j)) x (fun k s => rfl)).symm

theorem reverse_loop_fusion {τ : Type} (g : Mesh → τ)
    (layer_step : Nat → IndexRange → τ → τ) (mesh : Mesh)
    (hg : ∀ i r, g (reverse_poly_step mesh i r) =
      layer_step i (r.poly (mesh.polys_size + i)) (g r)) (n : Nat) (R0 : Mesh) :
    g (forRange 0 n (reverse_poly_step mesh) R0) =
      forRange 0 n
        (fun i l => layer_step i (OffsetIndices_get R0.poly_offsets (mesh.polys_size + i)) l)
        (g R0) := by
  refine (forRange_induction
    (fun k r => r.poly_offsets = R0.poly_offsets ∧
      g r = forRange 0 k
        (fun i l => layer_step i (OffsetIndices_get R0.poly_offsets (mesh.polys_size + i)) l)
        (g R0)) 0 n (reverse_poly_step mesh) R0 (Nat.zero_le _) ?_ ?_).2
  · exact ⟨rfl, by rw [forRange_of_le _ _ _ _ (Nat.le_refl _)]⟩
  · rintro k r - - ⟨hpo, hgr⟩
    have hnc := non_corner_data_reverse_poly_step mesh k r
    simp only [Mesh.non_corner_data, Prod.mk.injEq] at hnc
    refine ⟨hnc.2.2.2.2.2.2.2.2.trans hpo, ?_⟩
    rw [forRange_succ _ _ _ _ (Nat.zero_le _), hg, hgr]
    simp only [Mesh.poly, hpo]

theorem getElem?_copy_layers {α : Type} [Inhabited α] (src dst : List (List α))
    (s d c a : Nat) (sl : List α) (ha : src[a]? = some sl) :
    (copy_layers src dst s d c)[a]? = (dst[a]?).map (fun dl => copy_layer sl dl s d c) := by
  unfold copy_layers
  rw [List.getElem?_zipWith, ha]
  cases dst[a]? <;> rfl

theorem reverse_poly_step_uv_layer (mesh : Mesh) (i : Nat) (result : Mesh) (a : Nat)
    (sl : List float2) (ha : mesh.uv_layers[a]? = some sl) :
    (reverse_poly_step mesh i result).uv_layers[a]? =
      (result.uv_layers[a]?).map
        (reverse_poly_layer sl (mesh.poly i) (result.poly (mesh.polys_size + i))) := by
  have h := forRange_fusion (fun r : Mesh => r.uv_layers[a]?) 1
    (result.poly (mesh.polys_size + i)).size
    (fun j r => CustomData_copy_data_ldata mesh r ((mesh.poly i).get j)
      ((result.poly (mesh.polys_size + i)).last (j - 1)) 1)
    (fun j o => o.map (fun dl => copy_layer sl dl ((mesh.poly i).get j)
      ((result.poly (mesh.polys_size + i)).last (j - 1)) 1))
    (CustomData_copy_data_ldata mesh result (mesh.poly i).start
      (result.poly (mesh.polys_size + i)).start 1)
    (fun k s => getElem?_copy_layers mesh.uv_layers s.uv_layers _ _ _ a sl ha)
  have h0 : (CustomData_copy_data_ldata mesh result (mesh.poly i).start
      (result.poly (mesh.polys_size + i)).start 1).uv_layers[a]? =
      (result.uv_layers[a]?).map (fun dl => copy_layer sl dl (mesh.poly i).start
        (result.poly (mesh.polys_size + i)).start 1) :=
    getElem?_copy_layers mesh.uv_layers result.uv_layers _ _ _ a sl ha
  have hstep : (reverse_poly_step mesh i result).uv_layers =
      (forRange 1 (result.poly (mesh.polys_size + i)).size
        (fun j r => CustomData_copy_data_ldata mesh r ((mesh.poly i).get j)
          ((result.poly (mesh.polys_size + i)).last (j - 1)) 1)
        (CustomData_copy_data_ldata mesh result (mesh.poly i).start
          (result.poly (mesh.polys_size + i)).start 1)).uv_layers := rfl
  rw [hstep]
  simp only [] at h
  rw [h, h0, forRange_option_map]
  unfold reverse_poly_layer
  cases result.uv_layers[a]? <;> rfl

theorem flag_test_or (flag a b : Nat) :
    flag_test flag (a ||| b) = (flag_test flag a || flag_test flag b) := by
  have hz : ∀ x y : Nat, x ||| y = 0 ↔ x = 0 ∧ y = 0 := by
    intro x y
    constructor
    · intro h
      have hb : ∀ i, (x.testBit i || y.testBit i) = false := by
        intro i
        rw [← Nat.testBit_or, h]
        simp
      constructor
      · apply Nat.zero_of_testBit_eq_false
        intro i
        have := hb i
        simp only [Bool.or_eq_false_iff] at this
        exact this.1
      · apply Nat.zero_of_testBit_eq_false
        intro i
        have := hb i
        simp only [Bool.or_eq_false_iff] at this
        exact this.2
    · rintro ⟨rfl, rfl⟩
      rfl
  unfold flag_test
  rw [Nat.and_or_distrib_left]
  generalize flag &&& a = x
  generalize flag &&& b = y
  rw [Bool.eq_iff_iff]
  simp only [bne_iff_ne, ne_eq, Bool.or_eq_true, hz]
  tauto

/-- The kernel's result, from the mesh before the reversal loop. -/
theorem result_from_before_reverse (fa : FloatArith) (ops : Collaborators)
    (mmd : MirrorModifierData) (ob : Object) (mesh : Mesh) (axis : Fin 3) (uco wmm : Bool) :
    (BKE_mesh_mirror_apply_mirror_on_axis_for_modifier fa ops mmd ob mesh axis uco
        wmm).1.uv_layers =
      mirror_uvs fa mmd (source_mesh fa ops mmd ob mesh axis).totloop
        (forRange 0 (source_mesh fa ops mmd ob mesh axis).polys_size
          (reverse_poly_step (source_mesh fa ops mmd ob mesh axis))
          (result_before_reverse fa ops mmd ob mesh axis uco wmm)).uv_layers ∧
    (BKE_mesh_mirror_apply_mirror_on_axis_for_modifier fa ops mmd ob mesh axis uco wmm).1.dvert =
      mirror_vgroups ops mmd ob (source_mesh fa ops mmd ob mesh axis).totvert uco
        (do_vtargetmap mmd wmm) (vert_pass fa ops mmd ob mesh axis uco wmm).vert_merge_map
        (forRange 0 (source_mesh fa ops mmd ob mesh axis).polys_size
          (reverse_poly_step (source_mesh fa ops mmd ob mesh axis))
          (result_before_reverse fa ops mmd ob mesh axis uco wmm)).dvert ∧
    (BKE_mesh_mirror_apply_mirror_on_axis_for_modifier fa ops mmd ob mesh axis uco
        wmm).1.shapekeys =
      (forRange 0 (source_mesh fa ops mmd ob mesh axis).polys_size
          (reverse_poly_step (source_mesh fa ops mmd ob mesh axis))
          (result_before_reverse fa ops mmd ob mesh axis uco wmm)).shapekeys :=
  ⟨rfl, rfl, rfl⟩

theorem before_reverse_layers (fa : FloatArith) (ops : Collaborators) (mmd : MirrorModifierData)
    (ob : Object) (mesh : Mesh) (axis : Fin 3) (uco wmm : Bool) :
    (result_before_reverse fa ops mmd ob mesh axis uco wmm).poly_offsets =
      result_poly_offsets (source_mesh fa ops mmd ob mesh axis) ∧
    (result_before_reverse fa ops mmd ob mesh axis uco wmm).uv_layers =
      copy_layers (source_mesh fa ops mmd ob mesh axis).uv_layers
        ((source_mesh fa ops mmd ob mesh axis).uv_layers.map
          (fun _ => List.replicate ((source_mesh fa ops mmd ob mesh axis).totloop * 2) 0))
        0 0 (source_mesh fa ops mmd ob mesh axis).totloop :=
  ⟨rfl, rfl⟩

theorem getElem?_copy_first_half_gen {α : Type} [Inhabited α] (src : List α) (z : α)
    (L idx : Nat) :
    (copy_layer src (List.replicate (L * 2) z) 0 0 L)[idx]? =
      if idx < L then some (src.getD idx default)
      else if idx < L * 2 then some z else none := by
  rw [getElem?_copy_layer, List.length_replicate, List.getElem?_replicate]
  by_cases h : idx < L
  · have h1 : 0 ≤ idx ∧ idx < 0 + L ∧ idx < L * 2 := by omega
    rw [if_pos h1, if_pos h]
    simp
  · have h1 : ¬ (0 ≤ idx ∧ idx < 0 + L ∧ idx < L * 2) := by omega
    rw [if_neg h1, if_neg h]

/-- A corner layer after the reversal loop: the first half is the source layer, and corner
`t` of mirrored face `i` holds source corner `0` (if `t = 0`) or `n - t` of the source
face. -/
theorem reversed_layer_spec {α : Type} [Inhabited α] (mesh : Mesh) (sl : List α) (z : α)
    (hok : mesh.faces_ok) :
    (reversed_layer mesh sl z).length = mesh.totloop * 2 ∧
    (∀ i, i < mesh.totpoly → ∀ t, t < (mesh.poly i).size →
      (reversed_layer mesh sl z)[(mesh.poly i).start + mesh.totloop + t]? =
        some (sl.getD
          ((mesh.poly i).start + (if t = 0 then 0 else (mesh.poly i).size - t)) default)) ∧
    (∀ idx, idx < mesh.totloop →
      (reversed_layer mesh sl z)[idx]? = some (sl.getD idx default)) := by
  obtain ⟨h0, hL, hstrict⟩ := hok
  have hlen0 : (copy_layer sl (List.replicate (mesh.totloop * 2) z) 0 0
      mesh.totloop).length = mesh.totloop * 2 := by simp [length_copy_layer]
  have h := face_loop_spec
    (fun i cv => reverse_poly_layer sl (mesh.poly i)
      (OffsetIndices_get (result_poly_offsets mesh) (mesh.polys_size + i)) cv)
    (fun i t => sl.getD
      ((mesh.poly i).start + (if t = 0 then 0 else (mesh.poly i).size - t)) default)
    (fun i => mesh.poly_offsets.getD i 0) mesh.totpoly mesh.totloop
    (copy_layer sl (List.replicate (mesh.totloop * 2) z) 0 0 mesh.totloop)
    hstrict ?_
  · refine ⟨?_, fun i hi t ht => h.2.1 i hi t ht, fun idx hidx => ?_⟩
    · have := h.1
      rw [hlen0] at this
      exact this
    · have := h.2.2 idx (Or.inl (by simp only []; omega))
      have e : (reversed_layer mesh sl z)[idx]? =
          (copy_layer sl (List.replicate (mesh.totloop * 2) z) 0 0
            mesh.totloop)[idx]? := this
      rw [e, getElem?_copy_first_half_gen, if_pos hidx]
  · intro k hk acc hacc
    have hmp := (result_poly_spec mesh k hk h0 hL).2
    have hm := offsets_mono (fun i => mesh.poly_offsets.getD i 0) mesh.totpoly hstrict
      (k + 1) mesh.totpoly (by omega) (Nat.le_refl _)
    have hs := hstrict k hk
    simp only [] at hm
    simp only [Mesh.polys_size]
    rw [hmp]
    refine ⟨by rw [length_reverse_poly_layer]; exact hacc, fun idx => ?_⟩
    have hb : (mesh.poly k).start + mesh.totloop + (mesh.poly k).size ≤ acc.length := by
      simp only [Mesh.poly, OffsetIndices_get]; omega
    have hn : 1 ≤ (mesh.poly k).size := by
      simp only [Mesh.poly, OffsetIndices_get]; omega
    rw [getElem?_reverse_poly_layer _ _ _ _ _ hn hb]
    have hstart : (mesh.poly k).start = mesh.poly_offsets.getD k 0 := rfl
    have hsize : (mesh.poly k).size =
        mesh.poly_offsets.getD (k + 1) 0 - mesh.poly_offsets.getD k 0 := rfl
    by_cases hc : (mesh.poly k).start + mesh.totloop ≤ idx ∧
        idx < (mesh.poly k).start + mesh.totloop + (mesh.poly k).size
    · have hc2 : mesh.poly_offsets.getD k 0 + mesh.totloop ≤ idx ∧
          idx < mesh.poly_offsets.getD (k + 1) 0 + mesh.totloop := by omega
      rw [if_pos hc, if_pos hc2]
      by_cases he : idx = (mesh.poly k).start + mesh.totloop
      · have he2 : idx - (mesh.poly_offsets.getD k 0 + mesh.totloop) = 0 := by omega
        rw [if_pos he, he2, if_pos rfl]
      · have he2 : ¬ idx - (mesh.poly_offsets.getD k 0 + mesh.totloop) = 0 := by omega
        rw [if_neg he, if_neg he2, hstart]
    · have hc2 : ¬ (mesh.poly_offsets.getD k 0 + mesh.totloop ≤ idx ∧
          idx < mesh.poly_offsets.getD (k + 1) 0 + mesh.totloop) := by omega
      rw [if_neg hc, if_neg hc2]

/-- UV layer `a` of the mesh after the reversal loop is the reversed copy of source layer
`a`. -/
theorem reversed_uv_layer (fa : FloatArith) (ops : Collaborators) (mmd : MirrorModifierData)
    (ob : Object) (mesh : Mesh) (axis : Fin 3) (uco wmm : Bool) (a : Nat) (sl : List float2)
    (ha : (source_mesh fa ops mmd ob mesh axis).uv_layers[a]? = some sl) :
    (forRange 0 (source_mesh fa ops mmd ob mesh axis).polys_size
        (reverse_poly_step (source_mesh fa ops mmd ob mesh axis))
        (result_before_reverse fa ops mmd ob mesh axis uco wmm)).uv_layers[a]? =
      some (reversed_layer (source_mesh fa ops mmd ob mesh axis) sl 0) := by
  have hf := reverse_loop_fusion (fun r : Mesh => r.uv_layers[a]?)
    (fun i mp (o : Option (List float2)) =>
      o.map (reverse_poly_layer sl ((source_mesh fa ops mmd ob mesh axis).poly i) mp))
    (source_mesh fa ops mmd ob mesh axis)
    (fun i r => reverse_poly_step_uv_layer _ i r a sl ha)
    (source_mesh fa ops mmd ob mesh axis).polys_size
    (result_before_reverse fa ops mmd ob mesh axis uco wmm)
  simp only [] at hf
  rw [hf, (before_reverse_layers fa ops mmd ob mesh axis uco wmm).1,
    (before_reverse_layers fa ops mmd ob mesh axis uco wmm).2,
    getElem?_copy_layers _ _ _ _ _ a sl ha, List.getElem?_map, ha]
  exact forRange_option_map _ _ _ _

/-- UV layer `a` of the kernel's result: the reversed copy of source layer `a`, passed
through the UV loop when the guard of line 345 holds. -/
theorem result_uv_layer (fa : FloatArith) (ops : Collaborators) (mmd : MirrorModifierData)
    (ob : Object) (mesh : Mesh) (axis : Fin 3) (uco wmm : Bool) (a : Nat) (sl : List float2)
    (ha : (source_mesh fa ops mmd ob mesh axis).uv_layers[a]? = some sl) :
    (BKE_mesh_mirror_apply_mirror_on_axis_for_modifier fa ops mmd ob mesh axis uco
        wmm).1.uv_layers[a]? =
      some (if flag_test mmd.flag (MOD_MIR_MIRROR_U ||| MOD_MIR_MIRROR_V) ||
          (is_zero_v2 mmd.uv_offset_copy == false) then
        mirror_uv_layer fa mmd (source_mesh fa ops mmd ob mesh axis).totloop
          (reversed_layer (source_mesh fa ops mmd ob mesh axis) sl 0)
      else reversed_layer (source_mesh fa ops mmd ob mesh axis) sl 0) := by
  rw [(result_from_before_reverse fa ops mmd ob mesh axis uco wmm).1]
  unfold mirror_uvs
  split
  · rw [List.getElem?_map, reversed_uv_layer fa ops mmd ob mesh axis uco wmm a sl ha]
    rfl
  · exact reversed_uv_layer fa ops mmd ob mesh axis uco wmm a sl ha

theorem getElem?_mirror_uv_layer (fa : FloatArith) (mmd : MirrorModifierData) (L : Nat)
    (l : List float2) (c : Nat) :
    (mirror_uv_layer fa mmd L l)[c]? =
      if L ≤ c ∧ c < L + L then (l[c]?).map (mirror_uv fa mmd) else l[c]? :=
  getElem?_forRange_modify (mirror_uv fa mmd) 0 L (L + L) l c

/-- The guard of line 345 is false exactly when neither flip flag is set and the copy
offset is zero. -/
theorem uv_guard_false (mmd : MirrorModifierData) :
    (flag_test mmd.flag (MOD_MIR_MIRROR_U ||| MOD_MIR_MIRROR_V) ||
      (is_zero_v2 mmd.uv_offset_copy == false)) = false ↔
    flag_test mmd.flag MOD_MIR_MIRROR_U = false ∧ flag_test mmd.flag MOD_MIR_MIRROR_V = false ∧
      mmd.uv_offset_copy 0 = 0 ∧ mmd.uv_offset_copy 1 = 0 := by
  rw [flag_test_or]
  unfold is_zero_v2
  cases flag_test mmd.flag MOD_MIR_MIRROR_U <;> cases flag_test mmd.flag MOD_MIR_MIRROR_V <;>
    simp

/-- Without UDIM mode the loop body computes the flip, the flip offset and the copy
offset. -/
theorem mirror_uv_no_udim_eq (fa : FloatArith) (mmd : MirrorModifierData) (uv : float2)
    (hudim : flag_test mmd.flag MOD_MIR_MIRROR_UDIM = false) :
    mirror_uv fa mmd uv =
      ![fa.add (if flag_test mmd.flag MOD_MIR_MIRROR_U then
            fa.add (fa.sub 1 (uv 0)) (mmd.uv_offset 0) else uv 0) (mmd.uv_offset_copy 0),
        fa.add (if flag_test mmd.flag MOD_MIR_MIRROR_V then
            fa.add (fa.sub 1 (uv 1)) (mmd.uv_offset 1) else uv 1) (mmd.uv_offset_copy 1)] := by
  unfold mirror_uv
  simp [hudim]

/-! ## Vertex groups -/

/-- A loop whose step `i` rewrites the single entry `idx i` (read, transformed by `f i`,
written back), for pairwise distinct `idx i`: every entry `idx i` ends as `f i` of its
initial value, and the other entries are untouched. -/
theorem forRange_modify_at {α : Type} (idx : Nat → Nat) (f : Nat → α → α) (dflt : α)
    (n : Nat) (l : List α) (hinj : ∀ i i2, i < n → i2 < n → idx i = idx i2 → i = i2) :
    (∀ i, i < n →
      (forRange 0 n (fun i acc => acc.set (idx i) (f i (acc.getD (idx i) dflt))) l)[idx i]? =
        (l[idx i]?).map (f i)) ∧
    (∀ j, (∀ i, i < n → idx i ≠ j) →
      (forRange 0 n (fun i acc => acc.set (idx i) (f i (acc.getD (idx i) dflt))) l)[j]? =
        l[j]?) := by
  have key := forRange_induction
    (fun k (acc : List α) => k ≤ n ∧
      (∀ i, i < k → acc[idx i]? = (l[idx i]?).map (f i)) ∧
      (∀ j, (∀ i, i < k → idx i ≠ j) → acc[j]? = l[j]?))
    0 n (fun i acc => acc.set (idx i) (f i (acc.getD (idx i) dflt))) l (Nat.zero_le _) ?_ ?_
  · exact ⟨key.2.1, key.2.2⟩
  · exact ⟨Nat.zero_le _, fun i hi => absurd hi (Nat.not_lt_zero _), fun j _ => rfl⟩
  · rintro k acc - hk ⟨-, h1, h2⟩
    beta_reduce
    have hk0 : acc[idx k]? = l[idx k]? :=
      h2 (idx k) (fun i hi he => by have := hinj i k (by omega) hk he; omega)
    refine ⟨hk, fun i hi => ?_, fun j hj => ?_⟩
    · by_cases hik : i = k
      · subst hik
        rw [List.getElem?_set, if_pos rfl, List.getD_eq_getElem?_getD, hk0]
        cases hl : l[idx i]? with
        | none =>
          rw [hl] at hk0
          have : ¬ idx i < acc.length := by
            intro hlt
            rw [List.getElem?_eq_getElem hlt] at hk0
            exact Option.noConfusion hk0
          rw [if_neg this]
          rfl
        | some v =>
          rw [hl] at hk0
          have : idx i < acc.length := by
            by_contra hge
            rw [List.getElem?_eq_none (by omega)] at hk0
            exact Option.noConfusion hk0
          rw [if_pos this]
          rfl
      · have hne : idx k ≠ idx i := fun he => hik (hinj i k (by omega) hk he.symm)
        rw [List.getElem?_set_ne hne]
        exact h1 i (by omega)
    · rw [List.getElem?_set_ne (hj k (by omega))]
      exact h2 j (fun i hi => hj i (by omega))

theorem vgroup_step_eq (ops : Collaborators) (N : Nat) (uco dvt : Bool) (map fm : List Int)
    (i : Nat) (acc : List MDeformVert) :
    vgroup_step ops N uco dvt map fm i acc =
      acc.set (vgroup_entry N uco dvt map i)
        (vgroup_call ops N uco dvt map fm i (acc.getD (vgroup_entry N uco dvt map i) [])) := by
  unfold vgroup_step vgroup_entry vgroup_call
  simp only [Nat.add_sub_cancel_left]
  by_cases h1 : (uco && dvt && (map.getD (i + N) 0 != -1)) = true
  · rw [if_pos h1, if_pos h1, if_pos h1]
  · rw [if_neg h1, if_neg h1, if_neg h1]
    by_cases h2 : (!uco && dvt && (map.getD i 0 != -1)) = true
    · rw [if_pos h2, if_pos h2]
    · rw [if_neg h2, if_neg h2]

theorem vgroup_entry_cases (N : Nat) (uco dvt : Bool) (map : List Int) (i : Nat) :
    vgroup_entry N uco dvt map i = i ∨ vgroup_entry N uco dvt map i = N + i := by
  unfold vgroup_entry
  split
  · exact Or.inl rfl
  · exact Or.inr rfl

/-- The vertex-group loop on a layer `d0`: for each source vertex `i` the entry
`vgroup_entry i` ends as the collaborator's value on its initial content, and the other one
of the entries `i`, `N + i` is untouched. -/
theorem vgroup_loop_spec (ops : Collaborators) (N : Nat) (uco dvt : Bool) (map fm : List Int)
    (d0 : List MDeformVert) (i : Nat) (hi : i < N) :
    (forRange 0 N (vgroup_step ops N uco dvt map fm) d0)[vgroup_entry N uco dvt map i]? =
      (d0[vgroup_entry N uco dvt map i]?).map (vgroup_call ops N uco dvt map fm i) ∧
    (∀ j, (j = i ∨ j = N + i) → j ≠ vgroup_entry N uco dvt map i →
      (forRange 0 N (vgroup_step ops N uco dvt map fm) d0)[j]? = d0[j]?) := by
  have hstep : vgroup_step ops N uco dvt map fm =
      fun i acc => acc.set (vgroup_entry N uco dvt map i)
        (vgroup_call ops N uco dvt map fm i (acc.getD (vgroup_entry N uco dvt map i) [])) := by
    funext i acc
    exact vgroup_step_eq ops N uco dvt map fm i acc
  rw [hstep]
  have h := forRange_modify_at (vgroup_entry N uco dvt map) (vgroup_call ops N uco dvt map fm)
    [] N d0 (fun a b ha hb he => by
      rcases vgroup_entry_cases N uco dvt map a with h1 | h1 <;>
        rcases vgroup_entry_cases N uco dvt map b with h2 | h2 <;> omega)
  refine ⟨h.1 i hi, fun j hj hne => h.2 j (fun b hb he => ?_)⟩
  by_cases hbi : b = i
  · subst hbi
    exact hne he.symm
  · rcases vgroup_entry_cases N uco dvt map b with h2 | h2 <;> omega

theorem before_reverse_dvert (fa : FloatArith) (ops : Collaborators) (mmd : MirrorModifierData)
    (ob : Object) (mesh : Mesh) (axis : Fin 3) (uco wmm : Bool) :
    (result_before_reverse fa ops mmd ob mesh axis uco wmm).dvert =
      (source_mesh fa ops mmd ob mesh axis).dvert.map
        (doubled_dvert (source_mesh fa ops mmd ob mesh axis).totvert) := by
  unfold result_before_reverse
  simp only [CustomData_copy_data_vdata, CustomData_copy_data_edata, CustomData_copy_data_ldata,
    BKE_mesh_new_nomain_from_template]
  cases (source_mesh fa ops mmd ob mesh axis).dvert <;> rfl

/-- The deform-vert layer of the kernel's result. -/
theorem result_dvert (fa : FloatArith) (ops : Collaborators) (mmd : MirrorModifierData)
    (ob : Object) (mesh : Mesh) (axis : Fin 3) (uco wmm : Bool) :
    (BKE_mesh_mirror_apply_mirror_on_axis_for_modifier fa ops mmd ob mesh axis uco wmm).1.dvert =
      mirror_vgroups ops mmd ob (source_mesh fa ops mmd ob mesh axis).totvert uco
        (do_vtargetmap mmd wmm) (vert_pass fa ops mmd ob mesh axis uco wmm).vert_merge_map
        ((source_mesh fa ops mmd ob mesh axis).dvert.map
          (doubled_dvert (source_mesh fa ops mmd ob mesh axis).totvert)) := by
  rw [(result_from_before_reverse fa ops mmd ob mesh axis uco wmm).2.1]
  have h := non_corner_data_reverse_loop (source_mesh fa ops mmd ob mesh axis)
    (source_mesh fa ops mmd ob mesh axis).polys_size
    (result_before_reverse fa ops mmd ob mesh axis uco wmm)
  simp only [Mesh.non_corner_data, Prod.mk.injEq] at h
  rw [h.2.2.2.2.2.2.1, before_reverse_dvert]

/-- The deform-vert layer of the result when the vertex-group step executes: for each source
vertex `i` exactly one of the entries `i` and `N + i` is rewritten by a collaborator call,
the other keeps the copy of source entry `i`. -/
theorem result_dvert_spec (fa : FloatArith) (ops : Collaborators) (mmd : MirrorModifierData)
    (ob : Object)
    (mesh : Mesh) (axis : Fin 3) (uco wmm : Bool) (sd : List MDeformVert) (fm : List Int)
    (hsup : ob.supports_vertex_groups = true)
    (hflag : flag_test mmd.flag MOD_MIR_VGROUP = true)
    (hsd : (source_mesh fa ops mmd ob mesh axis).dvert = some sd)
    (hfm : ob.defgroup_flip_map = some fm) :
    ∃ od : List MDeformVert,
      (BKE_mesh_mirror_apply_mirror_on_axis_for_modifier fa ops mmd ob mesh axis uco wmm).1.dvert =
        some od ∧
      ∀ i, i < (source_mesh fa ops mmd ob mesh axis).totvert →
        ((uco && do_vtargetmap mmd wmm &&
            ((vert_pass fa ops mmd ob mesh axis uco wmm).vert_merge_map.getD
              (i + (source_mesh fa ops mmd ob mesh axis).totvert) 0 != -1)) = true →
          od[i]? = some (ops.defvert_flip_merged (sd.getD i []) fm) ∧
          od[(source_mesh fa ops mmd ob mesh axis).totvert + i]? = some (sd.getD i [])) ∧
        ((uco && do_vtargetmap mmd wmm &&
            ((vert_pass fa ops mmd ob mesh axis uco wmm).vert_merge_map.getD
              (i + (source_mesh fa ops mmd ob mesh axis).totvert) 0 != -1)) = false →
          (!uco && do_vtargetmap mmd wmm &&
            ((vert_pass fa ops mmd ob mesh axis uco wmm).vert_merge_map.getD i 0 != -1)) = true →
          od[i]? = some (sd.getD i []) ∧
          od[(source_mesh fa ops mmd ob mesh axis).totvert + i]? =
            some (ops.defvert_flip_merged (sd.getD i []) fm)) ∧
        ((uco && do_vtargetmap mmd wmm &&
            ((vert_pass fa ops mmd ob mesh axis uco wmm).vert_merge_map.getD
              (i + (source_mesh fa ops mmd ob mesh axis).totvert) 0 != -1)) = false →
          (!uco && do_vtargetmap mmd wmm &&
            ((vert_pass fa ops mmd ob mesh axis uco wmm).vert_merge_map.getD i 0 != -1)) = false →
          od[i]? = some (sd.getD i []) ∧
          od[(source_mesh fa ops mmd ob mesh axis).totvert + i]? =
            some (ops.defvert_flip (sd.getD i []) fm)) := by
  refine ⟨forRange 0 (source_mesh fa ops mmd ob mesh axis).totvert
    (vgroup_step ops (source_mesh fa ops mmd ob mesh axis).totvert uco (do_vtargetmap mmd wmm)
      (vert_pass fa ops mmd ob mesh axis uco wmm).vert_merge_map fm)
    (doubled_dvert (source_mesh fa ops mmd ob mesh axis).totvert sd), ?_, ?_⟩
  · rw [result_dvert, hsd]
    unfold mirror_vgroups
    rw [if_pos hsup]
    simp only [hflag, hfm, Option.map]
  · intro i hi
    have hl := vgroup_loop_spec ops (source_mesh fa ops mmd ob mesh axis).totvert uco
      (do_vtargetmap mmd wmm) (vert_pass fa ops mmd ob mesh axis uco wmm).vert_merge_map fm
      (doubled_dvert (source_mesh fa ops mmd ob mesh axis).totvert sd) i hi
    have hd := (double_copy_spec sd (source_mesh fa ops mmd ob mesh axis).totvert []).2 i hi
    have hd1 : (doubled_dvert (source_mesh fa ops mmd ob mesh axis).totvert sd)[i]? =
        some (sd.getD i []) := hd.1
    have hd2 : (doubled_dvert (source_mesh fa ops mmd ob mesh axis).totvert sd)[
        (source_mesh fa ops mmd ob mesh axis).totvert + i]? = some (sd.getD i []) := hd.2
    refine ⟨fun h1 => ?_, fun h1 h2 => ?_, fun h1 h2 => ?_⟩
    · have he : vgroup_entry (source_mesh fa ops mmd ob mesh axis).totvert uco
          (do_vtargetmap mmd wmm) (vert_pass fa ops mmd ob mesh axis uco wmm).vert_merge_map i =
          i := by
        unfold vgroup_entry
        rw [if_pos h1]
      have hc : ∀ d, vgroup_call ops (source_mesh fa ops mmd ob mesh axis).totvert uco
          (do_vtargetmap mmd wmm) (vert_pass fa ops mmd ob mesh axis uco wmm).vert_merge_map fm i
          d = ops.defvert_flip_merged d fm := by
        intro d
        unfold vgroup_call
        rw [if_pos h1]
      rw [he] at hl
      refine ⟨?_, ?_⟩
      · rw [hl.1, hd1, Option.map, hc]
      · rw [hl.2 _ (Or.inr rfl) (by omega), hd2]
    · have he : vgroup_entry (source_mesh fa ops mmd ob mesh axis).totvert uco
          (do_vtargetmap mmd wmm) (vert_pass fa ops mmd ob mesh axis uco wmm).vert_merge_map i =
          (source_mesh fa ops mmd ob mesh axis).totvert + i := by
        unfold vgroup_entry
        rw [if_neg (by rw [h1]; exact Bool.false_ne_true)]
      have hc : ∀ d, vgroup_call ops (source_mesh fa ops mmd ob mesh axis).totvert uco
          (do_vtargetmap mmd wmm) (vert_pass fa ops mmd ob mesh axis uco wmm).vert_merge_map fm i
          d = ops.defvert_flip_merged d fm := by
        intro d
        unfold vgroup_call
        rw [if_neg (by rw [h1]; exact Bool.false_ne_true), if_pos h2]
      rw [he] at hl
      refine ⟨?_, ?_⟩
      · rw [hl.2 _ (Or.inl rfl) (by omega), hd1]
      · rw [hl.1, hd2, Option.map, hc]
    · have he : vgroup_entry (source_mesh fa ops mmd ob mesh axis).totvert uco
          (do_vtargetmap mmd wmm) (vert_pass fa ops mmd ob mesh axis uco wmm).vert_merge_map i =
          (source_mesh fa ops mmd ob mesh axis).totvert + i := by
        unfold vgroup_entry
        rw [if_neg (by rw [h1]; exact Bool.false_ne_true)]
      have hc : ∀ d, vgroup_call ops (source_mesh fa ops mmd ob mesh axis).totvert uco
          (do_vtargetmap mmd wmm) (vert_pass fa ops mmd ob mesh axis uco wmm).vert_merge_map fm i
          d = ops.defvert_flip d fm := by
        intro d
        unfold vgroup_call
        rw [if_neg (by rw [h1]; exact Bool.false_ne_true),
          if_neg (by rw [h2]; exact Bool.false_ne_true)]
      rw [he] at hl
      refine ⟨?_, ?_⟩
      · rw [hl.2 _ (Or.inl rfl) (by omega), hd1]
      · rw [hl.1, hd2, Option.map, hc]

/-! ## The mirror matrix with a reference object -/

theorem invert_m4_m4_eq (m : float4x4) :
    invert_m4_m4 m = ((Matrix.of m)⁻¹ : Matrix (Fin 4) (Fin 4) ℚ) := by
  unfold invert_m4_m4
  rw [Matrix.inv_def, Ring.inverse_eq_inv']

theorem mul_m4_m4m4_eq (A B : float4x4) :
    mul_m4_m4m4 A B = (Matrix.of B * Matrix.of A : Matrix (Fin 4) (Fin 4) ℚ) := by
  funext i j
  simp [mul_m4_m4m4, Matrix.mul_apply, Fin.sum_univ_four]

theorem unit_m4_eq : unit_m4 = (1 : Matrix (Fin 4) (Fin 4) ℚ) := by
  funext i j
  simp [unit_m4, Matrix.one_apply]

/-- With an invertible argument `invert_m4_m4` is a two-sided inverse for `mul_m4_m4m4`. -/
theorem invert_m4_m4_mul (m : float4x4) (h : Matrix.det (Matrix.of m) ≠ 0) :
    mul_m4_m4m4 (invert_m4_m4 m) m = unit_m4 ∧ mul_m4_m4m4 m (invert_m4_m4 m) = unit_m4 := by
  have hu : IsUnit (Matrix.det (Matrix.of m)) := isUnit_iff_ne_zero.2 h
  rw [mul_m4_m4m4_eq, mul_m4_m4m4_eq, invert_m4_m4_eq, unit_m4_eq]
  exact ⟨Matrix.mul_nonsing_inv _ hu, Matrix.nonsing_inv_mul _ hu⟩

theorem det_mirror_tmp (mirror_ob ob : Object)
    (h1 : Matrix.det (Matrix.of ob.object_to_world) ≠ 0)
    (h2 : Matrix.det (Matrix.of mirror_ob.object_to_world) ≠ 0) :
    Matrix.det (Matrix.of (mirror_tmp mirror_ob ob)) ≠ 0 := by
  have hu : IsUnit (Matrix.det (Matrix.of mirror_ob.object_to_world)) := isUnit_iff_ne_zero.2 h2
  unfold mirror_tmp
  rw [mul_m4_m4m4_eq, invert_m4_m4_eq]
  have e : (Matrix.of (Matrix.of ob.object_to_world *
      Matrix.of ((Matrix.of mirror_ob.object_to_world)⁻¹ : Matrix (Fin 4) (Fin 4) ℚ)) :
        Matrix (Fin 4) (Fin 4) ℚ) =
      Matrix.of ob.object_to_world * (Matrix.of mirror_ob.object_to_world)⁻¹ := rfl
  rw [e, Matrix.det_mul, Matrix.det_nonsing_inv, Ring.inverse_eq_inv']
  exact mul_ne_zero h1 (inv_ne_zero h2)

/-- The composition `mul_m4_m4m4 A B` applies `B`, then `A`, when `B` is affine. -/
theorem mul_m4_v3_mul (A B : float4x4) (hB : is_affine B) (p : float3) :
    mul_m4_v3 (mul_m4_m4m4 A B) p = mul_m4_v3 A (mul_m4_v3 B p) := by
  obtain ⟨h0, h1, h2, h3⟩ := hB
  funext k
  fin_cases k <;> simp [mul_m4_v3, mul_m4_m4m4, h0, h1, h2, h3] <;> ring

theorem is_affine_mul (A B : float4x4) (hA : is_affine A) (hB : is_affine B) :
    is_affine (mul_m4_m4m4 A B) := by
  obtain ⟨a0, a1, a2, a3⟩ := hA
  obtain ⟨b0, b1, b2, b3⟩ := hB
  simp [is_affine, mul_m4_m4m4, a0, a1, a2, a3, b0, b1, b2, b3]

theorem is_affine_axis_flip_mtx (axis : Fin 3) : is_affine (axis_flip_mtx axis) := by
  unfold is_affine
  rw [axis_flip_mtx_apply, axis_flip_mtx_apply, axis_flip_mtx_apply, axis_flip_mtx_apply]
  refine ⟨if_neg (by decide), if_neg (by decide), if_neg (by decide), ?_⟩
  rw [if_pos rfl, if_neg]
  intro h
  fin_cases axis <;> exact absurd h (by decide)

/-- The inverse of an invertible affine matrix is affine. -/
theorem is_affine_invert (m : float4x4) (h : Matrix.det (Matrix.of m) ≠ 0)
    (ha : is_affine m) : is_affine (invert_m4_m4 m) := by
  have hu : IsUnit (Matrix.det (Matrix.of m)) := isUnit_iff_ne_zero.2 h
  obtain ⟨h0, h1, h2, h3⟩ := ha
  have hA : Matrix.mulVec (Matrix.of m) ![0, 0, 0, 1] = ![0, 0, 0, 1] := by
    funext i
    fin_cases i <;>
      simp [Matrix.mulVec, Matrix.dotProduct, Fin.sum_univ_four, h0, h1, h2, h3]
  have hI : Matrix.mulVec ((Matrix.of m)⁻¹ : Matrix (Fin 4) (Fin 4) ℚ) ![0, 0, 0, 1] =
      ![0, 0, 0, 1] := by
    conv_lhs => rw [← hA]
    rw [Matrix.mulVec_mulVec, Matrix.nonsing_inv_mul _ hu, Matrix.one_mulVec]
  rw [invert_m4_m4_eq]
  have e0 := congrFun hI 0
  have e1 := congrFun hI 1
  have e2 := congrFun hI 2
  have e3 := congrFun hI 3
  simp [Matrix.mulVec, Matrix.dotProduct, Fin.sum_univ_four] at e0 e1 e2 e3
  exact ⟨e0, e1, e2, e3⟩

theorem mirror_mtx_some (mmd : MirrorModifierData) (ob mirror_ob : Object) (axis : Fin 3)
    (hmob : mmd.mirror_ob = some mirror_ob) :
    mirror_mtx mmd ob axis =
      mul_m4_m4m4 (mul_m4_m4m4 (invert_m4_m4 (mirror_tmp mirror_ob ob)) (axis_flip_mtx axis))
        (mirror_tmp mirror_ob ob) := by
  unfold mirror_mtx
  rw [hmob]

theorem is_affine_mirror_tmp (mirror_ob ob : Object)
    (h2 : Matrix.det (Matrix.of mirror_ob.object_to_world) ≠ 0)
    (ha1 : is_affine ob.object_to_world) (ha2 : is_affine mirror_ob.object_to_world) :
    is_affine (mirror_tmp mirror_ob ob) :=
  is_affine_mul _ _ (is_affine_invert _ h2 ha2) ha1

/-- The mirror matrix of an object whose world matrix is that of the reference object. -/
theorem mirror_mtx_same_frame (mmd : MirrorModifierData) (ob mirror_ob : Object)
    (axis : Fin 3) (hmob : mmd.mirror_ob = some mirror_ob)
    (h2 : Matrix.det (Matrix.of mirror_ob.object_to_world) ≠ 0)
    (heq : ob.object_to_world = mirror_ob.object_to_world) :
    mirror_mtx mmd ob axis = axis_flip_mtx axis := by
  have ht : mirror_tmp mirror_ob ob = unit_m4 := by
    unfold mirror_tmp
    rw [heq]
    exact (invert_m4_m4_mul _ h2).1
  have hi : invert_m4_m4 unit_m4 = unit_m4 := by
    rw [invert_m4_m4_eq, unit_m4_eq]
    exact (inv_one : ((1 : Matrix (Fin 4) (Fin 4) ℚ))⁻¹ = 1)
  rw [mirror_mtx_some mmd ob mirror_ob axis hmob, ht, hi, mul_m4_m4m4_eq, mul_m4_m4m4_eq,
    unit_m4_eq]
  show (1 : Matrix (Fin 4) (Fin 4) ℚ) * (Matrix.of (axis_flip_mtx axis) * 1) = axis_flip_mtx axis
  rw [one_mul, mul_one]
  rfl

theorem mul_m4_v3_eq_vecMul (m : float4x4) (p : float3) (k : Fin 3) :
    mul_m4_v3 m p k = Matrix.vecMul ![p 0, p 1, p 2, 1] (Matrix.of m) k.castSucc := by
  have h2 : Fin.castSucc (2 : Fin 3) = (2 : Fin 4) := rfl
  fin_cases k <;>
    simp [mul_m4_v3, Matrix.vecMul, Matrix.dotProduct, Fin.sum_univ_four, h2]

/-- The mirror matrix with a reference object acts on homogeneous vectors as `tmp`, then the
axis flip, then `itmp`. -/
theorem mirror_mtx_vecMul (mmd : MirrorModifierData) (ob mirror_ob : Object) (axis : Fin 3)
    (hmob : mmd.mirror_ob = some mirror_ob) (v : float4) :
    Matrix.vecMul v (Matrix.of (mirror_mtx mmd ob axis)) =
      Matrix.vecMul
        (Matrix.vecMul (Matrix.vecMul v (Matrix.of (mirror_tmp mirror_ob ob)))
          (Matrix.of (axis_flip_mtx axis)))
        (Matrix.of (invert_m4_m4 (mirror_tmp mirror_ob ob))) := by
  rw [mirror_mtx_some mmd ob mirror_ob axis hmob, Matrix.vecMul_vecMul, Matrix.vecMul_vecMul,
    mul_m4_m4m4_eq, mul_m4_m4m4_eq]
  rfl

theorem example_ob_det : Matrix.det (Matrix.of example_ob.object_to_world) ≠ 0 := by
  have h : Matrix.of example_ob.object_to_world = (1 : Matrix (Fin 4) (Fin 4) ℚ) := unit_m4_eq
  rw [h, Matrix.det_one]
  exact one_ne_zero

theorem example_mirror_ob_det :
    Matrix.det (Matrix.of example_mirror_ob.object_to_world) ≠ 0 := by
  have h : Matrix.of example_mirror_ob.object_to_world *
      Matrix.of ![![1, 0, 0, 0], ![0, 1 / 2, 0, 0], ![0, 0, 1, 0], ![-2, 0, 0, 1]] =
        (1 : Matrix (Fin 4) (Fin 4) ℚ) := by
    funext i j
    fin_cases i <;> fin_cases j <;>
      simp [example_mirror_ob, Matrix.mul_apply, Fin.sum_univ_four, Matrix.one_apply,
        Matrix.vecHead, Matrix.vecTail]
  exact Matrix.det_ne_zero_of_right_inverse h

/-! ## Merging switch, shape keys, plane rescaling, involution, index validity -/

theorem do_vtargetmap_false (mmd : MirrorModifierData) (wmm : Bool)
    (h : flag_test mmd.flag MOD_MIR_NO_MERGE = true ∨ wmm = false) :
    do_vtargetmap mmd wmm = false := by
  unfold do_vtargetmap
  rcases h with h | h
  · rw [h]; rfl
  · rw [h]; simp

theorem before_reverse_shapekeys (fa : FloatArith) (ops : Collaborators) (mmd : MirrorModifierData)
    (ob : Object) (mesh : Mesh) (axis : Fin 3) (uco wmm : Bool) :
    (result_before_reverse fa ops mmd ob mesh axis uco wmm).shapekeys =
      (copy_layers (source_mesh fa ops mmd ob mesh axis).shapekeys
        (copy_layers (source_mesh fa ops mmd ob mesh axis).shapekeys
          ((source_mesh fa ops mmd ob mesh axis).shapekeys.map
            (fun _ => List.replicate ((source_mesh fa ops mmd ob mesh axis).totvert * 2) 0))
          0 0 (source_mesh fa ops mmd ob mesh axis).totvert)
        0 (source_mesh fa ops mmd ob mesh axis).totvert
        (source_mesh fa ops mmd ob mesh axis).totvert).map
        (mirror_shapekey_layer (mirror_mtx mmd ob axis)
          (source_mesh fa ops mmd ob mesh axis).totvert
          ((source_mesh fa ops mmd ob mesh axis).totvert * 2)) :=
  rfl

/-- Shape-key layer `a` of the kernel's result: the shape-key loop applied to the double copy
of source layer `a`. -/
theorem result_shapekey_layer (fa : FloatArith) (ops : Collaborators) (mmd : MirrorModifierData)
    (ob : Object) (mesh : Mesh) (axis : Fin 3) (uco wmm : Bool) (a : Nat) (sl : List float3)
    (ha : (source_mesh fa ops mmd ob mesh axis).shapekeys[a]? = some sl) :
    (BKE_mesh_mirror_apply_mirror_on_axis_for_modifier fa ops mmd ob mesh axis uco
        wmm).1.shapekeys[a]? =
      some (mirror_shapekey_layer (mirror_mtx mmd ob axis)
        (source_mesh fa ops mmd ob mesh axis).totvert
        ((source_mesh fa ops mmd ob mesh axis).totvert * 2)
        (copy_layer sl
          (copy_layer sl
            (List.replicate ((source_mesh fa ops mmd ob mesh axis).totvert * 2) 0) 0 0
            (source_mesh fa ops mmd ob mesh axis).totvert)
          0 (source_mesh fa ops mmd ob mesh axis).totvert
          (source_mesh fa ops mmd ob mesh axis).totvert)) := by
  rw [(result_from_before_reverse fa ops mmd ob mesh axis uco wmm).2.2]
  have h := non_corner_data_reverse_loop (source_mesh fa ops mmd ob mesh axis)
    (source_mesh fa ops mmd ob mesh axis).polys_size
    (result_before_reverse fa ops mmd ob mesh axis uco wmm)
  simp only [Mesh.non_corner_data, Prod.mk.injEq] at h
  rw [h.2.2.2.2.2.1, before_reverse_shapekeys, List.getElem?_map,
    getElem?_copy_layers _ _ _ _ _ a sl ha, getElem?_copy_layers _ _ _ _ _ a sl ha,
    List.getElem?_map, ha]
  rfl

theorem getElem?_mirror_shapekey_layer (mtx : float4x4) (N T : Nat) (cos : List float3)
    (j : Nat) :
    (mirror_shapekey_layer mtx N T cos)[j]? =
      if N ≤ j ∧ j < T then (cos[j]?).map (mul_m4_v3 mtx) else cos[j]? :=
  getElem?_forRange_modify (mul_m4_v3 mtx) 0 N T cos j

theorem conj_involution (T I F : Matrix (Fin 4) (Fin 4) ℚ) (hI : I * T = 1) (hTI : T * I = 1)
    (hF : F * F = 1) : (T * (F * I)) * (T * (F * I)) = 1 := by
  have k1 : ∀ X : Matrix (Fin 4) (Fin 4) ℚ, I * (T * X) = X := by
    intro X
    rw [← Matrix.mul_assoc, hI, Matrix.one_mul]
  have k2 : ∀ X : Matrix (Fin 4) (Fin 4) ℚ, F * (F * X) = X := by
    intro X
    rw [← Matrix.mul_assoc, hF, Matrix.one_mul]
  rw [Matrix.mul_assoc, Matrix.mul_assoc, k1, k2, hTI]

theorem axis_flip_mtx_involution (axis : Fin 3) :
    mul_m4_m4m4 (axis_flip_mtx axis) (axis_flip_mtx axis) = unit_m4 := by
  have h2 : Fin.castSucc (2 : Fin 3) = (2 : Fin 4) := rfl
  funext i j
  fin_cases axis <;> fin_cases i <;> fin_cases j <;>
    simp [mul_m4_m4m4, axis_flip_mtx_apply, unit_m4, h2]

theorem mirror_mtx_none (mmd : MirrorModifierData) (ob : Object) (axis : Fin 3)
    (hnone : mmd.mirror_ob = none) : mirror_mtx mmd ob axis = axis_flip_mtx axis := by
  unfold mirror_mtx
  rw [hnone]

/-- The mirror matrix is its own inverse: always without a reference object, and with one
when both world matrices are invertible. -/
theorem mirror_mtx_involution (mmd : MirrorModifierData) (ob : Object) (axis : Fin 3)
    (hdet : ∀ mirror_ob, mmd.mirror_ob = some mirror_ob →
      Matrix.det (Matrix.of ob.object_to_world) ≠ 0 ∧
      Matrix.det (Matrix.of mirror_ob.object_to_world) ≠ 0) :
    mul_m4_m4m4 (mirror_mtx mmd ob axis) (mirror_mtx mmd ob axis) = unit_m4 := by
  cases hmo : mmd.mirror_ob with
  | none =>
    rw [mirror_mtx_none mmd ob axis hmo]
    exact axis_flip_mtx_involution axis
  | some mirror_ob =>
    have hT := det_mirror_tmp mirror_ob ob (hdet mirror_ob hmo).1 (hdet mirror_ob hmo).2
    have hu : IsUnit (Matrix.det (Matrix.of (mirror_tmp mirror_ob ob))) :=
      isUnit_iff_ne_zero.2 hT
    have hF : (Matrix.of (axis_flip_mtx axis) : Matrix (Fin 4) (Fin 4) ℚ) *
        Matrix.of (axis_flip_mtx axis) = 1 := by
      have := axis_flip_mtx_involution axis
      rw [mul_m4_m4m4_eq, unit_m4_eq] at this
      exact this
    have h := conj_involution (Matrix.of (mirror_tmp mirror_ob ob))
      ((Matrix.of (mirror_tmp mirror_ob ob))⁻¹) (Matrix.of (axis_flip_mtx axis))
      (Matrix.nonsing_inv_mul _ hu) (Matrix.mul_nonsing_inv _ hu) hF
    rw [mirror_mtx_some mmd ob mirror_ob axis hmo, unit_m4_eq]
    simp only [mul_m4_m4m4_eq, invert_m4_m4_eq]
    exact h

theorem is_affine_unit_m4 : is_affine unit_m4 := by
  unfold is_affine unit_m4
  decide

theorem mul_m4_v3_unit_m4 (p : float3) : mul_m4_v3 unit_m4 p = p := by
  funext k
  fin_cases k <;> simp [mul_m4_v3, unit_m4]

/-- With affine invertible world matrices the mirror matrix is affine. -/
theorem is_affine_mirror_mtx (mmd : MirrorModifierData) (ob mirror_ob : Object) (axis : Fin 3)
    (hmob : mmd.mirror_ob = some mirror_ob) (h1 : Matrix.det (Matrix.of ob.object_to_world) ≠ 0)
    (h2 : Matrix.det (Matrix.of mirror_ob.object_to_world) ≠ 0)
    (ha1 : is_affine ob.object_to_world) (ha2 : is_affine mirror_ob.object_to_world) :
    is_affine (mirror_mtx mmd ob axis) := by
  have hT := is_affine_mirror_tmp mirror_ob ob h2 ha1 ha2
  rw [mirror_mtx_some mmd ob mirror_ob axis hmob]
  exact is_affine_mul _ _
    (is_affine_mul _ _ (is_affine_invert _ (det_mirror_tmp mirror_ob ob h1 h2) hT)
      (is_affine_axis_flip_mtx axis)) hT

theorem example_ob_scaled_det :
    Matrix.det (Matrix.of example_ob_scaled.object_to_world) ≠ 0 := by
  have h : Matrix.of example_ob_scaled.object_to_world *
      Matrix.of ![![1, 0, 0, 0], ![0, 1 / 2, 0, 0], ![0, 0, 2, 0], ![0, 0, 0, 1]] =
        (1 : Matrix (Fin 4) (Fin 4) ℚ) := by
    funext i j
    fin_cases i <;> fin_cases j <;>
      simp [example_ob_scaled, Matrix.mul_apply, Fin.sum_univ_four, Matrix.one_apply,
        Matrix.vecHead, Matrix.vecTail]
  exact Matrix.det_ne_zero_of_right_inverse h

/-- The world matrices of `example_ob_scaled` and of the reference object of
`example_mmd_mirror_ob` are invertible. -/
theorem example_mirror_ob_dets :
    ∀ mirror_ob, example_mmd_mirror_ob.mirror_ob = some mirror_ob →
      Matrix.det (Matrix.of example_ob_scaled.object_to_world) ≠ 0 ∧
      Matrix.det (Matrix.of mirror_ob.object_to_world) ≠ 0 := by
  intro mirror_ob h
  have e : example_mirror_ob = mirror_ob := Option.some.inj h
  rw [← e]
  exact ⟨example_ob_scaled_det, example_mirror_ob_det⟩

/-- The edge array of the result: edge `k` is the source edge, edge `E + k` is the source
edge with both vertex indices shifted by `N`. -/
theorem result_edges_spec (fa : FloatArith) (ops : Collaborators) (mmd : MirrorModifierData)
    (ob : Object) (mesh : Mesh) (axis : Fin 3) (uco wmm : Bool) (k : Nat)
    (hk : k < (source_mesh fa ops mmd ob mesh axis).totedge) :
    (BKE_mesh_mirror_apply_mirror_on_axis_for_modifier fa ops mmd ob mesh axis uco
        wmm).1.edges[k]? = some ((source_mesh fa ops mmd ob mesh axis).edges.getD k (0, 0)) ∧
    (BKE_mesh_mirror_apply_mirror_on_axis_for_modifier fa ops mmd ob mesh axis uco
        wmm).1.edges[(source_mesh fa ops mmd ob mesh axis).totedge + k]? =
      some (int2_add ((source_mesh fa ops mmd ob mesh axis).edges.getD k (0, 0))
        ((source_mesh fa ops mmd ob mesh axis).totvert : Int)) := by
  have hd := doubled_edges_spec (source_mesh fa ops mmd ob mesh axis)
  have h0 := (hd.2 k hk).1
  have h1 := (hd.2 k hk).2
  rw [(result_non_corner fa ops mmd ob mesh axis uco wmm).2.2.2.2.1, adjust_edges_spec,
    adjust_edges_spec, hd.1, h0, h1]
  have c1 : ¬ ((source_mesh fa ops mmd ob mesh axis).totedge ≤ k ∧
      k < (source_mesh fa ops mmd ob mesh axis).totedge * 2) := by omega
  have c2 : (source_mesh fa ops mmd ob mesh axis).totedge ≤
      (source_mesh fa ops mmd ob mesh axis).totedge + k ∧
      (source_mesh fa ops mmd ob mesh axis).totedge + k <
        (source_mesh fa ops mmd ob mesh axis).totedge * 2 := by omega
  simp only [c1, c2, and_self, if_true, if_false, Option.map_some']

theorem getElem?_lt_of_eq_some {α : Type} (l : List α) (i : Nat) (v : α)
    (h : l[i]? = some v) : i < l.length := by
  by_contra hge
  rw [List.getElem?_eq_none (by omega)] at h
  exact Option.noConfusion h

/-- Corner/edge consistency of one mirrored face, from the closed forms of its corner layers
and of the mirrored edges. -/
theorem mirrored_face_consistent (N E n : Nat) (src_edges out_edges : List (Int × Int))
    (scv sce ocv oce : Nat → Int)
    (hcv : ∀ k, k < n → ocv k = scv (if k = 0 then 0 else n - k) + (N : Int))
    (hce : ∀ k, k < n → oce k = sce (n - 1 - k) + (E : Int))
    (hedge : ∀ e, e < E →
      out_edges[E + e]? = some (int2_add (src_edges.getD e (0, 0)) (N : Int)))
    (hlen : src_edges.length = E)
    (hsrc : ∀ j, j < n → edge_joins src_edges (sce j) (scv j) (scv ((j + 1) % n)))
    (k : Nat) (hk : k < n) :
    edge_joins out_edges (oce k) (ocv k) (ocv ((k + 1) % n)) := by
  obtain ⟨h0, hj⟩ := hsrc (n - 1 - k) (by omega)
  have hlt : (sce (n - 1 - k)).toNat < E := by
    rcases hj with h | h
    · exact hlen ▸ getElem?_lt_of_eq_some _ _ _ h
    · exact hlen ▸ getElem?_lt_of_eq_some _ _ _ h
  have hidx : (sce (n - 1 - k) + (E : Int)).toNat = E + (sce (n - 1 - k)).toNat := by omega
  have hmod : (k + 1) % n < n := Nat.mod_lt _ (by omega)
  -- the two source corners joined by the source edge
  have ha : ocv ((k + 1) % n) = scv (n - 1 - k) + (N : Int) := by
    rw [hcv _ hmod]
    by_cases hc : k + 1 < n
    · rw [Nat.mod_eq_of_lt hc, if_neg (by omega)]
      congr 2
      omega
    · have hkn : k + 1 = n := by omega
      rw [hkn, Nat.mod_self, if_pos rfl]
      congr 2
      omega
  have hb : ocv k = scv ((n - 1 - k + 1) % n) + (N : Int) := by
    rw [hcv _ hk]
    by_cases hc : k = 0
    · subst hc
      have e : n - 1 - 0 + 1 = n := by omega
      rw [if_pos rfl, e, Nat.mod_self]
    · have e : n - 1 - k + 1 = n - k := by omega
      rw [if_neg hc, e, Nat.mod_eq_of_lt (by omega)]
  refine ⟨by rw [hce _ hk]; omega, ?_⟩
  rw [hce _ hk, hidx, hedge _ hlt, ha, hb]
  rcases hj with h | h
  · right
    rw [List.getD_eq_getElem?_getD, h]
    rfl
  · left
    rw [List.getD_eq_getElem?_getD, h]
    rfl

/-- Strictly increasing offsets from `off 0` to `off F` cover every index in between. -/
theorem offsets_cover (off : Nat → Nat) (F : Nat)
    (hstrict : ∀ i, i < F → off i < off (i + 1)) (c : Nat) (h0 : off 0 ≤ c) (hc : c < off F) :
    ∃ i, i < F ∧ off i ≤ c ∧ c < off (i + 1) := by
  induction F with
  | zero => omega
  | succ n ih =>
    by_cases hcn : c < off n
    · obtain ⟨i, hi, h1, h2⟩ := ih (fun i hi => hstrict i (by omega)) hcn
      exact ⟨i, by omega, h1, h2⟩
    · exact ⟨n, by omega, by omega, hc⟩

/-- Every corner below `totloop` is corner `t` of some face `i`. -/
theorem corner_of_face (mesh : Mesh) (hok : mesh.faces_ok) (c : Nat) (hc : c < mesh.totloop) :
    ∃ i t, i < mesh.totpoly ∧ t < (mesh.poly i).size ∧ c = (mesh.poly i).start + t := by
  obtain ⟨h0, hL, hstrict⟩ := hok
  obtain ⟨i, hi, h1, h2⟩ := offsets_cover (fun i => mesh.poly_offsets.getD i 0) mesh.totpoly
    hstrict c (by simp only []; omega) (by simp only []; omega)
  refine ⟨i, c - mesh.poly_offsets.getD i 0, hi, ?_, ?_⟩
  · simp only [Mesh.poly, OffsetIndices_get]
    omega
  · simp only [Mesh.poly, OffsetIndices_get]
    omega

/-- The corner layers of the second half of the result, corner by corner: each holds a
source corner of the first half shifted by `N` (vertices) or `E` (edges). -/
theorem result_corners_second_half (fa : FloatArith) (ops : Collaborators)
    (mmd : MirrorModifierData) (ob : Object) (mesh : Mesh) (axis : Fin 3) (uco wmm : Bool)
    (hok : (source_mesh fa ops mmd ob mesh axis).faces_ok) (c : Nat)
    (h1 : (source_mesh fa ops mmd ob mesh axis).totloop ≤ c)
    (h2 : c < 2 * (source_mesh fa ops mmd ob mesh axis).totloop) :
    ∃ c1 c2, c1 < (source_mesh fa ops mmd ob mesh axis).totloop ∧
      c2 < (source_mesh fa ops mmd ob mesh axis).totloop ∧
      (BKE_mesh_mirror_apply_mirror_on_axis_for_modifier fa ops mmd ob mesh axis uco
          wmm).1.corner_verts[c]? =
        some ((source_mesh fa ops mmd ob mesh axis).corner_verts.getD c1 0 +
          ((source_mesh fa ops mmd ob mesh axis).totvert : Int)) ∧
      (BKE_mesh_mirror_apply_mirror_on_axis_for_modifier fa ops mmd ob mesh axis uco
          wmm).1.corner_edges[c]? =
        some ((source_mesh fa ops mmd ob mesh axis).corner_edges.getD c2 0 +
          ((source_mesh fa ops mmd ob mesh axis).totedge : Int)) := by
  obtain ⟨i, t, hi, ht, hct⟩ := corner_of_face _ hok
    (c - (source_mesh fa ops mmd ob mesh axis).totloop) (by omega)
  have hb := poly_end_le_totloop _ hok i hi
  have hc : c = ((source_mesh fa ops mmd ob mesh axis).poly i).start +
      (source_mesh fa ops mmd ob mesh axis).totloop + t := by omega
  refine ⟨((source_mesh fa ops mmd ob mesh axis).poly i).start +
      (if t = 0 then 0 else ((source_mesh fa ops mmd ob mesh axis).poly i).size - t),
    ((source_mesh fa ops mmd ob mesh axis).poly i).start +
      (((source_mesh fa ops mmd ob mesh axis).poly i).size - 1 - t), ?_, by omega, ?_, ?_⟩
  · split <;> omega
  · rw [hc]
    exact result_corner_verts_mirrored fa ops mmd ob mesh axis uco wmm hok i hi t ht
  · rw [hc]
    exact result_corner_edges_mirrored fa ops mmd ob mesh axis uco wmm hok i hi t ht

/-- The mirrored face `F + i` of the result as a range. -/
theorem result_mirror_poly_eq (fa : FloatArith) (ops : Collaborators) (mmd : MirrorModifierData)
    (ob : Object) (mesh : Mesh) (axis : Fin 3) (uco wmm : Bool)
    (hok : (source_mesh fa ops mmd ob mesh axis).faces_ok) (i : Nat)
    (hi : i < (source_mesh fa ops mmd ob mesh axis).totpoly) :
    (BKE_mesh_mirror_apply_mirror_on_axis_for_modifier fa ops mmd ob mesh axis uco
        wmm).1.poly ((source_mesh fa ops mmd ob mesh axis).totpoly + i) =
      { start := ((source_mesh fa ops mmd ob mesh axis).poly i).start +
          (source_mesh fa ops mmd ob mesh axis).totloop,
        size := ((source_mesh fa ops mmd ob mesh axis).poly i).size } := by
  have hr := result_face_ranges fa ops mmd ob mesh axis uco wmm i hi hok.1 hok.2.1
  have e := hr.2.2.1
  have e2 := hr.2.2.2
  cases hx : (BKE_mesh_mirror_apply_mirror_on_axis_for_modifier fa ops mmd ob mesh axis uco
    wmm).1.poly ((source_mesh fa ops mmd ob mesh axis).totpoly + i) with
  | mk st sz =>
    rw [hx] at e e2
    simp only [] at e e2
    rw [e, e2]

/-- The destination of the reversed copy, as an offset into the mirrored face. -/
theorem reversal_dest_eq (m n t : Nat) (ht : t < n) :
    reversal_dest { start := m, size := n } t = m + (if t = 0 then 0 else n - t) := by
  unfold reversal_dest IndexRange.last
  split
  · rfl
  · simp only []
    omega

/-- The index of the custom-normal pass is the destination of the reversed copy. -/
theorem mirrorj_eq (s n m j : Nat) (h1 : s ≤ j) (h2 : j < s + n) :
    mirrorj { start := s, size := n } { start := m, size := n } j =
      ((reversal_dest { start := m, size := n } (j - s) : Nat) : Int) ∧
    mirrorj { start := s, size := n } { start := m, size := n } j =
      (if j = s then (m : Int) else (m : Int) + (n : Int) - ((j : Int) - (s : Int))) := by
  unfold mirrorj
  rw [reversal_dest_eq m n (j - s) (by omega)]
  simp only []
  by_cases hj : j = s
  · subst hj
    simp
  · have hgt : j > s := by omega
    have hne : ¬ j - s = 0 := by omega
    rw [if_pos hgt, if_neg hne, if_neg hj]
    constructor
    · omega
    · omega

/-! ## The hook modifier's vertex-index setter -/

theorem loop_find_eq_none (lo hi : Nat) (p : Nat → Bool) :
    loop_find lo hi p = none ↔ ∀ i, lo ≤ i → i < hi → p i = false := by
  unfold loop_find
  rw [List.find?_eq_none]
  constructor
  · intro h i h1 h2
    have := h i (List.mem_range'_1.2 ⟨h1, by omega⟩)
    simpa using this
  · intro h i hi
    have hm := List.mem_range'_1.1 hi
    rw [h i hm.1 (by omega)]
    exact Bool.false_ne_true

theorem loop_find_some (lo hi : Nat) (p : Nat → Bool) (i : Nat)
    (h : loop_find lo hi p = some i) : lo ≤ i ∧ i < hi ∧ p i = true := by
  unfold loop_find at h
  have hp := List.find?_some h
  have hm := List.mem_range'_1.1 (List.mem_of_find?_eq_some h)
  exact ⟨hm.1, by omega, hp⟩

theorem qsort_int_spec (l : List Int) :
    (qsort_int l).Sorted (fun a b => a ≤ b) ∧ (qsort_int l).Perm l ∧
      (qsort_int l).length = l.length :=
  ⟨List.sorted_insertionSort _ l, List.perm_insertionSort _ l,
    (List.perm_insertionSort _ l).length_eq⟩

/-- The negative-index loop finds nothing exactly when all indices are non-negative. -/
theorem no_negative_iff (l : List Int) :
    (∀ i, 0 ≤ i → i < l.length → decide (l.getD i 0 < 0) = false) ↔ ∀ x ∈ l, 0 ≤ x := by
  constructor
  · intro h x hx
    obtain ⟨n, hn, e⟩ := List.mem_iff_getElem.1 hx
    have := h n (Nat.zero_le _) hn
    rw [List.getD_eq_getElem l 0 hn, e] at this
    simpa using this
  · intro h i _ hi
    rw [List.getD_eq_getElem l 0 hi]
    have := h _ (List.getElem_mem hi)
    simpa using this

/-- In a sorted list, no two neighbours are equal exactly when the list has no duplicates;
then it is strictly increasing. -/
theorem sorted_adjacent_ne_iff (l : List Int) (hs : l.Sorted (fun a b => a ≤ b)) :
    (∀ i, 1 ≤ i → i < l.length → (l.getD i 0 == l.getD (i - 1) 0) = false) ↔ l.Nodup := by
  constructor
  · intro h
    have hc : List.Chain' (fun a b : Int => a < b) l := by
      rw [List.chain'_iff_get]
      intro i hi
      have h1 : i + 1 < l.length := by omega
      have h0 : i < l.length := by omega
      have hle : l.get ⟨i, h0⟩ ≤ l.get ⟨i + 1, h1⟩ :=
        hs.rel_get_of_lt (Fin.mk_lt_mk.2 (Nat.lt_succ_self i))
      have hne := h (i + 1) (by omega) h1
      rw [List.getD_eq_getElem l 0 h1, Nat.add_sub_cancel, List.getD_eq_getElem l 0 h0] at hne
      have hne2 : l.get ⟨i + 1, h1⟩ ≠ l.get ⟨i, h0⟩ := by
        simpa using hne
      exact lt_of_le_of_ne hle (Ne.symm hne2)
    have hp : List.Pairwise (fun a b : Int => a < b) l := List.chain'_iff_pairwise.1 hc
    exact hp.imp (fun hab => ne_of_lt hab)
  · intro hn i h1 h2
    have h0 : i - 1 < l.length := by omega
    rw [List.getD_eq_getElem l 0 h2, List.getD_eq_getElem l 0 h0]
    have hne : ¬ l[i] = l[i - 1] := by
      intro he
      have := (hn.getElem_inj_iff).1 he
      omega
    simpa using hne

/-- The three outcomes of the setter: cleared on an empty list, unchanged on a negative or
duplicate index, otherwise the sorted copy of the input. -/
theorem vertex_indices_set_spec (hmd : HookModifierData) (reports : List HookReport)
    (indices : List Int) :
    (indices = [] →
      (rna_HookModifier_vertex_indices_set hmd reports indices).1 =
        { indexar := none, indexar_num := 0 }) ∧
    (indices ≠ [] → ((∃ x ∈ indices, x < 0) ∨ ¬ indices.Nodup) →
      (rna_HookModifier_vertex_indices_set hmd reports indices).1 = hmd) ∧
    (indices ≠ [] → (∀ x ∈ indices, 0 ≤ x) → indices.Nodup →
      (rna_HookModifier_vertex_indices_set hmd reports indices).1 =
        { indexar := some (qsort_int indices), indexar_num := (indices.length : Int) }) := by
  have hq := qsort_int_spec indices
  have hdup := sorted_adjacent_ne_iff (qsort_int indices) hq.1
  rw [hq.2.2, hq.2.1.nodup_iff] at hdup
  refine ⟨fun h => ?_, fun hne hbad => ?_, fun hne hpos hnd => ?_⟩
  · subst h
    rfl
  · have hlen : ¬ indices.length = 0 := fun h => hne (List.length_eq_zero.1 h)
    unfold rna_HookModifier_vertex_indices_set
    simp only []
    rw [if_neg hlen]
    cases h1 : loop_find 0 indices.length (fun i => decide (indices.getD i 0 < 0)) with
    | some i => rfl
    | none =>
      simp only []
      cases h2 : loop_find 1 indices.length
          (fun i => (qsort_int indices).getD i 0 == (qsort_int indices).getD (i - 1) 0) with
      | some i => rfl
      | none =>
        exfalso
        have hp := (no_negative_iff indices).1 ((loop_find_eq_none _ _ _).1 h1)
        have hn := hdup.1 ((loop_find_eq_none _ _ _).1 h2)
        rcases hbad with ⟨x, hx, hlt⟩ | hbad
        · have := hp x hx
          omega
        · exact hbad hn
  · have hlen : ¬ indices.length = 0 := fun h => hne (List.length_eq_zero.1 h)
    have h1 : loop_find 0 indices.length (fun i => decide (indices.getD i 0 < 0)) = none :=
      (loop_find_eq_none _ _ _).2 ((no_negative_iff indices).2 hpos)
    have h2 : loop_find 1 indices.length
        (fun i => (qsort_int indices).getD i 0 == (qsort_int indices).getD (i - 1) 0) =
        none :=
      (loop_find_eq_none _ _ _).2 (hdup.2 hnd)
    unfold rna_HookModifier_vertex_indices_set
    simp only []
    rw [if_neg hlen, h1]
    simp only []
    rw [h2]

/-! ## The console indent operator -/

theorem find_range'_spec (p : Nat → Bool) (n : Nat) :
    ∀ lo, (∀ i, (List.range' lo n).find? p = some i →
        lo ≤ i ∧ i < lo + n ∧ p i = true ∧ ∀ j, lo ≤ j → j < i → p j = false) ∧
      ((List.range' lo n).find? p = none → ∀ j, lo ≤ j → j < lo + n → p j = false) := by
  induction n with
  | zero =>
    intro lo
    refine ⟨fun i h => ?_, fun _ j h1 h2 => by omega⟩
    simp at h
  | succ n ih =>
    intro lo
    rw [List.range'_succ]
    by_cases hp : p lo = true
    · rw [List.find?_cons_of_pos _ hp]
      refine ⟨fun i h => ?_, fun h => Option.noConfusion h⟩
      have e : lo = i := Option.some.inj h
      subst e
      exact ⟨Nat.le_refl _, by omega, hp, fun j h1 h2 => by omega⟩
    · rw [List.find?_cons_of_neg _ hp]
      have hf : p lo = false := by simpa using hp
      refine ⟨fun i h => ?_, fun h j h1 h2 => ?_⟩
      · obtain ⟨a, b, c, d⟩ := (ih (lo + 1)).1 i h
        refine ⟨by omega, by omega, c, fun j h1 h2 => ?_⟩
        by_cases hj : j = lo
        · rw [hj]; exact hf
        · exact d j (by omega) h2
      · by_cases hj : j = lo
        · rw [hj]; exact hf
        · exact (ih (lo + 1)).2 h j (by omega) (by omega)

/-- The value of the loop counting leading spaces: the first `s` characters are spaces and
character `s`, if there is one, is not. -/
theorem leading_spaces_spec (l : List Char) (len : Nat) (hlen : len = l.length) :
    (loop_find 0 len (fun i => l.getD i ' ' != ' ')).getD len ≤ len ∧
    (∀ j, j < (loop_find 0 len (fun i => l.getD i ' ' != ' ')).getD len →
      l[j]? = some ' ') ∧
    ((loop_find 0 len (fun i => l.getD i ' ' != ' ')).getD len < len →
      l[(loop_find 0 len (fun i => l.getD i ' ' != ' ')).getD len]? ≠ some ' ') := by
  have hspec := find_range'_spec (fun i => l.getD i ' ' != ' ') (len - 0) 0
  unfold loop_find
  have hget : ∀ j, j < len → (l.getD j ' ' != ' ') = false → l[j]? = some ' ' := by
    intro j hj h
    have hj2 : j < l.length := by omega
    rw [List.getD_eq_getElem l ' ' hj2] at h
    rw [List.getElem?_eq_getElem hj2]
    simpa using h
  cases h : (List.range' 0 (len - 0)).find? (fun i => l.getD i ' ' != ' ') with
  | none =>
    have hn := hspec.2 h
    simp only [Option.getD_none]
    exact ⟨Nat.le_refl _, fun j hj => hget j hj (hn j (Nat.zero_le _) (by omega)),
      fun hlt => absurd hlt (Nat.lt_irrefl _)⟩
  | some i =>
    obtain ⟨_, a, b, c⟩ := hspec.1 i h
    simp only [Option.getD_some]
    refine ⟨by omega, fun j hj => hget j (by omega) (c j (Nat.zero_le _) hj), fun _ => ?_⟩
    have hi2 : i < l.length := by omega
    rw [List.getD_eq_getElem l ' ' hi2] at b
    rw [List.getElem?_eq_getElem hi2]
    simpa using b

theorem console_line_cursor_set_line (cl : ConsoleLine) (cursor : Int) :
    (console_line_cursor_set cl cursor).line = cl.line ∧
    (console_line_cursor_set cl cursor).len = cl.len := by
  unfold console_line_cursor_set
  simp only []
  constructor <;> (repeat' split) <;> rfl

/-- The line and the selection after the indent operator, in terms of the number of leading
spaces counted by its loop. -/
theorem console_indent_exec_spec (sc : SpaceConsole) (ci : ConsoleLine)
    (hlen : ci.len = ci.line.length) :
    (console_indent_exec sc ci).2.line =
      List.replicate
        (4 - (loop_find 0 ci.len (fun i => ci.line.getD i ' ' != ' ')).getD ci.len % 4) ' ' ++
        ci.line ∧
    (console_indent_exec sc ci).2.len =
      ci.len + (4 - (loop_find 0 ci.len (fun i => ci.line.getD i ' ' != ' ')).getD ci.len % 4) ∧
    (console_indent_exec sc ci).1 =
      { sel_start := sc.sel_start +
          ((4 - (loop_find 0 ci.len (fun i => ci.line.getD i ' ' != ' ')).getD ci.len % 4 :
            Nat) : Int),
        sel_end := sc.sel_end +
          ((4 - (loop_find 0 ci.len (fun i => ci.line.getD i ' ' != ' ')).getD ci.len % 4 :
            Nat) : Int) } := by
  have htake : ci.line.take ci.len = ci.line := by
    rw [hlen]
    exact List.take_length ci.line
  unfold console_indent_exec
  simp only [TAB_LENGTH]
  rw [(console_line_cursor_set_line _ _).1, (console_line_cursor_set_line _ _).2, htake]
  exact ⟨rfl, rfl, rfl⟩

/-- The console indent operator indents to the next tab stop: for every console line whose
first `s` characters are spaces (and whose character `s`, if any, is not a space),
`console_indent_exec` makes the new line equal to `4 - s mod 4` spaces followed by the old
line, so the line length grows by `4 - s mod 4`, a number between 1 and 4, and the new
number of leading spaces is a multiple of 4. It adds exactly 4 spaces when `s` is a multiple
of 4. -/
theorem console_indent_to_tab_stop (sc : SpaceConsole) (ci : ConsoleLine)
    (hlen : ci.len = ci.line.length) :
    ∃ s : Nat, s ≤ ci.len ∧ (∀ j, j < s → (ci.line)[j]? = some ' ') ∧
      (s < ci.len → (ci.line)[s]? ≠ some ' ') ∧
      (console_indent_exec sc ci).2.line = List.replicate (4 - s % 4) ' ' ++ ci.line ∧
      (console_indent_exec sc ci).2.len = ci.len + (4 - s % 4) ∧
      (console_indent_exec sc ci).2.len = (console_indent_exec sc ci).2.line.length ∧
      1 ≤ 4 - s % 4 ∧ 4 - s % 4 ≤ 4 ∧ (s + (4 - s % 4)) % 4 = 0 ∧
      (s % 4 = 0 →
        (console_indent_exec sc ci).2.line = List.replicate 4 ' ' ++ ci.line ∧
        (console_indent_exec sc ci).2.len = ci.len + 4) := by
  have hs := leading_spaces_spec ci.line ci.len hlen
  have he := console_indent_exec_spec sc ci hlen
  refine ⟨(loop_find 0 ci.len (fun i => ci.line.getD i ' ' != ' ')).getD ci.len,
    hs.1, hs.2.1, hs.2.2, he.1, he.2.1, ?_, by omega, by omega, by omega, fun h0 => ?_⟩
  · rw [he.1, he.2.1, List.length_append, List.length_replicate, hlen]
    omega
  · rw [he.1, he.2.1, h0]
    exact ⟨rfl, rfl⟩

/-! ## Claims -/

/-- C1. Count doubling: for every source mesh (the input, or the bisected mesh when
bisection is on for the axis) with `V` vertices, `E` edges, `F` faces and `L` corners, the
returned mesh has exactly `2V`, `2E`, `2F` and `2L` of them (and position, edge and corner
arrays of these sizes), whatever the merge, UV, normal and vertex-group settings are; the
unit cube 8/12/6/24 mirrored on X without bisection or merging gives 16/24/12/48. -/
theorem C1_count_doubling (fa : FloatArith) (ops : Collaborators) (mmd : MirrorModifierData)
    (ob : Object) (mesh : Mesh) (axis : Fin 3) (uco wmm : Bool) :
    ((BKE_mesh_mirror_apply_mirror_on_axis_for_modifier fa ops mmd ob mesh axis uco wmm).1.totvert =
        2 * (source_mesh fa ops mmd ob mesh axis).totvert ∧
      (BKE_mesh_mirror_apply_mirror_on_axis_for_modifier fa ops mmd ob mesh axis uco wmm).1.totedge =
        2 * (source_mesh fa ops mmd ob mesh axis).totedge ∧
      (BKE_mesh_mirror_apply_mirror_on_axis_for_modifier fa ops mmd ob mesh axis uco
          wmm).1.polys_size = 2 * (source_mesh fa ops mmd ob mesh axis).polys_size ∧
      (BKE_mesh_mirror_apply_mirror_on_axis_for_modifier fa ops mmd ob mesh axis uco wmm).1.totloop =
        2 * (source_mesh fa ops mmd ob mesh axis).totloop) ∧
    ((BKE_mesh_mirror_apply_mirror_on_axis_for_modifier fa ops mmd ob mesh axis uco
          wmm).1.positions.length = 2 * (source_mesh fa ops mmd ob mesh axis).totvert ∧
      (BKE_mesh_mirror_apply_mirror_on_axis_for_modifier fa ops mmd ob mesh axis uco
          wmm).1.edges.length = 2 * (source_mesh fa ops mmd ob mesh axis).totedge ∧
      (BKE_mesh_mirror_apply_mirror_on_axis_for_modifier fa ops mmd ob mesh axis uco
          wmm).1.corner_verts.length = 2 * (source_mesh fa ops mmd ob mesh axis).totloop ∧
      (BKE_mesh_mirror_apply_mirror_on_axis_for_modifier fa ops mmd ob mesh axis uco
          wmm).1.corner_edges.length = 2 * (source_mesh fa ops mmd ob mesh axis).totloop) ∧
    ((BKE_mesh_mirror_apply_mirror_on_axis_for_modifier fa ops example_mmd_no_merge ob unit_cube 0
          uco wmm).1.totvert = 16 ∧
      (BKE_mesh_mirror_apply_mirror_on_axis_for_modifier fa ops example_mmd_no_merge ob unit_cube 0
          uco wmm).1.totedge = 24 ∧
      (BKE_mesh_mirror_apply_mirror_on_axis_for_modifier fa ops example_mmd_no_merge ob unit_cube 0
          uco wmm).1.polys_size = 12 ∧
      (BKE_mesh_mirror_apply_mirror_on_axis_for_modifier fa ops example_mmd_no_merge ob unit_cube 0
          uco wmm).1.totloop = 48) := by
  have h := result_non_corner fa ops mmd ob mesh axis uco wmm
  have hc := result_non_corner fa ops example_mmd_no_merge ob unit_cube 0 uco wmm
  have hsrc : source_mesh fa ops example_mmd_no_merge ob unit_cube 0 = unit_cube := rfl
  refine ⟨⟨?_, ?_, ?_, ?_⟩, ⟨?_, ?_, ?_, ?_⟩, ⟨?_, ?_, ?_, ?_⟩⟩
  · rw [h.1]; omega
  · rw [h.2.1]; omega
  · unfold Mesh.polys_size; rw [h.2.2.1]; omega
  · rw [h.2.2.2.1]; omega
  · rw [result_positions, length_vert_pass_positions]; omega
  · rw [h.2.2.2.2.1, length_adjust_edges, (doubled_edges_spec _).1]; omega
  · rw [result_corner_verts, length_adjust_corners, length_reversed_corner_verts]; omega
  · rw [result_corner_edges, length_adjust_corners, length_reversed_corner_edges]; omega
  · rw [hc.1, hsrc]; rfl
  · rw [hc.2.1, hsrc]; rfl
  · unfold Mesh.polys_size; rw [hc.2.2.1, hsrc]; rfl
  · rw [hc.2.2.2.1, hsrc]; rfl

/-- C2. With no mirror-reference object and merging not active, for every axis `a` and
every source vertex `i < N` at position `p` (exact arithmetic): output vertex `i` is at `p`,
output vertex `N + i` is at `p` with component `a` negated and the other two unchanged, and
the mirror matrix is the identity with entry `[a][a]` set to `-1`. -/
theorem C2_position_mirror (fa : FloatArith) (ops : Collaborators) (mmd : MirrorModifierData)
    (ob : Object) (mesh : Mesh) (axis : Fin 3) (uco wmm : Bool) (i : Nat) (p : float3)
    (hob : mmd.mirror_ob = none) (hmerge : do_vtargetmap mmd wmm = false)
    (hi : i < (source_mesh fa ops mmd ob mesh axis).totvert)
    (hp : (source_mesh fa ops mmd ob mesh axis).positions[i]? = some p) :
    (BKE_mesh_mirror_apply_mirror_on_axis_for_modifier fa ops mmd ob mesh axis uco
        wmm).1.positions[i]? = some p ∧
    (BKE_mesh_mirror_apply_mirror_on_axis_for_modifier fa ops mmd ob mesh axis uco
        wmm).1.positions[(source_mesh fa ops mmd ob mesh axis).totvert + i]? =
      some (fun k => if k = axis then -p k else p k) ∧
    ∀ r c : Fin 4, mirror_mtx mmd ob axis r c =
      if r = c then (if r = axis.castSucc then -1 else 1) else 0 := by
  have hmtx : mirror_mtx mmd ob axis = axis_flip_mtx axis := by
    simp [mirror_mtx, hob]
  have hsrc : (source_mesh fa ops mmd ob mesh axis).positions.getD i 0 = p := by
    simp [List.getD_eq_getElem?_getD, hp]
  have hl := (vert_pass_spec fa ops mmd ob mesh axis uco wmm).2.1 i p hi hsrc
  simp only [hmerge, Bool.false_and, Bool.false_eq_true, if_false] at hl
  rw [result_positions]
  refine ⟨hl.1, ?_, fun r c => by rw [hmtx]; exact axis_flip_mtx_apply axis r c⟩
  rw [hl.2, hmtx, mul_axis_flip_mtx]

theorem C2_position_mirror_witness :
    example_mmd.mirror_ob = none ∧
    do_vtargetmap example_mmd false = false ∧
    2 < (source_mesh binary32 example_ops example_mmd example_ob example_mesh 0).totvert ∧
    (source_mesh binary32 example_ops example_mmd example_ob example_mesh 0).positions[2]? =
      some ![1, 1, 0] ∧
    (BKE_mesh_mirror_apply_mirror_on_axis_for_modifier binary32 example_ops example_mmd example_ob
        example_mesh 0 true false).1.positions[2]? = some ![1, 1, 0] ∧
    (BKE_mesh_mirror_apply_mirror_on_axis_for_modifier binary32 example_ops example_mmd example_ob
        example_mesh 0 true false).1.positions[
          (source_mesh binary32 example_ops example_mmd example_ob example_mesh 0).totvert + 2]? =
      some (fun k => if k = 0 then -(![1, 1, 0] : float3) k else (![1, 1, 0] : float3) k) ∧
    ∀ r c : Fin 4, mirror_mtx example_mmd example_ob 0 r c =
      if r = c then (if r = (0 : Fin 3).castSucc then -1 else 1) else 0 :=
  ⟨rfl, rfl, by decide, rfl,
    C2_position_mirror binary32 example_ops example_mmd example_ob example_mesh 0 true false 2
      ![1, 1, 0] rfl rfl (by decide) rfl⟩

/-- C3. Winding reversal with anchored first corner: for every source face `i` with corner
range `[s, s + n)`, the mirrored face `F + i` has the range `[m, m + n)` with `m = s + L`,
and the output corner-to-vertex array satisfies `corner_verts[m] = src_corner_verts[s] + N`
and `corner_verts[m + n - j] = src_corner_verts[s + j] + N` for `1 ≤ j < n`; that is,
mirrored corner `k` holds the mirrored copy of source corner `(n - k) mod n`. -/
theorem C3_winding_reversal (fa : FloatArith) (ops : Collaborators) (mmd : MirrorModifierData)
    (ob : Object) (mesh : Mesh) (axis : Fin 3) (uco wmm : Bool) (i s n m : Nat)
    (hok : (source_mesh fa ops mmd ob mesh axis).faces_ok)
    (hi : i < (source_mesh fa ops mmd ob mesh axis).totpoly)
    (hs : (source_mesh fa ops mmd ob mesh axis).poly i = { start := s, size := n })
    (hm : ((BKE_mesh_mirror_apply_mirror_on_axis_for_modifier fa ops mmd ob mesh axis uco
      wmm).1.poly ((source_mesh fa ops mmd ob mesh axis).totpoly + i)).start = m) :
    ((BKE_mesh_mirror_apply_mirror_on_axis_for_modifier fa ops mmd ob mesh axis uco wmm).1.poly
        ((source_mesh fa ops mmd ob mesh axis).totpoly + i)).size = n ∧
    m = s + (source_mesh fa ops mmd ob mesh axis).totloop ∧
    (∀ v, (source_mesh fa ops mmd ob mesh axis).corner_verts[s]? = some v →
      (BKE_mesh_mirror_apply_mirror_on_axis_for_modifier fa ops mmd ob mesh axis uco
          wmm).1.corner_verts[m]? =
        some (v + ((source_mesh fa ops mmd ob mesh axis).totvert : Int))) ∧
    (∀ j v, 1 ≤ j → j < n →
      (source_mesh fa ops mmd ob mesh axis).corner_verts[s + j]? = some v →
      (BKE_mesh_mirror_apply_mirror_on_axis_for_modifier fa ops mmd ob mesh axis uco
          wmm).1.corner_verts[m + n - j]? =
        some (v + ((source_mesh fa ops mmd ob mesh axis).totvert : Int))) ∧
    (∀ k v, k < n →
      (source_mesh fa ops mmd ob mesh axis).corner_verts[s + (n - k) % n]? = some v →
      (BKE_mesh_mirror_apply_mirror_on_axis_for_modifier fa ops mmd ob mesh axis uco
          wmm).1.corner_verts[m + k]? =
        some (v + ((source_mesh fa ops mmd ob mesh axis).totvert : Int))) := by
  have hr := result_face_ranges fa ops mmd ob mesh axis uco wmm i hi hok.1 hok.2.1
  have hcv := result_corner_verts_mirrored fa ops mmd ob mesh axis uco wmm hok i hi
  rw [hs] at hr hcv
  simp only [] at hr hcv
  have hms : m = s + (source_mesh fa ops mmd ob mesh axis).totloop := by
    rw [← hm, hr.2.2.1]
  subst hms
  refine ⟨hr.2.2.2, rfl, ?_, ?_, ?_⟩
  · intro v hv
    have hn := (poly_end_le_totloop _ hok i hi).1
    rw [hs] at hn
    have h := hcv 0 hn
    rw [if_pos rfl, Nat.add_zero, Nat.add_zero, List.getD_eq_getElem?_getD, hv] at h
    exact h
  · intro j v hj1 hjn hv
    have h := hcv (n - j) (by omega)
    have h2 : ¬ n - j = 0 := by omega
    have h3 : n - (n - j) = j := by omega
    have h4 : s + (source_mesh fa ops mmd ob mesh axis).totloop + (n - j) =
        s + (source_mesh fa ops mmd ob mesh axis).totloop + n - j := by omega
    rw [if_neg h2, h3, List.getD_eq_getElem?_getD, hv, h4] at h
    exact h
  · intro k v hk hv
    have h := hcv k hk
    by_cases hk0 : k = 0
    · subst hk0
      rw [Nat.sub_zero, Nat.mod_self] at hv
      rw [if_pos rfl, List.getD_eq_getElem?_getD, hv] at h
      exact h
    · rw [Nat.mod_eq_of_lt (by omega)] at hv
      rw [if_neg hk0, List.getD_eq_getElem?_getD, hv] at h
      exact h

theorem C3_winding_reversal_witness :
    (source_mesh binary32 example_ops example_mmd example_ob example_mesh 0).faces_ok ∧
    0 < (source_mesh binary32 example_ops example_mmd example_ob example_mesh 0).totpoly ∧
    (source_mesh binary32 example_ops example_mmd example_ob example_mesh 0).poly 0 =
      { start := 0, size := 4 } ∧
    ((BKE_mesh_mirror_apply_mirror_on_axis_for_modifier binary32 example_ops example_mmd example_ob
      example_mesh 0 true true).1.poly
        ((source_mesh binary32 example_ops example_mmd example_ob example_mesh 0).totpoly + 0)).start =
      7 ∧
    ((BKE_mesh_mirror_apply_mirror_on_axis_for_modifier binary32 example_ops example_mmd example_ob
        example_mesh 0 true true).1.poly
        ((source_mesh binary32 example_ops example_mmd example_ob example_mesh 0).totpoly + 0)).size =
      4 ∧
    7 = 0 + (source_mesh binary32 example_ops example_mmd example_ob example_mesh 0).totloop ∧
    (∀ v, (source_mesh binary32 example_ops example_mmd example_ob example_mesh 0).corner_verts[0]? =
        some v →
      (BKE_mesh_mirror_apply_mirror_on_axis_for_modifier binary32 example_ops example_mmd example_ob
          example_mesh 0 true true).1.corner_verts[7]? =
        some (v + ((source_mesh binary32 example_ops example_mmd example_ob example_mesh 0).totvert :
          Int))) ∧
    (∀ j v, 1 ≤ j → j < 4 →
      (source_mesh binary32 example_ops example_mmd example_ob example_mesh 0).corner_verts[0 + j]? =
        some v →
      (BKE_mesh_mirror_apply_mirror_on_axis_for_modifier binary32 example_ops example_mmd example_ob
          example_mesh 0 true true).1.corner_verts[7 + 4 - j]? =
        some (v + ((source_mesh binary32 example_ops example_mmd example_ob example_mesh 0).totvert :
          Int))) ∧
    (∀ k v, k < 4 →
      (source_mesh binary32 example_ops example_mmd example_ob example_mesh 0).corner_verts[
        0 + (4 - k) % 4]? = some v →
      (BKE_mesh_mirror_apply_mirror_on_axis_for_modifier binary32 example_ops example_mmd example_ob
          example_mesh 0 true true).1.corner_verts[7 + k]? =
        some (v + ((source_mesh binary32 example_ops example_mmd example_ob example_mesh 0).totvert :
          Int))) :=
  ⟨by decide, by decide, by decide, by decide,
    C3_winding_reversal binary32 example_ops example_mmd example_ob example_mesh 0 true true 0 0 4 7
      (by decide) (by decide) (by decide) (by decide)⟩

/-- C4. Corner-to-edge references of a mirrored face: for every source face with range
`[s, s + n)`, mirrored range `[m, m + n)` and every `k < n`,
`corner_edges[m + k] = src_corner_edges[s + n - 1 - k] + E`; equivalently, entry `k` is entry
`(k + 1) mod n` of the reversed-with-anchor copy (which holds source corner `(n - t) mod n` at
position `t`), offset by the source edge count. -/
theorem C4_corner_edges (fa : FloatArith) (ops : Collaborators) (mmd : MirrorModifierData)
    (ob : Object) (mesh : Mesh) (axis : Fin 3) (uco wmm : Bool) (i s n m : Nat)
    (hok : (source_mesh fa ops mmd ob mesh axis).faces_ok)
    (hi : i < (source_mesh fa ops mmd ob mesh axis).totpoly)
    (hs : (source_mesh fa ops mmd ob mesh axis).poly i = { start := s, size := n })
    (hm : (BKE_mesh_mirror_apply_mirror_on_axis_for_modifier fa ops mmd ob mesh axis uco
      wmm).1.poly ((source_mesh fa ops mmd ob mesh axis).totpoly + i) =
        { start := m, size := n }) :
    (∀ k v, k < n →
      (source_mesh fa ops mmd ob mesh axis).corner_edges[s + n - 1 - k]? = some v →
      (BKE_mesh_mirror_apply_mirror_on_axis_for_modifier fa ops mmd ob mesh axis uco
          wmm).1.corner_edges[m + k]? =
        some (v + ((source_mesh fa ops mmd ob mesh axis).totedge : Int))) ∧
    (∀ k v, k < n →
      (source_mesh fa ops mmd ob mesh axis).corner_edges[s + (n - (k + 1) % n) % n]? = some v →
      (BKE_mesh_mirror_apply_mirror_on_axis_for_modifier fa ops mmd ob mesh axis uco
          wmm).1.corner_edges[m + k]? =
        some (v + ((source_mesh fa ops mmd ob mesh axis).totedge : Int))) := by
  have hr := result_face_ranges fa ops mmd ob mesh axis uco wmm i hi hok.1 hok.2.1
  have hce := result_corner_edges_mirrored fa ops mmd ob mesh axis uco wmm hok i hi
  rw [hs, hm] at hr
  rw [hs] at hce
  simp only [] at hr hce
  have hms : m = s + (source_mesh fa ops mmd ob mesh axis).totloop := hr.2.2.1
  subst hms
  have key : ∀ k v, k < n →
      (source_mesh fa ops mmd ob mesh axis).corner_edges[s + n - 1 - k]? = some v →
      (BKE_mesh_mirror_apply_mirror_on_axis_for_modifier fa ops mmd ob mesh axis uco
          wmm).1.corner_edges[s + (source_mesh fa ops mmd ob mesh axis).totloop + k]? =
        some (v + ((source_mesh fa ops mmd ob mesh axis).totedge : Int)) := by
    intro k v hk hv
    have h := hce k hk
    have h2 : s + (n - 1 - k) = s + n - 1 - k := by omega
    rw [h2, List.getD_eq_getElem?_getD, hv] at h
    exact h
  refine ⟨key, ?_⟩
  intro k v hk hv
  apply key k v hk
  have h3 : s + (n - (k + 1) % n) % n = s + n - 1 - k := by
    by_cases hlast : k + 1 < n
    · rw [Nat.mod_eq_of_lt hlast, Nat.mod_eq_of_lt (by omega)]; omega
    · have h4 : k + 1 = n := by omega
      rw [h4, Nat.mod_self, Nat.sub_zero, Nat.mod_self]; omega
  rw [← h3]
  exact hv

theorem C4_corner_edges_witness :
    (source_mesh binary32 example_ops example_mmd example_ob example_mesh 0).faces_ok ∧
    1 < (source_mesh binary32 example_ops example_mmd example_ob example_mesh 0).totpoly ∧
    (source_mesh binary32 example_ops example_mmd example_ob example_mesh 0).poly 1 =
      { start := 4, size := 3 } ∧
    (BKE_mesh_mirror_apply_mirror_on_axis_for_modifier binary32 example_ops example_mmd example_ob
      example_mesh 0 true true).1.poly
        ((source_mesh binary32 example_ops example_mmd example_ob example_mesh 0).totpoly + 1) =
      { start := 11, size := 3 } ∧
    (∀ k v, k < 3 →
      (source_mesh binary32 example_ops example_mmd example_ob example_mesh 0).corner_edges[
        4 + 3 - 1 - k]? = some v →
      (BKE_mesh_mirror_apply_mirror_on_axis_for_modifier binary32 example_ops example_mmd example_ob
          example_mesh 0 true true).1.corner_edges[11 + k]? =
        some (v + ((source_mesh binary32 example_ops example_mmd example_ob example_mesh 0).totedge :
          Int))) ∧
    (∀ k v, k < 3 →
      (source_mesh binary32 example_ops example_mmd example_ob example_mesh 0).corner_edges[
        4 + (3 - (k + 1) % 3) % 3]? = some v →
      (BKE_mesh_mirror_apply_mirror_on_axis_for_modifier binary32 example_ops example_mmd example_ob
          example_mesh 0 true true).1.corner_edges[11 + k]? =
        some (v + ((source_mesh binary32 example_ops example_mmd example_ob example_mesh 0).totedge :
          Int))) :=
  ⟨by decide, by decide, by decide, by decide,
    C4_corner_edges binary32 example_ops example_mmd example_ob example_mesh 0 true true 1 4 3 11
      (by decide) (by decide) (by decide) (by decide)⟩

/-- C5. Face ranges of the output: for every source face `i < F` with corner range start
`s_i` and size `n_i`, output face `i` keeps start `s_i` and size `n_i`, and output face
`F + i` starts at `s_i + L` and has exactly `n_i` corners, given that the source face ranges
run from offset `0` to offset `L` (the final offset `2L` of the output is set at
allocation). -/
theorem C5_face_ranges (fa : FloatArith) (ops : Collaborators) (mmd : MirrorModifierData)
    (ob : Object) (mesh : Mesh) (axis : Fin 3) (uco wmm : Bool) (i : Nat)
    (hi : i < (source_mesh fa ops mmd ob mesh axis).totpoly)
    (h0 : (source_mesh fa ops mmd ob mesh axis).poly_offsets.getD 0 0 = 0)
    (hL : (source_mesh fa ops mmd ob mesh axis).poly_offsets.getD
      (source_mesh fa ops mmd ob mesh axis).totpoly 0 = (source_mesh fa ops mmd ob mesh axis).totloop) :
    ((BKE_mesh_mirror_apply_mirror_on_axis_for_modifier fa ops mmd ob mesh axis uco wmm).1.poly
        i).start = ((source_mesh fa ops mmd ob mesh axis).poly i).start ∧
    ((BKE_mesh_mirror_apply_mirror_on_axis_for_modifier fa ops mmd ob mesh axis uco wmm).1.poly
        i).size = ((source_mesh fa ops mmd ob mesh axis).poly i).size ∧
    ((BKE_mesh_mirror_apply_mirror_on_axis_for_modifier fa ops mmd ob mesh axis uco wmm).1.poly
        ((source_mesh fa ops mmd ob mesh axis).totpoly + i)).start =
      ((source_mesh fa ops mmd ob mesh axis).poly i).start +
        (source_mesh fa ops mmd ob mesh axis).totloop ∧
    ((BKE_mesh_mirror_apply_mirror_on_axis_for_modifier fa ops mmd ob mesh axis uco wmm).1.poly
        ((source_mesh fa ops mmd ob mesh axis).totpoly + i)).size =
      ((source_mesh fa ops mmd ob mesh axis).poly i).size := by
  exact result_face_ranges fa ops mmd ob mesh axis uco wmm i hi h0 hL

theorem C5_face_ranges_witness :
    1 < (source_mesh binary32 example_ops example_mmd example_ob example_mesh 0).totpoly ∧
    (source_mesh binary32 example_ops example_mmd example_ob example_mesh 0).poly_offsets.getD 0 0 = 0 ∧
    (source_mesh binary32 example_ops example_mmd example_ob example_mesh 0).poly_offsets.getD
      (source_mesh binary32 example_ops example_mmd example_ob example_mesh 0).totpoly 0 =
      (source_mesh binary32 example_ops example_mmd example_ob example_mesh 0).totloop ∧
    ((BKE_mesh_mirror_apply_mirror_on_axis_for_modifier binary32 example_ops example_mmd example_ob
        example_mesh 0 true true).1.poly 1).start =
      ((source_mesh binary32 example_ops example_mmd example_ob example_mesh 0).poly 1).start ∧
    ((BKE_mesh_mirror_apply_mirror_on_axis_for_modifier binary32 example_ops example_mmd example_ob
        example_mesh 0 true true).1.poly 1).size =
      ((source_mesh binary32 example_ops example_mmd example_ob example_mesh 0).poly 1).size ∧
    ((BKE_mesh_mirror_apply_mirror_on_axis_for_modifier binary32 example_ops example_mmd example_ob
        example_mesh 0 true true).1.poly
        ((source_mesh binary32 example_ops example_mmd example_ob example_mesh 0).totpoly + 1)).start =
      ((source_mesh binary32 example_ops example_mmd example_ob example_mesh 0).poly 1).start +
        (source_mesh binary32 example_ops example_mmd example_ob example_mesh 0).totloop ∧
    ((BKE_mesh_mirror_apply_mirror_on_axis_for_modifier binary32 example_ops example_mmd example_ob
        example_mesh 0 true true).1.poly
        ((source_mesh binary32 example_ops example_mmd example_ob example_mesh 0).totpoly + 1)).size =
      ((source_mesh binary32 example_ops example_mmd example_ob example_mesh 0).poly 1).size :=
  ⟨by decide, by decide, by decide,
    C5_face_ranges binary32 example_ops example_mmd example_ob example_mesh 0 true true 1
      (by decide) (by decide) (by decide)⟩

/-- C6. Edge re-indexing: for every source edge `k < E` with vertex pair `(a, b)`, output
edge `k` is `(a, b)` unchanged and output edge `E + k` is `(a + N, b + N)`, where `N` is the
source vertex count. -/
theorem C6_edge_reindex (fa : FloatArith) (ops : Collaborators) (mmd : MirrorModifierData)
    (ob : Object) (mesh : Mesh) (axis : Fin 3) (uco wmm : Bool) (k : Nat) (a b : Int)
    (hk : k < (source_mesh fa ops mmd ob mesh axis).totedge)
    (he : (source_mesh fa ops mmd ob mesh axis).edges[k]? = some (a, b)) :
    (BKE_mesh_mirror_apply_mirror_on_axis_for_modifier fa ops mmd ob mesh axis uco
        wmm).1.edges[k]? = some (a, b) ∧
    (BKE_mesh_mirror_apply_mirror_on_axis_for_modifier fa ops mmd ob mesh axis uco
        wmm).1.edges[(source_mesh fa ops mmd ob mesh axis).totedge + k]? =
      some (a + ((source_mesh fa ops mmd ob mesh axis).totvert : Int),
        b + ((source_mesh fa ops mmd ob mesh axis).totvert : Int)) := by
  have hsrc : (source_mesh fa ops mmd ob mesh axis).edges.getD k (0, 0) = (a, b) := by
    simp [List.getD_eq_getElem?_getD, he]
  have hd := doubled_edges_spec (source_mesh fa ops mmd ob mesh axis)
  have h0 := (hd.2 k hk).1
  have h1 := (hd.2 k hk).2
  rw [hsrc] at h0 h1
  rw [(result_non_corner fa ops mmd ob mesh axis uco wmm).2.2.2.2.1, adjust_edges_spec,
    adjust_edges_spec, hd.1, h0, h1]
  have c1 : ¬ ((source_mesh fa ops mmd ob mesh axis).totedge ≤ k ∧
      k < (source_mesh fa ops mmd ob mesh axis).totedge * 2) := by omega
  have c2 : (source_mesh fa ops mmd ob mesh axis).totedge ≤
      (source_mesh fa ops mmd ob mesh axis).totedge + k ∧
      (source_mesh fa ops mmd ob mesh axis).totedge + k <
        (source_mesh fa ops mmd ob mesh axis).totedge * 2 := by omega
  simp only [c1, c2, and_self, if_true, if_false, Option.map_some', int2_add]

theorem C6_edge_reindex_witness :
    4 < (source_mesh binary32 example_ops example_mmd example_ob example_mesh 0).totedge ∧
    (source_mesh binary32 example_ops example_mmd example_ob example_mesh 0).edges[4]? = some (1, 4) ∧
    (BKE_mesh_mirror_apply_mirror_on_axis_for_modifier binary32 example_ops example_mmd example_ob
        example_mesh 0 true true).1.edges[4]? = some (1, 4) ∧
    (BKE_mesh_mirror_apply_mirror_on_axis_for_modifier binary32 example_ops example_mmd example_ob
        example_mesh 0 true true).1.edges[
          (source_mesh binary32 example_ops example_mmd example_ob example_mesh 0).totedge + 4]? =
      some (1 + ((source_mesh binary32 example_ops example_mmd example_ob example_mesh 0).totvert : Int),
        4 + ((source_mesh binary32 example_ops example_mmd example_ob example_mesh 0).totvert : Int)) :=
  ⟨by decide, by decide,
    C6_edge_reindex binary32 example_ops example_mmd example_ob example_mesh 0 true true 4 1 4
      (by decide) (by decide)⟩

/-- C7. Shape of the vertex merge map: when merging is active the map has `2N` entries and,
for every `i < N` (source position `p`, pair merged when `|p - M p|² < tolerance_sq`, the
`float` product `tolerance * tolerance`):
with `use_correct_order_on_merge` set, entry `i` is `-1` and entry `N + i` is `i` if the pair
merged and `-1` otherwise; with it unset, entry `N + i` is `-1` and entry `i` is `N + i` if
the pair merged and `-1` otherwise. Hence a merged pair has exactly one slot holding the
index of its counterpart, and an unmerged pair has both slots `-1`. -/
theorem C7_merge_map_shape (fa : FloatArith) (ops : Collaborators) (mmd : MirrorModifierData)
    (ob : Object)
    (mesh : Mesh) (axis : Fin 3) (uco wmm : Bool) (hmerge : do_vtargetmap mmd wmm = true) :
    ∃ map len,
      (BKE_mesh_mirror_apply_mirror_on_axis_for_modifier fa ops mmd ob mesh axis uco wmm).2 =
        some (map, len) ∧
      map.length = 2 * (source_mesh fa ops mmd ob mesh axis).totvert ∧
      ∀ i p, i < (source_mesh fa ops mmd ob mesh axis).totvert →
        (source_mesh fa ops mmd ob mesh axis).positions[i]? = some p →
        (uco = true →
          map[i]? = some (-1) ∧
          map[(source_mesh fa ops mmd ob mesh axis).totvert + i]? =
            some (if len_squared_v3v3 p (mul_m4_v3 (mirror_mtx mmd ob axis) p) <
              fa.mul mmd.tolerance mmd.tolerance then (i : Int) else -1)) ∧
        (uco = false →
          map[(source_mesh fa ops mmd ob mesh axis).totvert + i]? = some (-1) ∧
          map[i]? =
            some (if len_squared_v3v3 p (mul_m4_v3 (mirror_mtx mmd ob axis) p) <
              fa.mul mmd.tolerance mmd.tolerance
              then ((source_mesh fa ops mmd ob mesh axis).totvert : Int) + (i : Int) else -1)) ∧
        (len_squared_v3v3 p (mul_m4_v3 (mirror_mtx mmd ob axis) p) <
            fa.mul mmd.tolerance mmd.tolerance →
          (map[i]? = some (-1) ∧
            map[(source_mesh fa ops mmd ob mesh axis).totvert + i]? = some (i : Int)) ∨
          (map[(source_mesh fa ops mmd ob mesh axis).totvert + i]? = some (-1) ∧
            map[i]? = some (((source_mesh fa ops mmd ob mesh axis).totvert : Int) + (i : Int)))) ∧
        (¬ len_squared_v3v3 p (mul_m4_v3 (mirror_mtx mmd ob axis) p) <
            fa.mul mmd.tolerance mmd.tolerance →
          map[i]? = some (-1) ∧
          map[(source_mesh fa ops mmd ob mesh axis).totvert + i]? = some (-1)) := by
  have hspec := vert_pass_spec fa ops mmd ob mesh axis uco wmm
  refine ⟨(vert_pass fa ops mmd ob mesh axis uco wmm).vert_merge_map,
    (vert_pass fa ops mmd ob mesh axis uco wmm).vert_merge_map_len, ?_, ?_, ?_⟩
  · rw [result_merge_map, hmerge]; rfl
  · rw [hspec.1]; omega
  · intro i p hi hp
    have hsrc : (source_mesh fa ops mmd ob mesh axis).positions.getD i 0 = p := by
      simp [List.getD_eq_getElem?_getD, hp]
    have h := hspec.2.2.1 hmerge i p hi hsrc
    unfold merge_test at h
    rw [h.1, h.2]
    cases uco <;>
      by_cases hm : len_squared_v3v3 p (mul_m4_v3 (mirror_mtx mmd ob axis) p) <
        fa.mul mmd.tolerance mmd.tolerance <;>
      simp [hm]

theorem C7_merge_map_shape_witness :
    do_vtargetmap example_mmd true = true ∧
    ∃ map len,
      (BKE_mesh_mirror_apply_mirror_on_axis_for_modifier binary32 example_ops example_mmd example_ob
        example_mesh 0 true true).2 = some (map, len) ∧
      map.length = 2 * (source_mesh binary32 example_ops example_mmd example_ob example_mesh 0).totvert ∧
      ∀ i p, i < (source_mesh binary32 example_ops example_mmd example_ob example_mesh 0).totvert →
        (source_mesh binary32 example_ops example_mmd example_ob example_mesh 0).positions[i]? = some p →
        (true = true →
          map[i]? = some (-1) ∧
          map[(source_mesh binary32 example_ops example_mmd example_ob example_mesh 0).totvert + i]? =
            some (if len_squared_v3v3 p (mul_m4_v3 (mirror_mtx example_mmd example_ob 0) p) <
              binary32.mul example_mmd.tolerance example_mmd.tolerance then (i : Int) else -1)) ∧
        (true = false →
          map[(source_mesh binary32 example_ops example_mmd example_ob example_mesh 0).totvert + i]? =
            some (-1) ∧
          map[i]? =
            some (if len_squared_v3v3 p (mul_m4_v3 (mirror_mtx example_mmd example_ob 0) p) <
              binary32.mul example_mmd.tolerance example_mmd.tolerance
              then ((source_mesh binary32 example_ops example_mmd example_ob example_mesh 0).totvert : Int)
                + (i : Int) else -1)) ∧
        (len_squared_v3v3 p (mul_m4_v3 (mirror_mtx example_mmd example_ob 0) p) <
            binary32.mul example_mmd.tolerance example_mmd.tolerance →
          (map[i]? = some (-1) ∧
            map[(source_mesh binary32 example_ops example_mmd example_ob example_mesh 0).totvert + i]? =
              some (i : Int)) ∨
          (map[(source_mesh binary32 example_ops example_mmd example_ob example_mesh 0).totvert + i]? =
              some (-1) ∧
            map[i]? = some (((source_mesh binary32 example_ops example_mmd example_ob example_mesh
              0).totvert : Int) + (i : Int)))) ∧
        (¬ len_squared_v3v3 p (mul_m4_v3 (mirror_mtx example_mmd example_ob 0) p) <
            binary32.mul example_mmd.tolerance example_mmd.tolerance →
          map[i]? = some (-1) ∧
          map[(source_mesh binary32 example_ops example_mmd example_ob example_mesh 0).totvert + i]? =
            some (-1)) :=
  ⟨by decide,
    C7_merge_map_shape binary32 example_ops example_mmd example_ob example_mesh 0 true true (by decide)⟩

/-- C9. Merge averaging: when merging is active, for every source vertex `i` at position `p`
with mirrored position `q = M p` (exact arithmetic): if the pair merged, output positions `i`
and `N + i` both equal the midpoint `(p + q) / 2`; otherwise output position `i` is `p` and
output position `N + i` is `q`. -/
theorem C9_merge_average (fa : FloatArith) (ops : Collaborators) (mmd : MirrorModifierData)
    (ob : Object) (mesh : Mesh) (axis : Fin 3) (uco wmm : Bool) (i : Nat) (p : float3)
    (hmerge : do_vtargetmap mmd wmm = true)
    (hi : i < (source_mesh fa ops mmd ob mesh axis).totvert)
    (hp : (source_mesh fa ops mmd ob mesh axis).positions[i]? = some p) :
    (len_squared_v3v3 p (mul_m4_v3 (mirror_mtx mmd ob axis) p) < fa.mul mmd.tolerance mmd.tolerance →
      (BKE_mesh_mirror_apply_mirror_on_axis_for_modifier fa ops mmd ob mesh axis uco
          wmm).1.positions[i]? =
        some (fun k => (p k + mul_m4_v3 (mirror_mtx mmd ob axis) p k) / 2) ∧
      (BKE_mesh_mirror_apply_mirror_on_axis_for_modifier fa ops mmd ob mesh axis uco
          wmm).1.positions[(source_mesh fa ops mmd ob mesh axis).totvert + i]? =
        some (fun k => (p k + mul_m4_v3 (mirror_mtx mmd ob axis) p k) / 2)) ∧
    (¬ len_squared_v3v3 p (mul_m4_v3 (mirror_mtx mmd ob axis) p) <
        fa.mul mmd.tolerance mmd.tolerance →
      (BKE_mesh_mirror_apply_mirror_on_axis_for_modifier fa ops mmd ob mesh axis uco
          wmm).1.positions[i]? = some p ∧
      (BKE_mesh_mirror_apply_mirror_on_axis_for_modifier fa ops mmd ob mesh axis uco
          wmm).1.positions[(source_mesh fa ops mmd ob mesh axis).totvert + i]? =
        some (mul_m4_v3 (mirror_mtx mmd ob axis) p)) := by
  have hsrc : (source_mesh fa ops mmd ob mesh axis).positions.getD i 0 = p := by
    simp [List.getD_eq_getElem?_getD, hp]
  have h := (vert_pass_spec fa ops mmd ob mesh axis uco wmm).2.1 i p hi hsrc
  unfold merge_test at h
  rw [hmerge, mid_v3_v3v3_eq] at h
  rw [result_positions, h.1, h.2]
  constructor
  · intro hm; simp [hm]
  · intro hm; simp [hm]

theorem C9_merge_average_witness :
    do_vtargetmap example_mmd true = true ∧
    3 < (source_mesh binary32 example_ops example_mmd example_ob example_mesh 0).totvert ∧
    (source_mesh binary32 example_ops example_mmd example_ob example_mesh 0).positions[3]? =
      some ![0, 1, 0] ∧
    (len_squared_v3v3 ![0, 1, 0] (mul_m4_v3 (mirror_mtx example_mmd example_ob 0) ![0, 1, 0]) <
        binary32.mul example_mmd.tolerance example_mmd.tolerance →
      (BKE_mesh_mirror_apply_mirror_on_axis_for_modifier binary32 example_ops example_mmd example_ob
          example_mesh 0 false true).1.positions[3]? =
        some (fun k => ((![0, 1, 0] : float3) k +
          mul_m4_v3 (mirror_mtx example_mmd example_ob 0) ![0, 1, 0] k) / 2) ∧
      (BKE_mesh_mirror_apply_mirror_on_axis_for_modifier binary32 example_ops example_mmd example_ob
          example_mesh 0 false true).1.positions[
            (source_mesh binary32 example_ops example_mmd example_ob example_mesh 0).totvert + 3]? =
        some (fun k => ((![0, 1, 0] : float3) k +
          mul_m4_v3 (mirror_mtx example_mmd example_ob 0) ![0, 1, 0] k) / 2)) ∧
    (¬ len_squared_v3v3 ![0, 1, 0]
          (mul_m4_v3 (mirror_mtx example_mmd example_ob 0) ![0, 1, 0]) <
        binary32.mul example_mmd.tolerance example_mmd.tolerance →
      (BKE_mesh_mirror_apply_mirror_on_axis_for_modifier binary32 example_ops example_mmd example_ob
          example_mesh 0 false true).1.positions[3]? = some ![0, 1, 0] ∧
      (BKE_mesh_mirror_apply_mirror_on_axis_for_modifier binary32 example_ops example_mmd example_ob
          example_mesh 0 false true).1.positions[
            (source_mesh binary32 example_ops example_mmd example_ob example_mesh 0).totvert + 3]? =
        some (mul_m4_v3 (mirror_mtx example_mmd example_ob 0) ![0, 1, 0])) :=
  ⟨by decide, by decide, rfl,
    C9_merge_average binary32 example_ops example_mmd example_ob example_mesh 0 false true 3
      ![0, 1, 0] (by decide) (by decide) rfl⟩

/-- C10. Merge count: when merging is active, the value returned through
`r_vert_merge_map_len` equals the number of merged vertex pairs (pairs with
`|p - M p|² < tolerance_sq`, the `float` product `tolerance * tolerance`), which equals the
number of entries of the `2N`-entry merge map that are not `-1`, and is at most `N`. -/
theorem C10_merge_count (fa : FloatArith) (ops : Collaborators) (mmd : MirrorModifierData)
    (ob : Object)
    (mesh : Mesh) (axis : Fin 3) (uco wmm : Bool) (hmerge : do_vtargetmap mmd wmm = true) :
    ∃ map len,
      (BKE_mesh_mirror_apply_mirror_on_axis_for_modifier fa ops mmd ob mesh axis uco wmm).2 =
        some (map, len) ∧
      map.length = 2 * (source_mesh fa ops mmd ob mesh axis).totvert ∧
      len = (List.range (source_mesh fa ops mmd ob mesh axis).totvert).countP
        (fun i => decide (len_squared_v3v3
          ((source_mesh fa ops mmd ob mesh axis).positions.getD i 0)
          (mul_m4_v3 (mirror_mtx mmd ob axis)
            ((source_mesh fa ops mmd ob mesh axis).positions.getD i 0)) <
          fa.mul mmd.tolerance mmd.tolerance)) ∧
      len = map.countP (fun x => decide (x ≠ -1)) ∧
      len ≤ (source_mesh fa ops mmd ob mesh axis).totvert := by
  have hspec := vert_pass_spec fa ops mmd ob mesh axis uco wmm
  have hlen := hspec.2.2.2 hmerge
  have hmap := eq_map_range_append (vert_pass fa ops mmd ob mesh axis uco wmm).vert_merge_map
    (source_mesh fa ops mmd ob mesh axis).totvert _ _ hspec.1
    (fun i hi => hspec.2.2.1 hmerge i _ hi rfl)
  refine ⟨(vert_pass fa ops mmd ob mesh axis uco wmm).vert_merge_map,
    (vert_pass fa ops mmd ob mesh axis uco wmm).vert_merge_map_len, ?_, ?_, ?_, ?_, ?_⟩
  · rw [result_merge_map, hmerge]; rfl
  · rw [hspec.1]; omega
  · rw [hlen]; rfl
  · rw [hlen, hmap, List.countP_append, List.countP_map, List.countP_map]
    cases uco
    · have h0 : List.countP ((fun x : Int => decide (x ≠ -1)) ∘ fun _ => (-1 : Int))
          (List.range (source_mesh fa ops mmd ob mesh axis).totvert) = 0 := by
        rw [List.countP_eq_zero]; intro i _; simp
      simp only [Bool.false_eq_true, if_false]
      rw [h0, Nat.add_zero]
      apply List.countP_congr
      intro i _
      simp only [Function.comp]
      split <;> simp_all
      omega
    · have h0 : List.countP ((fun x : Int => decide (x ≠ -1)) ∘ fun _ => (-1 : Int))
          (List.range (source_mesh fa ops mmd ob mesh axis).totvert) = 0 := by
        rw [List.countP_eq_zero]; intro i _; simp
      simp only [if_true]
      rw [h0, Nat.zero_add]
      apply List.countP_congr
      intro i _
      simp only [Function.comp]
      split <;> simp_all
  · rw [hlen]
    exact (List.countP_le_length _).trans (by simp)

theorem C10_merge_count_witness :
    do_vtargetmap example_mmd true = true ∧
    ∃ map len,
      (BKE_mesh_mirror_apply_mirror_on_axis_for_modifier binary32 example_ops example_mmd example_ob
        example_mesh 0 true true).2 = some (map, len) ∧
      map.length = 2 * (source_mesh binary32 example_ops example_mmd example_ob example_mesh 0).totvert ∧
      len = (List.range (source_mesh binary32 example_ops example_mmd example_ob example_mesh
          0).totvert).countP
        (fun i => decide (len_squared_v3v3
          ((source_mesh binary32 example_ops example_mmd example_ob example_mesh 0).positions.getD i 0)
          (mul_m4_v3 (mirror_mtx example_mmd example_ob 0)
            ((source_mesh binary32 example_ops example_mmd example_ob example_mesh 0).positions.getD i
              0)) <
          binary32.mul example_mmd.tolerance example_mmd.tolerance)) ∧
      len = map.countP (fun x => decide (x ≠ -1)) ∧
      len ≤ (source_mesh binary32 example_ops example_mmd example_ob example_mesh 0).totvert :=
  ⟨by decide,
    C10_merge_count binary32 example_ops example_mmd example_ob example_mesh 0 true true (by decide)⟩

/-- C11 (as amended). With merging active and `tolerance = 0` no vertex is recorded as
merged, because the test `|p - M p|² < tolerance_sq` is strict and the `float` product
`tolerance_sq = 0 * 0` is `0`: every entry of the merge map is
`-1`, the merge count is `0`, and every pair keeps its positions `p` and `M p`, also for a
vertex whose mirrored position equals its original position. -/
theorem C11_zero_tolerance_merges_nothing (ops : Collaborators)
    (mmd : MirrorModifierData) (ob : Object) (mesh : Mesh) (axis : Fin 3) (uco wmm : Bool)
    (hmerge : do_vtargetmap mmd wmm = true) (htol : mmd.tolerance = 0) :
    ∃ map len,
      (BKE_mesh_mirror_apply_mirror_on_axis_for_modifier binary32 ops mmd ob mesh axis uco wmm).2 =
        some (map, len) ∧
      len = 0 ∧
      (∀ i, i < (source_mesh binary32 ops mmd ob mesh axis).totvert →
        map[i]? = some (-1) ∧
        map[(source_mesh binary32 ops mmd ob mesh axis).totvert + i]? = some (-1)) ∧
      (∀ i p, i < (source_mesh binary32 ops mmd ob mesh axis).totvert →
        (source_mesh binary32 ops mmd ob mesh axis).positions[i]? = some p →
        (BKE_mesh_mirror_apply_mirror_on_axis_for_modifier binary32 ops mmd ob mesh axis uco
            wmm).1.positions[i]? = some p ∧
        (BKE_mesh_mirror_apply_mirror_on_axis_for_modifier binary32 ops mmd ob mesh axis uco
            wmm).1.positions[(source_mesh binary32 ops mmd ob mesh axis).totvert + i]? =
          some (mul_m4_v3 (mirror_mtx mmd ob axis) p)) := by
  have hspec := vert_pass_spec binary32 ops mmd ob mesh axis uco wmm
  refine ⟨(vert_pass binary32 ops mmd ob mesh axis uco wmm).vert_merge_map,
    (vert_pass binary32 ops mmd ob mesh axis uco wmm).vert_merge_map_len,
    result_merge_map_active binary32 ops mmd ob mesh axis uco wmm hmerge, ?_, ?_, ?_⟩
  · rw [hspec.2.2.2 hmerge, htol, binary32_mul_zero_zero, List.countP_eq_zero]
    intro i _
    rw [merge_test_zero]
    simp
  · intro i hi
    have h := hspec.2.2.1 hmerge i _ hi rfl
    rw [htol, binary32_mul_zero_zero, merge_test_zero] at h
    rw [h.1, h.2]
    cases uco <;> simp
  · intro i p hi hp
    have hsrc : (source_mesh binary32 ops mmd ob mesh axis).positions.getD i 0 = p := by
      simp [List.getD_eq_getElem?_getD, hp]
    have h := hspec.2.1 i p hi hsrc
    rw [htol, binary32_mul_zero_zero, merge_test_zero] at h
    rw [result_positions, h.1, h.2]
    simp

theorem C11_zero_tolerance_merges_nothing_witness :
    do_vtargetmap example_mmd_zero_tol true = true ∧
    example_mmd_zero_tol.tolerance = 0 ∧
    ∃ map len,
      (BKE_mesh_mirror_apply_mirror_on_axis_for_modifier binary32 example_ops example_mmd_zero_tol
        example_ob example_mesh 0 true true).2 = some (map, len) ∧
      len = 0 ∧
      (∀ i, i < (source_mesh binary32 example_ops example_mmd_zero_tol example_ob example_mesh
          0).totvert →
        map[i]? = some (-1) ∧
        map[(source_mesh binary32 example_ops example_mmd_zero_tol example_ob example_mesh 0).totvert +
          i]? = some (-1)) ∧
      (∀ i p, i < (source_mesh binary32 example_ops example_mmd_zero_tol example_ob example_mesh
          0).totvert →
        (source_mesh binary32 example_ops example_mmd_zero_tol example_ob example_mesh
          0).positions[i]? = some p →
        (BKE_mesh_mirror_apply_mirror_on_axis_for_modifier binary32 example_ops example_mmd_zero_tol
            example_ob example_mesh 0 true true).1.positions[i]? = some p ∧
        (BKE_mesh_mirror_apply_mirror_on_axis_for_modifier binary32 example_ops example_mmd_zero_tol
            example_ob example_mesh 0 true true).1.positions[
              (source_mesh binary32 example_ops example_mmd_zero_tol example_ob example_mesh
                0).totvert + i]? =
          some (mul_m4_v3 (mirror_mtx example_mmd_zero_tol example_ob 0) p)) :=
  ⟨by decide, rfl,
    C11_zero_tolerance_merges_nothing example_ops example_mmd_zero_tol example_ob example_mesh
      0 true true (by decide) rfl⟩

/-- Counterexample to C11 as stated: with merging active and `tolerance = 0`, vertex 0 of
`example_mesh` lies on the mirror plane (its mirrored position equals its position), yet it
is not recorded as merged: both of its map slots are `-1` and the merge count is `0`. -/
theorem C11_zero_tolerance_counterexample :
    do_vtargetmap example_mmd_zero_tol true = true ∧
    example_mmd_zero_tol.tolerance = 0 ∧
    example_mesh.positions[0]? = some ![0, 0, 0] ∧
    mul_m4_v3 (mirror_mtx example_mmd_zero_tol example_ob 0) ![0, 0, 0] = ![0, 0, 0] ∧
    ∃ map len,
      (BKE_mesh_mirror_apply_mirror_on_axis_for_modifier binary32 example_ops example_mmd_zero_tol
        example_ob example_mesh 0 true true).2 = some (map, len) ∧
      map[0]? = some (-1) ∧ map[5 + 0]? = some (-1) ∧ len = 0 := by
  have hmerge : do_vtargetmap example_mmd_zero_tol true = true := by decide
  have hspec := vert_pass_spec binary32 example_ops example_mmd_zero_tol example_ob example_mesh 0
    true true
  have hmtx : mirror_mtx example_mmd_zero_tol example_ob 0 = axis_flip_mtx 0 := rfl
  refine ⟨hmerge, rfl, rfl, ?_, (vert_pass binary32 example_ops example_mmd_zero_tol example_ob
      example_mesh 0 true true).vert_merge_map,
    (vert_pass binary32 example_ops example_mmd_zero_tol example_ob example_mesh 0 true
      true).vert_merge_map_len,
    result_merge_map_active binary32 _ _ _ _ _ _ _ hmerge, ?_, ?_, ?_⟩
  · rw [hmtx, mul_axis_flip_mtx]
    funext k
    fin_cases k <;> simp
  · have h := (hspec.2.2.1 hmerge 0 _ (by decide) rfl).1
    rw [h]; rfl
  · have h := (hspec.2.2.1 hmerge 0 _ (by decide) rfl).2
    have ht : example_mmd_zero_tol.tolerance = 0 := rfl
    rw [ht, binary32_mul_zero_zero, merge_test_zero] at h
    exact h
  · have ht : example_mmd_zero_tol.tolerance = 0 := rfl
    rw [hspec.2.2.2 hmerge, ht, binary32_mul_zero_zero, List.countP_eq_zero]
    intro i _
    rw [merge_test_zero]
    simp

/-- C13 (as amended). UV mirror without UDIM, every operation being a `float` operation
whose result is rounded: for every UV layer `a` of the source (with content `sl`) the result
has a layer `a`, `ol`, such that (1) when a flip flag is set or `uv_offset_copy` is not zero,
every corner `c` of the mirrored half `[L, 2L)` whose copied value (the value the reversal
loop put there, `reversed_layer`) is `uv` ends with
`((1 ⊖ u) ⊕ uv_offset[0] if MIRROR_U else u) ⊕ uv_offset_copy[0]` and
`((1 ⊖ v) ⊕ uv_offset[1] if MIRROR_V else v) ⊕ uv_offset_copy[1]`, where `⊖` and `⊕` are the
subtraction and the addition of the arithmetic `fa` (rounded for `binary32`, so that the
value is `1 - u + uv_offset + uv_offset_copy` only up to rounding; equal to it in exact
arithmetic); (2) that copied value, at corner `t` of mirrored face `i`, is the source UV of
corner `0` (if `t = 0`) or `n - t` of face `i`; (3) every corner of the first half `[0, L)`
keeps its source UV; (4) when neither flip flag is set and `uv_offset_copy` is zero, the
layer is exactly the copied layer. -/
theorem C13_uv_mirror (fa : FloatArith) (ops : Collaborators) (mmd : MirrorModifierData)
    (ob : Object) (mesh : Mesh) (axis : Fin 3) (uco wmm : Bool) (a : Nat) (sl : List float2)
    (hok : (source_mesh fa ops mmd ob mesh axis).faces_ok)
    (hudim : flag_test mmd.flag MOD_MIR_MIRROR_UDIM = false)
    (ha : (source_mesh fa ops mmd ob mesh axis).uv_layers[a]? = some sl) :
    ∃ ol : List float2,
      (BKE_mesh_mirror_apply_mirror_on_axis_for_modifier fa ops mmd ob mesh axis uco
        wmm).1.uv_layers[a]? = some ol ∧
      ((flag_test mmd.flag MOD_MIR_MIRROR_U = true ∨ flag_test mmd.flag MOD_MIR_MIRROR_V = true ∨
          mmd.uv_offset_copy 0 ≠ 0 ∨ mmd.uv_offset_copy 1 ≠ 0) →
        ∀ c uv, (source_mesh fa ops mmd ob mesh axis).totloop ≤ c →
        c < 2 * (source_mesh fa ops mmd ob mesh axis).totloop →
        (reversed_layer (source_mesh fa ops mmd ob mesh axis) sl 0)[c]? = some uv →
        ol[c]? = some
          ![fa.add (if flag_test mmd.flag MOD_MIR_MIRROR_U then
              fa.add (fa.sub 1 (uv 0)) (mmd.uv_offset 0) else uv 0) (mmd.uv_offset_copy 0),
            fa.add (if flag_test mmd.flag MOD_MIR_MIRROR_V then
              fa.add (fa.sub 1 (uv 1)) (mmd.uv_offset 1) else uv 1) (mmd.uv_offset_copy 1)]) ∧
      (∀ i, i < (source_mesh fa ops mmd ob mesh axis).totpoly →
        ∀ t, t < ((source_mesh fa ops mmd ob mesh axis).poly i).size →
        (reversed_layer (source_mesh fa ops mmd ob mesh axis) sl 0)[
            ((source_mesh fa ops mmd ob mesh axis).poly i).start +
              (source_mesh fa ops mmd ob mesh axis).totloop + t]? =
          some (sl.getD (((source_mesh fa ops mmd ob mesh axis).poly i).start +
            (if t = 0 then 0 else ((source_mesh fa ops mmd ob mesh axis).poly i).size - t))
            default)) ∧
      (∀ c uv, c < (source_mesh fa ops mmd ob mesh axis).totloop → sl[c]? = some uv →
        ol[c]? = some uv) ∧
      (flag_test mmd.flag MOD_MIR_MIRROR_U = false →
        flag_test mmd.flag MOD_MIR_MIRROR_V = false →
        mmd.uv_offset_copy 0 = 0 → mmd.uv_offset_copy 1 = 0 →
        ol = reversed_layer (source_mesh fa ops mmd ob mesh axis) sl 0) := by
  have hres := result_uv_layer fa ops mmd ob mesh axis uco wmm a sl ha
  have hspec := reversed_layer_spec (source_mesh fa ops mmd ob mesh axis) sl (0 : float2) hok
  refine ⟨_, hres, ?_, hspec.2.1, ?_, ?_⟩
  · intro hrun c uv hc1 hc2 hcv
    rw [← mirror_uv_no_udim_eq fa mmd uv hudim]
    split
    · rw [getElem?_mirror_uv_layer, if_pos ⟨hc1, by omega⟩, hcv]
      rfl
    · rename_i hg
      have hg2 := (uv_guard_false mmd).1 (by simpa using hg)
      rcases hrun with h | h | h | h
      · rw [hg2.1] at h; exact absurd h (by decide)
      · rw [hg2.2.1] at h; exact absurd h (by decide)
      · exact absurd hg2.2.2.1 h
      · exact absurd hg2.2.2.2 h
  · intro c uv hc hcv
    have h1 := hspec.2.2 c hc
    have h2 : sl.getD c default = uv := by
      rw [List.getD_eq_getElem?_getD, hcv]
      rfl
    rw [h2] at h1
    split
    · have hn : ¬ ((source_mesh fa ops mmd ob mesh axis).totloop ≤ c ∧
          c < (source_mesh fa ops mmd ob mesh axis).totloop +
            (source_mesh fa ops mmd ob mesh axis).totloop) := by omega
      rw [getElem?_mirror_uv_layer, if_neg hn, h1]
    · exact h1
  · intro hu hv h0 h1
    have hg := (uv_guard_false mmd).2 ⟨hu, hv, h0, h1⟩
    rw [hg]
    rfl

theorem C13_uv_mirror_witness :
    (source_mesh binary32 example_ops example_mmd_uv_offsets example_ob example_uv_mesh 0).faces_ok ∧
    flag_test example_mmd_uv_offsets.flag MOD_MIR_MIRROR_UDIM = false ∧
    (source_mesh binary32 example_ops example_mmd_uv_offsets example_ob example_uv_mesh 0).uv_layers[0]? =
      some [![0, 0], ![1 / 2, 0], ![1 / 4, 1]] ∧
    ∃ ol : List float2,
      (BKE_mesh_mirror_apply_mirror_on_axis_for_modifier binary32 example_ops example_mmd_uv_offsets
        example_ob example_uv_mesh 0 true false).1.uv_layers[0]? = some ol ∧
      ((flag_test example_mmd_uv_offsets.flag MOD_MIR_MIRROR_U = true ∨
          flag_test example_mmd_uv_offsets.flag MOD_MIR_MIRROR_V = true ∨
          example_mmd_uv_offsets.uv_offset_copy 0 ≠ 0 ∨
          example_mmd_uv_offsets.uv_offset_copy 1 ≠ 0) →
        ∀ c uv,
        (source_mesh binary32 example_ops example_mmd_uv_offsets example_ob example_uv_mesh 0).totloop ≤
          c →
        c < 2 *
          (source_mesh binary32 example_ops example_mmd_uv_offsets example_ob example_uv_mesh 0).totloop →
        (reversed_layer
          (source_mesh binary32 example_ops example_mmd_uv_offsets example_ob example_uv_mesh 0)
          [![0, 0], ![1 / 2, 0], ![1 / 4, 1]] 0)[c]? = some uv →
        ol[c]? = some
          ![binary32.add (if flag_test example_mmd_uv_offsets.flag MOD_MIR_MIRROR_U then
              binary32.add (binary32.sub 1 (uv 0)) (example_mmd_uv_offsets.uv_offset 0)
              else uv 0) (example_mmd_uv_offsets.uv_offset_copy 0),
            binary32.add (if flag_test example_mmd_uv_offsets.flag MOD_MIR_MIRROR_V then
              binary32.add (binary32.sub 1 (uv 1)) (example_mmd_uv_offsets.uv_offset 1)
              else uv 1) (example_mmd_uv_offsets.uv_offset_copy 1)]) ∧
      (∀ i,
        i < (source_mesh binary32 example_ops example_mmd_uv_offsets example_ob example_uv_mesh
          0).totpoly →
        ∀ t,
        t < ((source_mesh binary32 example_ops example_mmd_uv_offsets example_ob example_uv_mesh 0).poly
          i).size →
        (reversed_layer
          (source_mesh binary32 example_ops example_mmd_uv_offsets example_ob example_uv_mesh 0)
          [![0, 0], ![1 / 2, 0], ![1 / 4, 1]] 0)[
            ((source_mesh binary32 example_ops example_mmd_uv_offsets example_ob example_uv_mesh 0).poly
                i).start +
              (source_mesh binary32 example_ops example_mmd_uv_offsets example_ob example_uv_mesh
                0).totloop + t]? =
          some (([![0, 0], ![1 / 2, 0], ![1 / 4, 1]] : List float2).getD
            (((source_mesh binary32 example_ops example_mmd_uv_offsets example_ob example_uv_mesh 0).poly
                i).start +
              (if t = 0 then 0
                else ((source_mesh binary32 example_ops example_mmd_uv_offsets example_ob example_uv_mesh
                  0).poly i).size - t))
            default)) ∧
      (∀ c uv,
        c < (source_mesh binary32 example_ops example_mmd_uv_offsets example_ob example_uv_mesh
          0).totloop →
        ([![0, 0], ![1 / 2, 0], ![1 / 4, 1]] : List float2)[c]? = some uv →
        ol[c]? = some uv) ∧
      (flag_test example_mmd_uv_offsets.flag MOD_MIR_MIRROR_U = false →
        flag_test example_mmd_uv_offsets.flag MOD_MIR_MIRROR_V = false →
        example_mmd_uv_offsets.uv_offset_copy 0 = 0 →
        example_mmd_uv_offsets.uv_offset_copy 1 = 0 →
        ol = reversed_layer
          (source_mesh binary32 example_ops example_mmd_uv_offsets example_ob example_uv_mesh 0)
          [![0, 0], ![1 / 2, 0], ![1 / 4, 1]] 0) :=
  ⟨by decide, by decide, rfl,
    C13_uv_mirror binary32 example_ops example_mmd_uv_offsets example_ob example_uv_mesh 0 true false 0
      [![0, 0], ![1 / 2, 0], ![1 / 4, 1]] (by decide) (by decide) rfl⟩

/-- Counterexample to C13 as stated: with `MOD_MIR_MIRROR_U` set, UDIM mode off and all UV
offsets zero, the mirrored corner 3 of `example_uv_mesh_tenth` receives the copied value
`u = 0.1f = 13421773 / 2^27` (a `float`) and ends with `u' = 7549747 / 2^23`, the `float`
nearest to `1 - u`, which is not `1 - u + uv_offset[0] + uv_offset_copy[0] =
120795955 / 2^27`. -/
theorem C13_uv_rounding_counterexample :
    (flag_test example_mmd_flip_uv.flag MOD_MIR_MIRROR_U = true ∧
      flag_test example_mmd_flip_uv.flag MOD_MIR_MIRROR_UDIM = false ∧
      example_mmd_flip_uv.uv_offset 0 = 0 ∧ example_mmd_flip_uv.uv_offset_copy 0 = 0) ∧
    (reversed_layer
        (source_mesh binary32 example_ops example_mmd_flip_uv example_ob example_uv_mesh_tenth 0)
        [![13421773 / 134217728, 0], ![1 / 2, 0], ![1 / 4, 1]] 0)[3]? =
      some ![13421773 / 134217728, 0] ∧
    f32_round (13421773 / 134217728) = 13421773 / 134217728 ∧
    ∃ ol uv',
      (BKE_mesh_mirror_apply_mirror_on_axis_for_modifier binary32 example_ops example_mmd_flip_uv
        example_ob example_uv_mesh_tenth 0 true false).1.uv_layers[0]? = some ol ∧
      ol[3]? = some uv' ∧
      uv' 0 = 7549747 / 8388608 ∧
      uv' 0 ≠ 1 - 13421773 / 134217728 + example_mmd_flip_uv.uv_offset 0 +
        example_mmd_flip_uv.uv_offset_copy 0 := by
  have hu : flag_test example_mmd_flip_uv.flag MOD_MIR_MIRROR_U = true := by decide
  have hudim : flag_test example_mmd_flip_uv.flag MOD_MIR_MIRROR_UDIM = false := by decide
  have hoff : example_mmd_flip_uv.uv_offset 0 = 0 := rfl
  have hcopy : example_mmd_flip_uv.uv_offset_copy 0 = 0 := rfl
  have hrev : (reversed_layer
      (source_mesh binary32 example_ops example_mmd_flip_uv example_ob example_uv_mesh_tenth 0)
      [![13421773 / 134217728, 0], ![1 / 2, 0], ![1 / 4, 1]] 0)[3]? =
      some ![13421773 / 134217728, 0] := rfl
  have hres := result_uv_layer binary32 example_ops example_mmd_flip_uv example_ob
    example_uv_mesh_tenth 0 true false 0 [![13421773 / 134217728, 0], ![1 / 2, 0], ![1 / 4, 1]]
    rfl
  have hguard : (flag_test example_mmd_flip_uv.flag (MOD_MIR_MIRROR_U ||| MOD_MIR_MIRROR_V) ||
      (is_zero_v2 example_mmd_flip_uv.uv_offset_copy == false)) = true := by
    rw [flag_test_or, hu]
    rfl
  rw [hguard, if_pos rfl] at hres
  have hval : mirror_uv binary32 example_mmd_flip_uv ![13421773 / 134217728, 0] 0 =
      7549747 / 8388608 := by
    rw [(mirror_uv_no_udim binary32 _ _ hudim).1, hu, if_pos rfl, hoff, hcopy]
    simp only [Matrix.cons_val_zero]
    rw [binary32_one_sub_tenth]
    simp only [binary32_add, add_zero, f32_round_one_sub_tenth]
  refine ⟨⟨hu, hudim, hoff, hcopy⟩, hrev, f32_round_tenth, _,
    mirror_uv binary32 example_mmd_flip_uv ![13421773 / 134217728, 0], hres, ?_, hval, ?_⟩
  · have hL : (source_mesh binary32 example_ops example_mmd_flip_uv example_ob
        example_uv_mesh_tenth 0).totloop = 3 := rfl
    rw [getElem?_mirror_uv_layer, hL, if_pos ⟨by decide, by decide⟩]
    rfl
  · rw [hval, hoff, hcopy]
    norm_num

/-- C14. UV reflection round trip: with UDIM mode off and the flip offset and the copy
offset equal to zero, the U flip is `u ↦ 1 - u` and applying it twice returns the original
`u` for every `u` (exact arithmetic); the same holds for V, and for the whole UV value
whichever of the two flip flags are set. -/
theorem C14_uv_round_trip (mmd : MirrorModifierData) (uv : float2)
    (hudim : flag_test mmd.flag MOD_MIR_MIRROR_UDIM = false)
    (hoff : mmd.uv_offset 0 = 0 ∧ mmd.uv_offset 1 = 0)
    (hcopy : mmd.uv_offset_copy 0 = 0 ∧ mmd.uv_offset_copy 1 = 0) :
    (flag_test mmd.flag MOD_MIR_MIRROR_U = true →
      mirror_uv exact_arith mmd uv 0 = 1 - uv 0 + mmd.uv_offset 0 ∧
      mirror_uv exact_arith mmd (mirror_uv exact_arith mmd uv) 0 = uv 0) ∧
    (flag_test mmd.flag MOD_MIR_MIRROR_V = true →
      mirror_uv exact_arith mmd uv 1 = 1 - uv 1 + mmd.uv_offset 1 ∧
      mirror_uv exact_arith mmd (mirror_uv exact_arith mmd uv) 1 = uv 1) ∧
    mirror_uv exact_arith mmd (mirror_uv exact_arith mmd uv) = uv := by
  have h1 := mirror_uv_no_udim exact_arith mmd uv hudim
  have h2 := mirror_uv_no_udim exact_arith mmd (mirror_uv exact_arith mmd uv) hudim
  simp only [exact_arith_add, exact_arith_sub] at h1 h2
  rw [hoff.1, hoff.2, hcopy.1, hcopy.2] at h1 h2
  refine ⟨?_, ?_, ?_⟩
  · intro hu
    rw [hu] at h1 h2
    rw [h2.1, h1.1, hoff.1]
    simp
  · intro hv
    rw [hv] at h1 h2
    rw [h2.2, h1.2, hoff.2]
    simp
  · funext k
    fin_cases k
    · show mirror_uv exact_arith mmd (mirror_uv exact_arith mmd uv) 0 = uv 0
      rw [h2.1, h1.1]
      split <;> simp
    · show mirror_uv exact_arith mmd (mirror_uv exact_arith mmd uv) 1 = uv 1
      rw [h2.2, h1.2]
      split <;> simp

theorem C14_uv_round_trip_witness :
    flag_test example_mmd_flip_uv.flag MOD_MIR_MIRROR_UDIM = false ∧
    (example_mmd_flip_uv.uv_offset 0 = 0 ∧ example_mmd_flip_uv.uv_offset 1 = 0) ∧
    (example_mmd_flip_uv.uv_offset_copy 0 = 0 ∧ example_mmd_flip_uv.uv_offset_copy 1 = 0) ∧
    (flag_test example_mmd_flip_uv.flag MOD_MIR_MIRROR_U = true →
      mirror_uv exact_arith example_mmd_flip_uv ![1 / 4, 1 / 3] 0 =
        1 - (![1 / 4, 1 / 3] : float2) 0 + example_mmd_flip_uv.uv_offset 0 ∧
      mirror_uv exact_arith example_mmd_flip_uv (mirror_uv exact_arith example_mmd_flip_uv ![1 / 4, 1 / 3]) 0 =
        (![1 / 4, 1 / 3] : float2) 0) ∧
    (flag_test example_mmd_flip_uv.flag MOD_MIR_MIRROR_V = true →
      mirror_uv exact_arith example_mmd_flip_uv ![1 / 4, 1 / 3] 1 =
        1 - (![1 / 4, 1 / 3] : float2) 1 + example_mmd_flip_uv.uv_offset 1 ∧
      mirror_uv exact_arith example_mmd_flip_uv (mirror_uv exact_arith example_mmd_flip_uv ![1 / 4, 1 / 3]) 1 =
        (![1 / 4, 1 / 3] : float2) 1) ∧
    mirror_uv exact_arith example_mmd_flip_uv (mirror_uv exact_arith example_mmd_flip_uv ![1 / 4, 1 / 3]) =
      ![1 / 4, 1 / 3] :=
  ⟨by decide, ⟨rfl, rfl⟩, ⟨rfl, rfl⟩,
    C14_uv_round_trip example_mmd_flip_uv ![1 / 4, 1 / 3] (by decide) ⟨rfl, rfl⟩ ⟨rfl, rfl⟩⟩

/-- C15. UDIM mirroring is documented to reflect `u` about the centre of the unit tile
containing it (`2 * floor(u) + 1 - u`, staying in the tile). The code's expression
`ceilf(u) - fmodf(u, 1)` does not do so at negative or integer `u`: with `MOD_MIR_MIRROR_U`
and `MOD_MIR_MIRROR_UDIM` set and all offsets zero, `u = -1/4` is sent to `1/4` (the tile
reflection is `-3/4`, and `1/4` lies in another tile), and `u = 1` is sent to `1` (the tile
reflection is `2`). -/
theorem C15_udim_flip_off_tile_centre :
    (flag_test example_mmd_udim.flag MOD_MIR_MIRROR_U = true ∧
      flag_test example_mmd_udim.flag MOD_MIR_MIRROR_UDIM = true ∧
      example_mmd_udim.uv_offset = ![0, 0] ∧ example_mmd_udim.uv_offset_copy = ![0, 0]) ∧
    (mirror_uv binary32 example_mmd_udim ![-1 / 4, 0] 0 = 1 / 4 ∧
      2 * ((⌊(-1 / 4 : ℚ)⌋ : Int) : ℚ) + 1 - (-1 / 4) = -3 / 4 ∧
      ⌊(-1 / 4 : ℚ)⌋ = -1 ∧ ⌊(1 / 4 : ℚ)⌋ = 0) ∧
    (mirror_uv binary32 example_mmd_udim ![1, 0] 0 = 1 ∧
      2 * ((⌊(1 : ℚ)⌋ : Int) : ℚ) + 1 - 1 = 2) := by
  have hu : flag_test example_mmd_udim.flag MOD_MIR_MIRROR_U = true := by decide
  have hudim : flag_test example_mmd_udim.flag MOD_MIR_MIRROR_UDIM = true := by decide
  have hf1 : ⌊(-1 / 4 : ℚ)⌋ = -1 := by
    rw [Int.floor_eq_iff]; norm_num
  have hf2 : ⌊(1 / 4 : ℚ)⌋ = 0 := by
    rw [Int.floor_eq_iff]; norm_num
  refine ⟨⟨hu, hudim, rfl, rfl⟩, ⟨?_, ?_, hf1, hf2⟩, ⟨?_, ?_⟩⟩
  · rw [mirror_uv_udim binary32 _ _ hu hudim]
    simp only [Matrix.cons_val_zero, binary32_add, binary32_sub]
    rw [udim_flip_closed_form, hf1]
    have e : (if (((-1 : Int) : ℚ)) = -1 / 4 then (-1 / 4 : ℚ)
        else if (0 : ℚ) ≤ -1 / 4 then 2 * (((-1 : Int) : ℚ)) + 1 - -1 / 4
        else 2 * (((-1 : Int) : ℚ)) + 2 - -1 / 4) = 1 / 4 := by
      norm_num
    rw [e]
    simp only [example_mmd_udim, Matrix.cons_val_zero, add_zero, f32_round_quarter]
  · rw [hf1]; norm_num
  · rw [mirror_uv_udim binary32 _ _ hu hudim]
    simp only [Matrix.cons_val_zero, binary32_add, binary32_sub]
    rw [udim_flip_closed_form]
    have e : (if (((⌊(1 : ℚ)⌋ : Int)) : ℚ) = 1 then (1 : ℚ)
        else if (0 : ℚ) ≤ 1 then 2 * (((⌊(1 : ℚ)⌋ : Int)) : ℚ) + 1 - 1
        else 2 * (((⌊(1 : ℚ)⌋ : Int)) : ℚ) + 2 - 1) = 1 := by
      simp
    rw [e]
    simp only [example_mmd_udim, Matrix.cons_val_zero, add_zero, f32_round_one]
  · norm_num

/-- C16. The flip offset is documented to move the UV flipping point from `0.5` by the
offset amount (`u' = 2 * (0.5 + uv_offset[0]) - u`). The code computes
`1 - u + uv_offset[0]`, whose flipping point is `0.5 + uv_offset[0] / 2`: with
`MOD_MIR_MIRROR_U` set, UDIM off, zero copy offset and `uv_offset[0] = 1/2`, `u = 0` is sent
to `3/2` (the documented reflection gives `2`), the documented fixed point `1` is sent to
`1/2`, and the point left fixed is `3/4`. -/
theorem C16_flip_offset_half_shift :
    (flag_test example_mmd_flip_offset.flag MOD_MIR_MIRROR_U = true ∧
      flag_test example_mmd_flip_offset.flag MOD_MIR_MIRROR_UDIM = false ∧
      example_mmd_flip_offset.uv_offset 0 = 1 / 2 ∧
      example_mmd_flip_offset.uv_offset_copy = ![0, 0]) ∧
    (mirror_uv binary32 example_mmd_flip_offset ![0, 0] 0 = 3 / 2 ∧
      2 * (1 / 2 + example_mmd_flip_offset.uv_offset 0) - (0 : ℚ) = 2) ∧
    mirror_uv binary32 example_mmd_flip_offset ![1, 0] 0 = 1 / 2 ∧
    mirror_uv binary32 example_mmd_flip_offset ![3 / 4, 0] 0 = 3 / 4 := by
  have hu : flag_test example_mmd_flip_offset.flag MOD_MIR_MIRROR_U = true := by decide
  have hudim : flag_test example_mmd_flip_offset.flag MOD_MIR_MIRROR_UDIM = false := by decide
  have hoff : example_mmd_flip_offset.uv_offset 0 = 1 / 2 := rfl
  have hcopy : example_mmd_flip_offset.uv_offset_copy 0 = 0 := rfl
  refine ⟨⟨hu, hudim, hoff, rfl⟩, ⟨?_, ?_⟩, ?_, ?_⟩
  · rw [(mirror_uv_no_udim binary32 _ _ hudim).1, hu, if_pos rfl, hoff, hcopy]
    simp only [Matrix.cons_val_zero, binary32_add, binary32_sub, sub_zero, add_zero,
      f32_round_one]
    rw [show (1 + 1 / 2 : ℚ) = 3 / 2 by norm_num, f32_round_three_halves,
      f32_round_three_halves]
  · rw [hoff]; norm_num
  · rw [(mirror_uv_no_udim binary32 _ _ hudim).1, hu, if_pos rfl, hoff, hcopy]
    simp only [Matrix.cons_val_zero, binary32_add, binary32_sub, sub_self, add_zero, zero_add,
      f32_round_zero, f32_round_half]
  · rw [(mirror_uv_no_udim binary32 _ _ hudim).1, hu, if_pos rfl, hoff, hcopy]
    simp only [Matrix.cons_val_zero, binary32_add, binary32_sub, add_zero]
    rw [show (1 - 3 / 4 : ℚ) = 1 / 4 by norm_num, f32_round_quarter,
      show (1 / 4 + 1 / 2 : ℚ) = 3 / 4 by norm_num, f32_round_three_quarters,
      f32_round_three_quarters]

/-- C17 (as amended). When the vertex-group step executes (the object supports vertex
groups, `MOD_MIR_VGROUP` is set, the mesh has a deform-vert layer and the object has a flip
map), it rewrites for each source vertex `i` in `[0, N)` exactly one of the entries `i` and
`N + i`, the other keeping the copy of source entry `i`: when `use_correct_order_on_merge`
is set, a merge map is built and slot `N + i` of it is not `-1`, entry `i` of the original
half is flip-merged and entry `N + i` is left as copied; otherwise entry `N + i` of the
mirrored half is rewritten (flip-merged when `use_correct_order_on_merge` is clear, a merge
map is built and slot `i` is not `-1`; flipped in all other cases) and entry `i` is left as
copied. -/
theorem C17_vgroup_flip_entries (fa : FloatArith) (ops : Collaborators) (mmd : MirrorModifierData)
    (ob : Object)
    (mesh : Mesh) (axis : Fin 3) (uco wmm : Bool) (sd : List MDeformVert) (fm : List Int)
    (hsup : ob.supports_vertex_groups = true)
    (hflag : flag_test mmd.flag MOD_MIR_VGROUP = true)
    (hsd : (source_mesh fa ops mmd ob mesh axis).dvert = some sd)
    (hfm : ob.defgroup_flip_map = some fm) :
    ∃ od : List MDeformVert,
      (BKE_mesh_mirror_apply_mirror_on_axis_for_modifier fa ops mmd ob mesh axis uco wmm).1.dvert =
        some od ∧
      ∀ i, i < (source_mesh fa ops mmd ob mesh axis).totvert →
        ((uco && do_vtargetmap mmd wmm &&
            ((vert_pass fa ops mmd ob mesh axis uco wmm).vert_merge_map.getD
              (i + (source_mesh fa ops mmd ob mesh axis).totvert) 0 != -1)) = true →
          od[i]? = some (ops.defvert_flip_merged (sd.getD i []) fm) ∧
          od[(source_mesh fa ops mmd ob mesh axis).totvert + i]? = some (sd.getD i [])) ∧
        ((uco && do_vtargetmap mmd wmm &&
            ((vert_pass fa ops mmd ob mesh axis uco wmm).vert_merge_map.getD
              (i + (source_mesh fa ops mmd ob mesh axis).totvert) 0 != -1)) = false →
          (!uco && do_vtargetmap mmd wmm &&
            ((vert_pass fa ops mmd ob mesh axis uco wmm).vert_merge_map.getD i 0 != -1)) = true →
          od[i]? = some (sd.getD i []) ∧
          od[(source_mesh fa ops mmd ob mesh axis).totvert + i]? =
            some (ops.defvert_flip_merged (sd.getD i []) fm)) ∧
        ((uco && do_vtargetmap mmd wmm &&
            ((vert_pass fa ops mmd ob mesh axis uco wmm).vert_merge_map.getD
              (i + (source_mesh fa ops mmd ob mesh axis).totvert) 0 != -1)) = false →
          (!uco && do_vtargetmap mmd wmm &&
            ((vert_pass fa ops mmd ob mesh axis uco wmm).vert_merge_map.getD i 0 != -1)) = false →
          od[i]? = some (sd.getD i []) ∧
          od[(source_mesh fa ops mmd ob mesh axis).totvert + i]? =
            some (ops.defvert_flip (sd.getD i []) fm)) :=
  result_dvert_spec fa ops mmd ob mesh axis uco wmm sd fm hsup hflag hsd hfm

theorem C17_vgroup_flip_entries_witness :
    example_ob_flip.supports_vertex_groups = true ∧
    flag_test example_mmd_vgroup.flag MOD_MIR_VGROUP = true ∧
    (source_mesh binary32 example_flip_ops example_mmd_vgroup example_ob_flip example_vgroup_mesh
      0).dvert = some [[(0, 1)], [(0, 1 / 2)]] ∧
    example_ob_flip.defgroup_flip_map = some [1, 0] ∧
    ∃ od : List MDeformVert,
      (BKE_mesh_mirror_apply_mirror_on_axis_for_modifier binary32 example_flip_ops example_mmd_vgroup example_ob_flip example_vgroup_mesh 0 true true).1.dvert =
        some od ∧
      ∀ i, i < (source_mesh binary32 example_flip_ops example_mmd_vgroup example_ob_flip example_vgroup_mesh 0).totvert →
        ((true && do_vtargetmap example_mmd_vgroup true &&
            ((vert_pass binary32 example_flip_ops example_mmd_vgroup example_ob_flip example_vgroup_mesh 0 true true).vert_merge_map.getD
              (i + (source_mesh binary32 example_flip_ops example_mmd_vgroup example_ob_flip example_vgroup_mesh 0).totvert) 0 != -1)) = true →
          od[i]? = some (example_flip_ops.defvert_flip_merged (([[(0, 1)], [(0, 1 / 2)]] : List MDeformVert).getD i []) [1, 0]) ∧
          od[(source_mesh binary32 example_flip_ops example_mmd_vgroup example_ob_flip example_vgroup_mesh 0).totvert + i]? = some (([[(0, 1)], [(0, 1 / 2)]] : List MDeformVert).getD i [])) ∧
        ((true && do_vtargetmap example_mmd_vgroup true &&
            ((vert_pass binary32 example_flip_ops example_mmd_vgroup example_ob_flip example_vgroup_mesh 0 true true).vert_merge_map.getD
              (i + (source_mesh binary32 example_flip_ops example_mmd_vgroup example_ob_flip example_vgroup_mesh 0).totvert) 0 != -1)) = false →
          (!true && do_vtargetmap example_mmd_vgroup true &&
            ((vert_pass binary32 example_flip_ops example_mmd_vgroup example_ob_flip example_vgroup_mesh 0 true true).vert_merge_map.getD i 0 != -1)) = true →
          od[i]? = some (([[(0, 1)], [(0, 1 / 2)]] : List MDeformVert).getD i []) ∧
          od[(source_mesh binary32 example_flip_ops example_mmd_vgroup example_ob_flip example_vgroup_mesh 0).totvert + i]? =
            some (example_flip_ops.defvert_flip_merged (([[(0, 1)], [(0, 1 / 2)]] : List MDeformVert).getD i []) [1, 0])) ∧
        ((true && do_vtargetmap example_mmd_vgroup true &&
            ((vert_pass binary32 example_flip_ops example_mmd_vgroup example_ob_flip example_vgroup_mesh 0 true true).vert_merge_map.getD
              (i + (source_mesh binary32 example_flip_ops example_mmd_vgroup example_ob_flip example_vgroup_mesh 0).totvert) 0 != -1)) = false →
          (!true && do_vtargetmap example_mmd_vgroup true &&
            ((vert_pass binary32 example_flip_ops example_mmd_vgroup example_ob_flip example_vgroup_mesh 0 true true).vert_merge_map.getD i 0 != -1)) = false →
          od[i]? = some (([[(0, 1)], [(0, 1 / 2)]] : List MDeformVert).getD i []) ∧
          od[(source_mesh binary32 example_flip_ops example_mmd_vgroup example_ob_flip example_vgroup_mesh 0).totvert + i]? =
            some (example_flip_ops.defvert_flip (([[(0, 1)], [(0, 1 / 2)]] : List MDeformVert).getD i []) [1, 0])) :=
  ⟨rfl, by decide, rfl, rfl,
    C17_vgroup_flip_entries binary32 example_flip_ops example_mmd_vgroup example_ob_flip
      example_vgroup_mesh 0 true true [[(0, 1)], [(0, 1 / 2)]] [1, 0] rfl (by decide) rfl rfl⟩

/-- Counterexample to C17 as stated: a run in which the vertex-group step executes (no
merge map requested, two source vertices in group 0, flip map `0 ↔ 1`): both entries of the
original half `[0, N)` are left exactly as the source has them, and both entries of the
mirrored half `[N, 2N)` are flipped to group 1, so they are not as copied from the
source. -/
theorem C17_mirrored_half_flipped_counterexample :
    (example_ob_flip.supports_vertex_groups = true ∧
      flag_test example_mmd_vgroup.flag MOD_MIR_VGROUP = true ∧
      example_vgroup_mesh.dvert = some [[(0, 1)], [(0, 1 / 2)]] ∧
      example_ob_flip.defgroup_flip_map = some [1, 0]) ∧
    ∃ od : List MDeformVert,
      (BKE_mesh_mirror_apply_mirror_on_axis_for_modifier binary32 example_flip_ops example_mmd_vgroup
        example_ob_flip example_vgroup_mesh 0 true false).1.dvert = some od ∧
      od[0]? = some [(0, 1)] ∧ od[1]? = some [(0, 1 / 2)] ∧
      od[2]? = some [(1, 1)] ∧ od[3]? = some [(1, 1 / 2)] ∧
      od[2]? ≠ some [(0, 1)] ∧ od[3]? ≠ some [(0, 1 / 2)] := by
  obtain ⟨od, hod, h⟩ := result_dvert_spec binary32 example_flip_ops example_mmd_vgroup example_ob_flip
    example_vgroup_mesh 0 true false [[(0, 1)], [(0, 1 / 2)]] [1, 0] rfl (by decide) rfl rfl
  have h0 := (h 0 (by decide)).2.2 (by decide) (by decide)
  have h1 := (h 1 (by decide)).2.2 (by decide) (by decide)
  have e2 : od[2]? = some [(1, 1)] := h0.2
  have e3 : od[3]? = some [(1, 1 / 2)] := h1.2
  refine ⟨⟨rfl, by decide, rfl, rfl⟩, od, hod, h0.1, h1.1, e2, e3, ?_, ?_⟩
  · rw [e2]
    simp [Prod.ext_iff]
  · rw [e3]
    simp

/-- C18. Bisection flip consistency: for every plane point `c`, normal `n` and axis, the
bisecting plane built by `BKE_mesh_mirror_bisect_on_mirror_plane_for_modifier` is
`(-n, dot(n, c))` when the axis's flip flag is unset and `(n, -dot(n, c))` when it is set;
hence the plane for (flip unset, normal `n`) is the plane for (flip set, normal `-n`), and
two settings that agree on the flip flag of the selected axis give the same plane. -/
theorem C18_bisect_flip_consistency (fa : FloatArith) (ops : Collaborators)
    (mmd mmd2 : MirrorModifierData) (mesh : Mesh) (axis : Fin 3) (c n : float3) :
    BKE_mesh_mirror_bisect_on_mirror_plane_for_modifier fa ops mmd mesh axis c n =
      ops.verts_kill
        (ops.bisect_plane mesh (bisect_plane_of mmd axis c n) mmd.bisect_threshold)
        (bisect_kill_list fa ops mmd mesh axis c n) ∧
    bisect_plane_of mmd axis c n =
      (if flag_test mmd.flag (bisect_flip_flag axis) then ![n 0, n 1, n 2, -dot_v3v3 n c]
        else ![-n 0, -n 1, -n 2, dot_v3v3 n c]) ∧
    (flag_test mmd.flag (bisect_flip_flag axis) = false →
      flag_test mmd2.flag (bisect_flip_flag axis) = true →
      bisect_plane_of mmd axis c n = bisect_plane_of mmd2 axis c (negate_v3_v3 n)) ∧
    (flag_test mmd.flag (bisect_flip_flag axis) = flag_test mmd2.flag (bisect_flip_flag axis) →
      bisect_plane_of mmd axis c n = bisect_plane_of mmd2 axis c n) := by
  refine ⟨rfl, bisect_plane_of_eq mmd axis c n, ?_, ?_⟩
  · intro h1 h2
    rw [bisect_plane_of_eq, bisect_plane_of_eq, h1, h2]
    simp only [Bool.false_eq_true, if_false, if_true, negate_v3_v3, dot_v3v3,
      Matrix.cons_val_zero, Matrix.cons_val_one, Matrix.head_cons, Matrix.cons_val_two,
      Matrix.tail_cons]
    have e : -(-n 0 * c 0 + -n 1 * c 1 + -n 2 * c 2) = n 0 * c 0 + n 1 * c 1 + n 2 * c 2 := by
      ring
    rw [e]
  · intro h
    rw [bisect_plane_of_eq, bisect_plane_of_eq, h]

theorem C18_bisect_flip_consistency_witness :
    flag_test example_mmd_bisect.flag (bisect_flip_flag 0) = false ∧
    flag_test example_mmd_bisect_flip.flag (bisect_flip_flag 0) = true ∧
    bisect_plane_of example_mmd_bisect 0 ![0, 0, 0] ![1, 0, 0] =
      bisect_plane_of example_mmd_bisect_flip 0 ![0, 0, 0] (negate_v3_v3 ![1, 0, 0]) :=
  ⟨by decide, by decide,
    (C18_bisect_flip_consistency binary32 example_ops example_mmd_bisect example_mmd_bisect_flip
      example_mesh 0 ![0, 0, 0] ![1, 0, 0]).2.2.1 (by decide) (by decide)⟩

/-- C20. Mirror matrix with a reference object: when `mirror_ob` is set and both world
matrices are invertible, `T = tmp` is the composition of `ob.object_to_world` with the
inverse of `mirror_ob.object_to_world`, that inverse and the inverse `itmp` of `T` are
genuine inverses, `Fa` is the identity with entry `[a][a] = -1`, and the mirror matrix is
`M = itmp * Fa * T` (in the order of `mul_m4_series`); so `M` acts on every homogeneous
vector as `T`, then `Fa`, then `itmp`, where `mul_m4_v3` is the action on `(p, 1)`, and
for the affine world matrices objects have, `M p = itmp (Fa (T p))` for every point `p`
with the code's own point transform. When the two world matrices are equal, `M = Fa`. -/
theorem C20_mirror_matrix_reference_object (mmd : MirrorModifierData) (ob mirror_ob : Object)
    (axis : Fin 3) (hmob : mmd.mirror_ob = some mirror_ob)
    (hdet1 : Matrix.det (Matrix.of ob.object_to_world) ≠ 0)
    (hdet2 : Matrix.det (Matrix.of mirror_ob.object_to_world) ≠ 0) :
    (mirror_tmp mirror_ob ob =
        mul_m4_m4m4 (invert_m4_m4 mirror_ob.object_to_world) ob.object_to_world ∧
      mul_m4_m4m4 (invert_m4_m4 mirror_ob.object_to_world) mirror_ob.object_to_world =
        unit_m4 ∧
      mul_m4_m4m4 (invert_m4_m4 (mirror_tmp mirror_ob ob)) (mirror_tmp mirror_ob ob) = unit_m4 ∧
      mul_m4_m4m4 (mirror_tmp mirror_ob ob) (invert_m4_m4 (mirror_tmp mirror_ob ob)) = unit_m4) ∧
    (∀ i j : Fin 4, axis_flip_mtx axis i j =
      if i = j then (if i = Fin.castSucc axis then -1 else 1) else 0) ∧
    mirror_mtx mmd ob axis =
      mul_m4_m4m4 (mul_m4_m4m4 (invert_m4_m4 (mirror_tmp mirror_ob ob)) (axis_flip_mtx axis))
        (mirror_tmp mirror_ob ob) ∧
    (∀ v : float4, Matrix.vecMul v (Matrix.of (mirror_mtx mmd ob axis)) =
      Matrix.vecMul
        (Matrix.vecMul (Matrix.vecMul v (Matrix.of (mirror_tmp mirror_ob ob)))
          (Matrix.of (axis_flip_mtx axis)))
        (Matrix.of (invert_m4_m4 (mirror_tmp mirror_ob ob)))) ∧
    (∀ (m : float4x4) (p : float3) (k : Fin 3),
      mul_m4_v3 m p k = Matrix.vecMul ![p 0, p 1, p 2, 1] (Matrix.of m) (Fin.castSucc k)) ∧
    (is_affine ob.object_to_world → is_affine mirror_ob.object_to_world →
      ∀ p : float3, mul_m4_v3 (mirror_mtx mmd ob axis) p =
        mul_m4_v3 (invert_m4_m4 (mirror_tmp mirror_ob ob))
          (mul_m4_v3 (axis_flip_mtx axis) (mul_m4_v3 (mirror_tmp mirror_ob ob) p))) ∧
    (ob.object_to_world = mirror_ob.object_to_world →
      mirror_mtx mmd ob axis = axis_flip_mtx axis) := by
  have hT := det_mirror_tmp mirror_ob ob hdet1 hdet2
  have hM := mirror_mtx_some mmd ob mirror_ob axis hmob
  refine ⟨⟨rfl, (invert_m4_m4_mul _ hdet2).1, (invert_m4_m4_mul _ hT).1,
    (invert_m4_m4_mul _ hT).2⟩, axis_flip_mtx_apply axis, hM,
    mirror_mtx_vecMul mmd ob mirror_ob axis hmob, mul_m4_v3_eq_vecMul, ?_,
    mirror_mtx_same_frame mmd ob mirror_ob axis hmob hdet2⟩
  intro ha1 ha2 p
  rw [hM, mul_m4_v3_mul _ _ (is_affine_mirror_tmp mirror_ob ob hdet2 ha1 ha2),
    mul_m4_v3_mul _ _ (is_affine_axis_flip_mtx axis)]

theorem C20_mirror_matrix_reference_object_witness :
    example_mmd_mirror_ob.mirror_ob = some example_mirror_ob ∧
    Matrix.det (Matrix.of example_ob.object_to_world) ≠ 0 ∧
    Matrix.det (Matrix.of example_mirror_ob.object_to_world) ≠ 0 ∧
    (mirror_tmp example_mirror_ob example_ob =
        mul_m4_m4m4 (invert_m4_m4 example_mirror_ob.object_to_world) example_ob.object_to_world ∧
      mul_m4_m4m4 (invert_m4_m4 example_mirror_ob.object_to_world) example_mirror_ob.object_to_world =
        unit_m4 ∧
      mul_m4_m4m4 (invert_m4_m4 (mirror_tmp example_mirror_ob example_ob)) (mirror_tmp example_mirror_ob example_ob) = unit_m4 ∧
      mul_m4_m4m4 (mirror_tmp example_mirror_ob example_ob) (invert_m4_m4 (mirror_tmp example_mirror_ob example_ob)) = unit_m4) ∧
    (∀ i j : Fin 4, axis_flip_mtx (0 : Fin 3) i j =
      if i = j then (if i = Fin.castSucc (0 : Fin 3) then -1 else 1) else 0) ∧
    mirror_mtx example_mmd_mirror_ob example_ob (0 : Fin 3) =
      mul_m4_m4m4 (mul_m4_m4m4 (invert_m4_m4 (mirror_tmp example_mirror_ob example_ob)) (axis_flip_mtx (0 : Fin 3)))
        (mirror_tmp example_mirror_ob example_ob) ∧
    (∀ v : float4, Matrix.vecMul v (Matrix.of (mirror_mtx example_mmd_mirror_ob example_ob (0 : Fin 3))) =
      Matrix.vecMul
        (Matrix.vecMul (Matrix.vecMul v (Matrix.of (mirror_tmp example_mirror_ob example_ob)))
          (Matrix.of (axis_flip_mtx (0 : Fin 3))))
        (Matrix.of (invert_m4_m4 (mirror_tmp example_mirror_ob example_ob)))) ∧
    (∀ (m : float4x4) (p : float3) (k : Fin 3),
      mul_m4_v3 m p k = Matrix.vecMul ![p 0, p 1, p 2, 1] (Matrix.of m) (Fin.castSucc k)) ∧
    (is_affine example_ob.object_to_world → is_affine example_mirror_ob.object_to_world →
      ∀ p : float3, mul_m4_v3 (mirror_mtx example_mmd_mirror_ob example_ob (0 : Fin 3)) p =
        mul_m4_v3 (invert_m4_m4 (mirror_tmp example_mirror_ob example_ob))
          (mul_m4_v3 (axis_flip_mtx (0 : Fin 3)) (mul_m4_v3 (mirror_tmp example_mirror_ob example_ob) p))) ∧
    (example_ob.object_to_world = example_mirror_ob.object_to_world →
      mirror_mtx example_mmd_mirror_ob example_ob (0 : Fin 3) = axis_flip_mtx (0 : Fin 3)) :=
  ⟨rfl, example_ob_det, example_mirror_ob_det,
    C20_mirror_matrix_reference_object example_mmd_mirror_ob example_ob example_mirror_ob 0 rfl
      example_ob_det example_mirror_ob_det⟩

/-- C22. Mirroring preserves corner/edge consistency: if in the source mesh, for every face
with range `[s, s + n)` and every `j < n`, edge `src_corner_edges[s + j]` joins the vertices
`src_corner_verts[s + j]` and `src_corner_verts[s + (j + 1) mod n]`, then in the output the
same holds for every mirrored face `F + i` with range `[m, m + n)`: for every `k < n`, output
edge `corner_edges[m + k]` joins (as an unordered pair) output vertices `corner_verts[m + k]`
and `corner_verts[m + (k + 1) mod n]`. The source faces are non-empty contiguous ranges and
the source edge array has `totedge` entries. -/
theorem C22_corner_edge_consistency (fa : FloatArith) (ops : Collaborators)
    (mmd : MirrorModifierData) (ob : Object) (mesh : Mesh) (axis : Fin 3) (uco wmm : Bool)
    (hok : (source_mesh fa ops mmd ob mesh axis).faces_ok)
    (hlen : (source_mesh fa ops mmd ob mesh axis).edges.length =
      (source_mesh fa ops mmd ob mesh axis).totedge)
    (hsrc : ∀ i, i < (source_mesh fa ops mmd ob mesh axis).totpoly →
      ∀ j, j < ((source_mesh fa ops mmd ob mesh axis).poly i).size →
      edge_joins (source_mesh fa ops mmd ob mesh axis).edges
        ((source_mesh fa ops mmd ob mesh axis).corner_edges.getD
          (((source_mesh fa ops mmd ob mesh axis).poly i).start + j) 0)
        ((source_mesh fa ops mmd ob mesh axis).corner_verts.getD
          (((source_mesh fa ops mmd ob mesh axis).poly i).start + j) 0)
        ((source_mesh fa ops mmd ob mesh axis).corner_verts.getD
          (((source_mesh fa ops mmd ob mesh axis).poly i).start +
            (j + 1) % ((source_mesh fa ops mmd ob mesh axis).poly i).size) 0)) :
    ∀ i, i < (source_mesh fa ops mmd ob mesh axis).totpoly →
      ∀ k, k < ((BKE_mesh_mirror_apply_mirror_on_axis_for_modifier fa ops mmd ob mesh axis uco
          wmm).1.poly ((source_mesh fa ops mmd ob mesh axis).totpoly + i)).size →
      edge_joins
        (BKE_mesh_mirror_apply_mirror_on_axis_for_modifier fa ops mmd ob mesh axis uco wmm).1.edges
        ((BKE_mesh_mirror_apply_mirror_on_axis_for_modifier fa ops mmd ob mesh axis uco
            wmm).1.corner_edges.getD
          (((BKE_mesh_mirror_apply_mirror_on_axis_for_modifier fa ops mmd ob mesh axis uco
              wmm).1.poly ((source_mesh fa ops mmd ob mesh axis).totpoly + i)).start + k) 0)
        ((BKE_mesh_mirror_apply_mirror_on_axis_for_modifier fa ops mmd ob mesh axis uco
            wmm).1.corner_verts.getD
          (((BKE_mesh_mirror_apply_mirror_on_axis_for_modifier fa ops mmd ob mesh axis uco
              wmm).1.poly ((source_mesh fa ops mmd ob mesh axis).totpoly + i)).start + k) 0)
        ((BKE_mesh_mirror_apply_mirror_on_axis_for_modifier fa ops mmd ob mesh axis uco
            wmm).1.corner_verts.getD
          (((BKE_mesh_mirror_apply_mirror_on_axis_for_modifier fa ops mmd ob mesh axis uco
              wmm).1.poly ((source_mesh fa ops mmd ob mesh axis).totpoly + i)).start +
            (k + 1) % ((BKE_mesh_mirror_apply_mirror_on_axis_for_modifier fa ops mmd ob mesh axis
              uco wmm).1.poly ((source_mesh fa ops mmd ob mesh axis).totpoly + i)).size) 0) := by
  intro i hi k hk
  have hr := result_face_ranges fa ops mmd ob mesh axis uco wmm i hi hok.1 hok.2.1
  rw [hr.2.2.2] at hk
  rw [hr.2.2.1, hr.2.2.2]
  refine mirrored_face_consistent (source_mesh fa ops mmd ob mesh axis).totvert
    (source_mesh fa ops mmd ob mesh axis).totedge ((source_mesh fa ops mmd ob mesh axis).poly i).size
    (source_mesh fa ops mmd ob mesh axis).edges _
    (fun j => (source_mesh fa ops mmd ob mesh axis).corner_verts.getD
      (((source_mesh fa ops mmd ob mesh axis).poly i).start + j) 0)
    (fun j => (source_mesh fa ops mmd ob mesh axis).corner_edges.getD
      (((source_mesh fa ops mmd ob mesh axis).poly i).start + j) 0)
    (fun t => (BKE_mesh_mirror_apply_mirror_on_axis_for_modifier fa ops mmd ob mesh axis uco
      wmm).1.corner_verts.getD (((source_mesh fa ops mmd ob mesh axis).poly i).start +
        (source_mesh fa ops mmd ob mesh axis).totloop + t) 0)
    (fun t => (BKE_mesh_mirror_apply_mirror_on_axis_for_modifier fa ops mmd ob mesh axis uco
      wmm).1.corner_edges.getD (((source_mesh fa ops mmd ob mesh axis).poly i).start +
        (source_mesh fa ops mmd ob mesh axis).totloop + t) 0)
    ?_ ?_ ?_ hlen (hsrc i hi) k hk
  · intro t ht
    beta_reduce
    rw [List.getD_eq_getElem?_getD,
      result_corner_verts_mirrored fa ops mmd ob mesh axis uco wmm hok i hi t ht]
    rfl
  · intro t ht
    beta_reduce
    rw [List.getD_eq_getElem?_getD,
      result_corner_edges_mirrored fa ops mmd ob mesh axis uco wmm hok i hi t ht]
    rfl
  · intro e he
    exact (result_edges_spec fa ops mmd ob mesh axis uco wmm e he).2

theorem C22_corner_edge_consistency_witness :
    ((source_mesh binary32 example_ops example_mmd example_ob example_mesh 0).faces_ok) ∧
    ((source_mesh binary32 example_ops example_mmd example_ob example_mesh 0).edges.length =
      (source_mesh binary32 example_ops example_mmd example_ob example_mesh 0).totedge) ∧
    (∀ i, i < (source_mesh binary32 example_ops example_mmd example_ob example_mesh 0).totpoly →
      ∀ j, j < ((source_mesh binary32 example_ops example_mmd example_ob example_mesh 0).poly i).size →
      edge_joins (source_mesh binary32 example_ops example_mmd example_ob example_mesh 0).edges
        ((source_mesh binary32 example_ops example_mmd example_ob example_mesh 0).corner_edges.getD
          (((source_mesh binary32 example_ops example_mmd example_ob example_mesh 0).poly i).start + j) 0)
        ((source_mesh binary32 example_ops example_mmd example_ob example_mesh 0).corner_verts.getD
          (((source_mesh binary32 example_ops example_mmd example_ob example_mesh 0).poly i).start + j) 0)
        ((source_mesh binary32 example_ops example_mmd example_ob example_mesh 0).corner_verts.getD
          (((source_mesh binary32 example_ops example_mmd example_ob example_mesh 0).poly i).start +
            (j + 1) % ((source_mesh binary32 example_ops example_mmd example_ob example_mesh 0).poly i).size) 0)) ∧
    (∀ i, i < (source_mesh binary32 example_ops example_mmd example_ob example_mesh 0).totpoly →
      ∀ k, k < ((BKE_mesh_mirror_apply_mirror_on_axis_for_modifier binary32 example_ops example_mmd example_ob example_mesh 0 true
          true).1.poly ((source_mesh binary32 example_ops example_mmd example_ob example_mesh 0).totpoly + i)).size →
      edge_joins
        (BKE_mesh_mirror_apply_mirror_on_axis_for_modifier binary32 example_ops example_mmd example_ob example_mesh 0 true true).1.edges
        ((BKE_mesh_mirror_apply_mirror_on_axis_for_modifier binary32 example_ops example_mmd example_ob example_mesh 0 true
            true).1.corner_edges.getD
          (((BKE_mesh_mirror_apply_mirror_on_axis_for_modifier binary32 example_ops example_mmd example_ob example_mesh 0 true
              true).1.poly ((source_mesh binary32 example_ops example_mmd example_ob example_mesh 0).totpoly + i)).start + k) 0)
        ((BKE_mesh_mirror_apply_mirror_on_axis_for_modifier binary32 example_ops example_mmd example_ob example_mesh 0 true
            true).1.corner_verts.getD
          (((BKE_mesh_mirror_apply_mirror_on_axis_for_modifier binary32 example_ops example_mmd example_ob example_mesh 0 true
              true).1.poly ((source_mesh binary32 example_ops example_mmd example_ob example_mesh 0).totpoly + i)).start + k) 0)
        ((BKE_mesh_mirror_apply_mirror_on_axis_for_modifier binary32 example_ops example_mmd example_ob example_mesh 0 true
            true).1.corner_verts.getD
          (((BKE_mesh_mirror_apply_mirror_on_axis_for_modifier binary32 example_ops example_mmd example_ob example_mesh 0 true
              true).1.poly ((source_mesh binary32 example_ops example_mmd example_ob example_mesh 0).totpoly + i)).start +
            (k + 1) % ((BKE_mesh_mirror_apply_mirror_on_axis_for_modifier binary32 example_ops example_mmd example_ob example_mesh 0
              true true).1.poly ((source_mesh binary32 example_ops example_mmd example_ob example_mesh 0).totpoly + i)).size) 0)) :=
  ⟨by decide, by decide, by decide,
    C22_corner_edge_consistency binary32 example_ops example_mmd example_ob example_mesh 0 true true
      (by decide) (by decide) (by decide)⟩

/-- C23. Shape keys are mirrored but not merged: for every shape-key layer `a` of the source
(content `sl`) the output has a layer `a`, and for every `i < N` with source value `p`, its
entry `N + i` equals `M p` (the mirror matrix used for positions) and its entry `i` equals
`p`, whatever the merge settings and whether or not vertex `i` was merge-averaged. -/
theorem C23_shapekeys_mirrored (fa : FloatArith) (ops : Collaborators) (mmd : MirrorModifierData)
    (ob : Object) (mesh : Mesh) (axis : Fin 3) (uco wmm : Bool) (a : Nat) (sl : List float3)
    (ha : (source_mesh fa ops mmd ob mesh axis).shapekeys[a]? = some sl) :
    ∃ ol : List float3,
      (BKE_mesh_mirror_apply_mirror_on_axis_for_modifier fa ops mmd ob mesh axis uco
        wmm).1.shapekeys[a]? = some ol ∧
      ol.length = 2 * (source_mesh fa ops mmd ob mesh axis).totvert ∧
      ∀ i p, i < (source_mesh fa ops mmd ob mesh axis).totvert → sl[i]? = some p →
        ol[i]? = some p ∧
        ol[(source_mesh fa ops mmd ob mesh axis).totvert + i]? =
          some (mul_m4_v3 (mirror_mtx mmd ob axis) p) := by
  refine ⟨_, result_shapekey_layer fa ops mmd ob mesh axis uco wmm a sl ha, ?_, ?_⟩
  · unfold mirror_shapekey_layer
    rw [length_forRange_modify, (double_copy_spec sl _ _).1]
    omega
  · intro i p hi hp
    have hd := (double_copy_spec sl (source_mesh fa ops mmd ob mesh axis).totvert
      (0 : float3)).2 i hi
    have hsl : sl.getD i default = p := by
      rw [List.getD_eq_getElem?_getD, hp]
      rfl
    rw [hsl] at hd
    constructor
    · rw [getElem?_mirror_shapekey_layer, if_neg (by omega), hd.1]
    · rw [getElem?_mirror_shapekey_layer, if_pos (by omega), hd.2]
      rfl

theorem C23_shapekeys_mirrored_witness :
    (source_mesh binary32 example_ops example_mmd example_ob example_shapekey_mesh 0).shapekeys[0]? =
      some [![1 / 4, 1, 0], ![1, 2, 3]] ∧
    ∃ ol : List float3,
      (BKE_mesh_mirror_apply_mirror_on_axis_for_modifier binary32 example_ops example_mmd example_ob
        example_shapekey_mesh 0 true true).1.shapekeys[0]? = some ol ∧
      ol.length =
        2 * (source_mesh binary32 example_ops example_mmd example_ob example_shapekey_mesh 0).totvert ∧
      ∀ i p,
        i < (source_mesh binary32 example_ops example_mmd example_ob example_shapekey_mesh 0).totvert →
        ([![1 / 4, 1, 0], ![1, 2, 3]] : List float3)[i]? = some p →
        ol[i]? = some p ∧
        ol[(source_mesh binary32 example_ops example_mmd example_ob example_shapekey_mesh 0).totvert +
            i]? =
          some (mul_m4_v3 (mirror_mtx example_mmd example_ob 0) p) :=
  ⟨rfl,
    C23_shapekeys_mirrored binary32 example_ops example_mmd example_ob example_shapekey_mesh 0 true true
      0 [![1 / 4, 1, 0], ![1, 2, 3]] rfl⟩

/-- C24. The custom-split-normal pass uses the corner mapping of the winding reversal: for
every source face `i` with range `sp = [s, s + n)`, mirrored range `mp = [m, m + n)`
(`result_polys[mirror_i]`, with `m = s + L`) and every source corner `j` in `[s, s + n)`,
the index `mirrorj` of the normals pass is `m` if `j = s` and `m + n - (j - s)` otherwise;
it equals the destination corner of the winding-reversal copy of corner `j`
(`reversal_dest`), where the output indeed holds the mirrored copy of source corner `j` (its
corner vertex shifted by `N`, and its value in every UV layer after the reversal); it lies
in `[m, m + n)`; and `j ↦ mirrorj` is a bijection from the corners of the source face onto
the corners of the mirrored face. -/
theorem C24_mirrorj_matches_reversal (fa : FloatArith) (ops : Collaborators)
    (mmd : MirrorModifierData) (ob : Object) (mesh : Mesh) (axis : Fin 3) (uco wmm : Bool) (i : Nat)
    (sp mp : IndexRange)
    (hok : (source_mesh fa ops mmd ob mesh axis).faces_ok)
    (hi : i < (source_mesh fa ops mmd ob mesh axis).totpoly)
    (hsp : (source_mesh fa ops mmd ob mesh axis).poly i = sp)
    (hmp : (BKE_mesh_mirror_apply_mirror_on_axis_for_modifier fa ops mmd ob mesh axis uco
      wmm).1.poly ((source_mesh fa ops mmd ob mesh axis).totpoly + i) = mp) :
    mp.start = sp.start + (source_mesh fa ops mmd ob mesh axis).totloop ∧
    mp.size = sp.size ∧
    (∀ j, sp.start ≤ j → j < sp.start + sp.size →
      mirrorj sp mp j =
        (if j = sp.start then (mp.start : Int)
          else (mp.start : Int) + (mp.size : Int) - ((j : Int) - (sp.start : Int))) ∧
      mirrorj sp mp j = ((reversal_dest mp (j - sp.start) : Nat) : Int) ∧
      (BKE_mesh_mirror_apply_mirror_on_axis_for_modifier fa ops mmd ob mesh axis uco
          wmm).1.corner_verts[reversal_dest mp (j - sp.start)]? =
        some ((source_mesh fa ops mmd ob mesh axis).corner_verts.getD j 0 +
          ((source_mesh fa ops mmd ob mesh axis).totvert : Int)) ∧
      (∀ sl : List float2,
        (reversed_layer (source_mesh fa ops mmd ob mesh axis) sl 0)[
            reversal_dest mp (j - sp.start)]? = some (sl.getD j default)) ∧
      (mp.start : Int) ≤ mirrorj sp mp j ∧
      mirrorj sp mp j < (mp.start : Int) + (mp.size : Int)) ∧
    (∀ j1 j2, sp.start ≤ j1 → j1 < sp.start + sp.size →
      sp.start ≤ j2 → j2 < sp.start + sp.size →
      mirrorj sp mp j1 = mirrorj sp mp j2 → j1 = j2) ∧
    (∀ c, mp.start ≤ c → c < mp.start + mp.size →
      ∃ j, sp.start ≤ j ∧ j < sp.start + sp.size ∧ mirrorj sp mp j = (c : Int)) := by
  have hm := result_mirror_poly_eq fa ops mmd ob mesh axis uco wmm hok i hi
  have hb := poly_end_le_totloop _ hok i hi
  rw [hmp] at hm
  subst hsp
  subst hm
  have hj := mirrorj_eq ((source_mesh fa ops mmd ob mesh axis).poly i).start
    ((source_mesh fa ops mmd ob mesh axis).poly i).size
    (((source_mesh fa ops mmd ob mesh axis).poly i).start +
      (source_mesh fa ops mmd ob mesh axis).totloop)
  have hd := reversal_dest_eq (((source_mesh fa ops mmd ob mesh axis).poly i).start +
      (source_mesh fa ops mmd ob mesh axis).totloop)
    ((source_mesh fa ops mmd ob mesh axis).poly i).size
  simp only []
  refine ⟨trivial, trivial, fun j h1 h2 => ?_, fun j1 j2 a1 a2 b1 b2 he => ?_,
    fun c hc1 hc2 => ?_⟩
  · have hdj := hd (j - ((source_mesh fa ops mmd ob mesh axis).poly i).start) (by omega)
    have ht : (if j - ((source_mesh fa ops mmd ob mesh axis).poly i).start = 0 then 0
        else ((source_mesh fa ops mmd ob mesh axis).poly i).size -
          (j - ((source_mesh fa ops mmd ob mesh axis).poly i).start)) <
        ((source_mesh fa ops mmd ob mesh axis).poly i).size := by
      split <;> omega
    have hsrc : ((source_mesh fa ops mmd ob mesh axis).poly i).start +
        (if (if j - ((source_mesh fa ops mmd ob mesh axis).poly i).start = 0 then 0
            else ((source_mesh fa ops mmd ob mesh axis).poly i).size -
              (j - ((source_mesh fa ops mmd ob mesh axis).poly i).start)) = 0 then 0
          else ((source_mesh fa ops mmd ob mesh axis).poly i).size -
            (if j - ((source_mesh fa ops mmd ob mesh axis).poly i).start = 0 then 0
              else ((source_mesh fa ops mmd ob mesh axis).poly i).size -
                (j - ((source_mesh fa ops mmd ob mesh axis).poly i).start))) = j := by
      by_cases h0 : j - ((source_mesh fa ops mmd ob mesh axis).poly i).start = 0
      · rw [if_pos h0, if_pos rfl]
        omega
      · rw [if_neg h0, if_neg (by omega)]
        omega
    refine ⟨(hj j h1 h2).2, (hj j h1 h2).1, ?_, fun sl => ?_, ?_, ?_⟩
    · have h := result_corner_verts_mirrored fa ops mmd ob mesh axis uco wmm hok i hi _ ht
      rw [hsrc] at h
      rw [hdj]
      exact h
    · have h := (reversed_layer_spec (source_mesh fa ops mmd ob mesh axis) sl (0 : float2)
        hok).2.1 i hi _ ht
      rw [hsrc] at h
      rw [hdj]
      exact h
    · rw [(hj j h1 h2).2]
      split <;> omega
    · rw [(hj j h1 h2).2]
      split <;> omega
  · rw [(hj j1 a1 a2).2, (hj j2 b1 b2).2] at he
    split at he <;> split at he <;> omega
  · by_cases hc : c = ((source_mesh fa ops mmd ob mesh axis).poly i).start +
        (source_mesh fa ops mmd ob mesh axis).totloop
    · refine ⟨((source_mesh fa ops mmd ob mesh axis).poly i).start, Nat.le_refl _, by omega, ?_⟩
      rw [(hj _ (Nat.le_refl _) (by omega)).2, if_pos rfl, hc]
    · refine ⟨((source_mesh fa ops mmd ob mesh axis).poly i).start +
          (((source_mesh fa ops mmd ob mesh axis).poly i).start +
            (source_mesh fa ops mmd ob mesh axis).totloop +
            ((source_mesh fa ops mmd ob mesh axis).poly i).size - c), by omega, by omega, ?_⟩
      rw [(hj _ (by omega) (by omega)).2, if_neg (by omega)]
      omega

theorem C24_mirrorj_matches_reversal_witness :
    ((source_mesh binary32 example_ops example_mmd example_ob example_mesh 0).faces_ok) ∧
    (1 < (source_mesh binary32 example_ops example_mmd example_ob example_mesh 0).totpoly) ∧
    ((source_mesh binary32 example_ops example_mmd example_ob example_mesh 0).poly 1 = (IndexRange.mk 4 3)) ∧
    ((BKE_mesh_mirror_apply_mirror_on_axis_for_modifier binary32 example_ops example_mmd example_ob example_mesh 0 true
      true).1.poly ((source_mesh binary32 example_ops example_mmd example_ob example_mesh 0).totpoly + 1) = (IndexRange.mk 11 3)) ∧
    (IndexRange.mk 11 3).start = (IndexRange.mk 4 3).start + (source_mesh binary32 example_ops example_mmd example_ob example_mesh 0).totloop ∧
    (IndexRange.mk 11 3).size = (IndexRange.mk 4 3).size ∧
    (∀ j, (IndexRange.mk 4 3).start ≤ j → j < (IndexRange.mk 4 3).start + (IndexRange.mk 4 3).size →
      mirrorj (IndexRange.mk 4 3) (IndexRange.mk 11 3) j =
        (if j = (IndexRange.mk 4 3).start then ((IndexRange.mk 11 3).start : Int)
          else ((IndexRange.mk 11 3).start : Int) + ((IndexRange.mk 11 3).size : Int) - ((j : Int) - ((IndexRange.mk 4 3).start : Int))) ∧
      mirrorj (IndexRange.mk 4 3) (IndexRange.mk 11 3) j = ((reversal_dest (IndexRange.mk 11 3) (j - (IndexRange.mk 4 3).start) : Nat) : Int) ∧
      (BKE_mesh_mirror_apply_mirror_on_axis_for_modifier binary32 example_ops example_mmd example_ob example_mesh 0 true
          true).1.corner_verts[reversal_dest (IndexRange.mk 11 3) (j - (IndexRange.mk 4 3).start)]? =
        some ((source_mesh binary32 example_ops example_mmd example_ob example_mesh 0).corner_verts.getD j 0 +
          ((source_mesh binary32 example_ops example_mmd example_ob example_mesh 0).totvert : Int)) ∧
      (∀ sl : List float2,
        (reversed_layer (source_mesh binary32 example_ops example_mmd example_ob example_mesh 0) sl 0)[
            reversal_dest (IndexRange.mk 11 3) (j - (IndexRange.mk 4 3).start)]? = some (sl.getD j default)) ∧
      ((IndexRange.mk 11 3).start : Int) ≤ mirrorj (IndexRange.mk 4 3) (IndexRange.mk 11 3) j ∧
      mirrorj (IndexRange.mk 4 3) (IndexRange.mk 11 3) j < ((IndexRange.mk 11 3).start : Int) + ((IndexRange.mk 11 3).size : Int)) ∧
    (∀ j1 j2, (IndexRange.mk 4 3).start ≤ j1 → j1 < (IndexRange.mk 4 3).start + (IndexRange.mk 4 3).size →
      (IndexRange.mk 4 3).start ≤ j2 → j2 < (IndexRange.mk 4 3).start + (IndexRange.mk 4 3).size →
      mirrorj (IndexRange.mk 4 3) (IndexRange.mk 11 3) j1 = mirrorj (IndexRange.mk 4 3) (IndexRange.mk 11 3) j2 → j1 = j2) ∧
    (∀ c, (IndexRange.mk 11 3).start ≤ c → c < (IndexRange.mk 11 3).start + (IndexRange.mk 11 3).size →
      ∃ j, (IndexRange.mk 4 3).start ≤ j ∧ j < (IndexRange.mk 4 3).start + (IndexRange.mk 4 3).size ∧ mirrorj (IndexRange.mk 4 3) (IndexRange.mk 11 3) j = (c : Int)) :=
  ⟨by decide, by decide, rfl, rfl,
    C24_mirrorj_matches_reversal binary32 example_ops example_mmd example_ob example_mesh 0 true true 1
      (IndexRange.mk 4 3) (IndexRange.mk 11 3) (by decide) (by decide) rfl rfl⟩

/-- C25. Index validity and separation of the two halves: if every source edge's vertex
indices and every source corner vertex lie in `[0, N)`, every source corner edge lies in
`[0, E)`, and the source faces are non-empty contiguous ranges covering `[0, L)`, then in the
output edges `[0, E)` and corners `[0, L)` reference only vertices in `[0, N)` and edges in
`[0, E)`, edges `[E, 2E)` and corners `[L, 2L)` reference only vertices in `[N, 2N)` and
edges in `[E, 2E)` (so every edge vertex and corner vertex lies in `[0, 2N)` and every
corner edge in `[0, 2E)`), and every corner index written by the winding reversal for face
`i` (`mirror_poly.start()` and `mirror_poly.last(j - 1)` for `1 ≤ j < n`) lies inside the
mirrored face's range, which lies inside `[L, 2L)`. -/
theorem C25_index_validity (fa : FloatArith) (ops : Collaborators) (mmd : MirrorModifierData)
    (ob : Object) (mesh : Mesh) (axis : Fin 3) (uco wmm : Bool)
    (hok : (source_mesh fa ops mmd ob mesh axis).faces_ok)
    (hedges : ∀ k, k < (source_mesh fa ops mmd ob mesh axis).totedge →
      (0 ≤ ((source_mesh fa ops mmd ob mesh axis).edges.getD k (0, 0)).1 ∧
        ((source_mesh fa ops mmd ob mesh axis).edges.getD k (0, 0)).1 < ((source_mesh fa ops mmd ob mesh axis).totvert : Int)) ∧
      (0 ≤ ((source_mesh fa ops mmd ob mesh axis).edges.getD k (0, 0)).2 ∧
        ((source_mesh fa ops mmd ob mesh axis).edges.getD k (0, 0)).2 < ((source_mesh fa ops mmd ob mesh axis).totvert : Int)))
    (hcv : ∀ c, c < (source_mesh fa ops mmd ob mesh axis).totloop →
      0 ≤ (source_mesh fa ops mmd ob mesh axis).corner_verts.getD c 0 ∧
      (source_mesh fa ops mmd ob mesh axis).corner_verts.getD c 0 < ((source_mesh fa ops mmd ob mesh axis).totvert : Int))
    (hce : ∀ c, c < (source_mesh fa ops mmd ob mesh axis).totloop →
      0 ≤ (source_mesh fa ops mmd ob mesh axis).corner_edges.getD c 0 ∧
      (source_mesh fa ops mmd ob mesh axis).corner_edges.getD c 0 < ((source_mesh fa ops mmd ob mesh axis).totedge : Int)) :
    (∀ k, k < (source_mesh fa ops mmd ob mesh axis).totedge →
      (0 ≤ ((BKE_mesh_mirror_apply_mirror_on_axis_for_modifier fa ops mmd ob mesh axis uco wmm).1.edges.getD k (0, 0)).1 ∧
        ((BKE_mesh_mirror_apply_mirror_on_axis_for_modifier fa ops mmd ob mesh axis uco wmm).1.edges.getD k (0, 0)).1 < ((source_mesh fa ops mmd ob mesh axis).totvert : Int)) ∧
      (0 ≤ ((BKE_mesh_mirror_apply_mirror_on_axis_for_modifier fa ops mmd ob mesh axis uco wmm).1.edges.getD k (0, 0)).2 ∧
        ((BKE_mesh_mirror_apply_mirror_on_axis_for_modifier fa ops mmd ob mesh axis uco wmm).1.edges.getD k (0, 0)).2 < ((source_mesh fa ops mmd ob mesh axis).totvert : Int))) ∧
    (∀ k, (source_mesh fa ops mmd ob mesh axis).totedge ≤ k → k < 2 * (source_mesh fa ops mmd ob mesh axis).totedge →
      (((source_mesh fa ops mmd ob mesh axis).totvert : Int) ≤ ((BKE_mesh_mirror_apply_mirror_on_axis_for_modifier fa ops mmd ob mesh axis uco wmm).1.edges.getD k (0, 0)).1 ∧
        ((BKE_mesh_mirror_apply_mirror_on_axis_for_modifier fa ops mmd ob mesh axis uco wmm).1.edges.getD k (0, 0)).1 < 2 * ((source_mesh fa ops mmd ob mesh axis).totvert : Int)) ∧
      (((source_mesh fa ops mmd ob mesh axis).totvert : Int) ≤ ((BKE_mesh_mirror_apply_mirror_on_axis_for_modifier fa ops mmd ob mesh axis uco wmm).1.edges.getD k (0, 0)).2 ∧
        ((BKE_mesh_mirror_apply_mirror_on_axis_for_modifier fa ops mmd ob mesh axis uco wmm).1.edges.getD k (0, 0)).2 < 2 * ((source_mesh fa ops mmd ob mesh axis).totvert : Int))) ∧
    (∀ c, c < (source_mesh fa ops mmd ob mesh axis).totloop →
      (0 ≤ (BKE_mesh_mirror_apply_mirror_on_axis_for_modifier fa ops mmd ob mesh axis uco wmm).1.corner_verts.getD c 0 ∧
        (BKE_mesh_mirror_apply_mirror_on_axis_for_modifier fa ops mmd ob mesh axis uco wmm).1.corner_verts.getD c 0 < ((source_mesh fa ops mmd ob mesh axis).totvert : Int)) ∧
      (0 ≤ (BKE_mesh_mirror_apply_mirror_on_axis_for_modifier fa ops mmd ob mesh axis uco wmm).1.corner_edges.getD c 0 ∧
        (BKE_mesh_mirror_apply_mirror_on_axis_for_modifier fa ops mmd ob mesh axis uco wmm).1.corner_edges.getD c 0 < ((source_mesh fa ops mmd ob mesh axis).totedge : Int))) ∧
    (∀ c, (source_mesh fa ops mmd ob mesh axis).totloop ≤ c → c < 2 * (source_mesh fa ops mmd ob mesh axis).totloop →
      (((source_mesh fa ops mmd ob mesh axis).totvert : Int) ≤ (BKE_mesh_mirror_apply_mirror_on_axis_for_modifier fa ops mmd ob mesh axis uco wmm).1.corner_verts.getD c 0 ∧
        (BKE_mesh_mirror_apply_mirror_on_axis_for_modifier fa ops mmd ob mesh axis uco wmm).1.corner_verts.getD c 0 < 2 * ((source_mesh fa ops mmd ob mesh axis).totvert : Int)) ∧
      (((source_mesh fa ops mmd ob mesh axis).totedge : Int) ≤ (BKE_mesh_mirror_apply_mirror_on_axis_for_modifier fa ops mmd ob mesh axis uco wmm).1.corner_edges.getD c 0 ∧
        (BKE_mesh_mirror_apply_mirror_on_axis_for_modifier fa ops mmd ob mesh axis uco wmm).1.corner_edges.getD c 0 < 2 * ((source_mesh fa ops mmd ob mesh axis).totedge : Int))) ∧
    (∀ i, i < (source_mesh fa ops mmd ob mesh axis).totpoly →
      (source_mesh fa ops mmd ob mesh axis).totloop ≤ ((BKE_mesh_mirror_apply_mirror_on_axis_for_modifier fa ops mmd ob mesh axis uco wmm).1.poly ((source_mesh fa ops mmd ob mesh axis).totpoly + i)).start ∧
      ((BKE_mesh_mirror_apply_mirror_on_axis_for_modifier fa ops mmd ob mesh axis uco wmm).1.poly ((source_mesh fa ops mmd ob mesh axis).totpoly + i)).start + ((BKE_mesh_mirror_apply_mirror_on_axis_for_modifier fa ops mmd ob mesh axis uco wmm).1.poly ((source_mesh fa ops mmd ob mesh axis).totpoly + i)).size ≤ 2 * (source_mesh fa ops mmd ob mesh axis).totloop ∧
      ((BKE_mesh_mirror_apply_mirror_on_axis_for_modifier fa ops mmd ob mesh axis uco wmm).1.poly ((source_mesh fa ops mmd ob mesh axis).totpoly + i)).start < ((BKE_mesh_mirror_apply_mirror_on_axis_for_modifier fa ops mmd ob mesh axis uco wmm).1.poly ((source_mesh fa ops mmd ob mesh axis).totpoly + i)).start + ((BKE_mesh_mirror_apply_mirror_on_axis_for_modifier fa ops mmd ob mesh axis uco wmm).1.poly ((source_mesh fa ops mmd ob mesh axis).totpoly + i)).size ∧
      ∀ j, 1 ≤ j → j < ((BKE_mesh_mirror_apply_mirror_on_axis_for_modifier fa ops mmd ob mesh axis uco wmm).1.poly ((source_mesh fa ops mmd ob mesh axis).totpoly + i)).size →
        ((BKE_mesh_mirror_apply_mirror_on_axis_for_modifier fa ops mmd ob mesh axis uco wmm).1.poly ((source_mesh fa ops mmd ob mesh axis).totpoly + i)).start ≤ IndexRange.last ((BKE_mesh_mirror_apply_mirror_on_axis_for_modifier fa ops mmd ob mesh axis uco wmm).1.poly ((source_mesh fa ops mmd ob mesh axis).totpoly + i)) (j - 1) ∧
        IndexRange.last ((BKE_mesh_mirror_apply_mirror_on_axis_for_modifier fa ops mmd ob mesh axis uco wmm).1.poly ((source_mesh fa ops mmd ob mesh axis).totpoly + i)) (j - 1) < ((BKE_mesh_mirror_apply_mirror_on_axis_for_modifier fa ops mmd ob mesh axis uco wmm).1.poly ((source_mesh fa ops mmd ob mesh axis).totpoly + i)).start + ((BKE_mesh_mirror_apply_mirror_on_axis_for_modifier fa ops mmd ob mesh axis uco wmm).1.poly ((source_mesh fa ops mmd ob mesh axis).totpoly + i)).size) := by
  refine ⟨fun k hk => ?_, fun k hk1 hk2 => ?_, fun c hc => ?_, fun c hc1 hc2 => ?_,
    fun i hi => ?_⟩
  · rw [List.getD_eq_getElem?_getD, (result_edges_spec fa ops mmd ob mesh axis uco wmm k hk).1]
    exact hedges k hk
  · have hk3 : k = (source_mesh fa ops mmd ob mesh axis).totedge +
        (k - (source_mesh fa ops mmd ob mesh axis).totedge) := by omega
    have h := hedges (k - (source_mesh fa ops mmd ob mesh axis).totedge) (by omega)
    rw [List.getD_eq_getElem?_getD, hk3,
      (result_edges_spec fa ops mmd ob mesh axis uco wmm _ (by omega)).2]
    simp only [Option.getD_some, int2_add]
    omega
  · have h := result_corners_first_half fa ops mmd ob mesh axis uco wmm hok c hc
    rw [List.getD_eq_getElem?_getD, List.getD_eq_getElem?_getD, h.1, h.2]
    exact ⟨hcv c hc, hce c hc⟩
  · obtain ⟨c1, c2, h1, h2, e1, e2⟩ :=
      result_corners_second_half fa ops mmd ob mesh axis uco wmm hok c hc1 hc2
    have a1 := hcv c1 h1
    have a2 := hce c2 h2
    rw [List.getD_eq_getElem?_getD, List.getD_eq_getElem?_getD, e1, e2]
    simp only [Option.getD_some]
    omega
  · have hr := result_face_ranges fa ops mmd ob mesh axis uco wmm i hi hok.1 hok.2.1
    have hb := poly_end_le_totloop _ hok i hi
    have hm : (BKE_mesh_mirror_apply_mirror_on_axis_for_modifier fa ops mmd ob mesh axis uco
        wmm).1.poly ((source_mesh fa ops mmd ob mesh axis).totpoly + i) =
        { start := ((source_mesh fa ops mmd ob mesh axis).poly i).start +
            (source_mesh fa ops mmd ob mesh axis).totloop,
          size := ((source_mesh fa ops mmd ob mesh axis).poly i).size } := by
      have e := hr.2.2.1
      have e2 := hr.2.2.2
      cases hx : (BKE_mesh_mirror_apply_mirror_on_axis_for_modifier fa ops mmd ob mesh axis uco
        wmm).1.poly ((source_mesh fa ops mmd ob mesh axis).totpoly + i) with
      | mk st sz =>
        rw [hx] at e e2
        simp only [] at e e2
        rw [e, e2]
    rw [hm]
    simp only [IndexRange.last]
    refine ⟨by omega, by omega, by omega, fun j hj1 hj2 => by omega⟩

theorem C25_index_validity_witness :
    ((source_mesh binary32 example_ops example_mmd example_ob example_mesh 0).faces_ok) ∧
    (∀ k, k < (source_mesh binary32 example_ops example_mmd example_ob example_mesh 0).totedge →
      (0 ≤ ((source_mesh binary32 example_ops example_mmd example_ob example_mesh 0).edges.getD k (0, 0)).1 ∧
        ((source_mesh binary32 example_ops example_mmd example_ob example_mesh 0).edges.getD k (0, 0)).1 < ((source_mesh binary32 example_ops example_mmd example_ob example_mesh 0).totvert : Int)) ∧
      (0 ≤ ((source_mesh binary32 example_ops example_mmd example_ob example_mesh 0).edges.getD k (0, 0)).2 ∧
        ((source_mesh binary32 example_ops example_mmd example_ob example_mesh 0).edges.getD k (0, 0)).2 < ((source_mesh binary32 example_ops example_mmd example_ob example_mesh 0).totvert : Int))) ∧
    (∀ c, c < (source_mesh binary32 example_ops example_mmd example_ob example_mesh 0).totloop →
      0 ≤ (source_mesh binary32 example_ops example_mmd example_ob example_mesh 0).corner_verts.getD c 0 ∧
      (source_mesh binary32 example_ops example_mmd example_ob example_mesh 0).corner_verts.getD c 0 < ((source_mesh binary32 example_ops example_mmd example_ob example_mesh 0).totvert : Int)) ∧
    (∀ c, c < (source_mesh binary32 example_ops example_mmd example_ob example_mesh 0).totloop →
      0 ≤ (source_mesh binary32 example_ops example_mmd example_ob example_mesh 0).corner_edges.getD c 0 ∧
      (source_mesh binary32 example_ops example_mmd example_ob example_mesh 0).corner_edges.getD c 0 < ((source_mesh binary32 example_ops example_mmd example_ob example_mesh 0).totedge : Int)) ∧
    (∀ k, k < (source_mesh binary32 example_ops example_mmd example_ob example_mesh 0).totedge →
      (0 ≤ ((BKE_mesh_mirror_apply_mirror_on_axis_for_modifier binary32 example_ops example_mmd example_ob example_mesh 0 true true).1.edges.getD k (0, 0)).1 ∧
        ((BKE_mesh_mirror_apply_mirror_on_axis_for_modifier binary32 example_ops example_mmd example_ob example_mesh 0 true true).1.edges.getD k (0, 0)).1 < ((source_mesh binary32 example_ops example_mmd example_ob example_mesh 0).totvert : Int)) ∧
      (0 ≤ ((BKE_mesh_mirror_apply_mirror_on_axis_for_modifier binary32 example_ops example_mmd example_ob example_mesh 0 true true).1.edges.getD k (0, 0)).2 ∧
        ((BKE_mesh_mirror_apply_mirror_on_axis_for_modifier binary32 example_ops example_mmd example_ob example_mesh 0 true true).1.edges.getD k (0, 0)).2 < ((source_mesh binary32 example_ops example_mmd example_ob example_mesh 0).totvert : Int))) ∧
    (∀ k, (source_mesh binary32 example_ops example_mmd example_ob example_mesh 0).totedge ≤ k → k < 2 * (source_mesh binary32 example_ops example_mmd example_ob example_mesh 0).totedge →
      (((source_mesh binary32 example_ops example_mmd example_ob example_mesh 0).totvert : Int) ≤ ((BKE_mesh_mirror_apply_mirror_on_axis_for_modifier binary32 example_ops example_mmd example_ob example_mesh 0 true true).1.edges.getD k (0, 0)).1 ∧
        ((BKE_mesh_mirror_apply_mirror_on_axis_for_modifier binary32 example_ops example_mmd example_ob example_mesh 0 true true).1.edges.getD k (0, 0)).1 < 2 * ((source_mesh binary32 example_ops example_mmd example_ob example_mesh 0).totvert : Int)) ∧
      (((source_mesh binary32 example_ops example_mmd example_ob example_mesh 0).totvert : Int) ≤ ((BKE_mesh_mirror_apply_mirror_on_axis_for_modifier binary32 example_ops example_mmd example_ob example_mesh 0 true true).1.edges.getD k (0, 0)).2 ∧
        ((BKE_mesh_mirror_apply_mirror_on_axis_for_modifier binary32 example_ops example_mmd example_ob example_mesh 0 true true).1.edges.getD k (0, 0)).2 < 2 * ((source_mesh binary32 example_ops example_mmd example_ob example_mesh 0).totvert : Int))) ∧
    (∀ c, c < (source_mesh binary32 example_ops example_mmd example_ob example_mesh 0).totloop →
      (0 ≤ (BKE_mesh_mirror_apply_mirror_on_axis_for_modifier binary32 example_ops example_mmd example_ob example_mesh 0 true true).1.corner_verts.getD c 0 ∧
        (BKE_mesh_mirror_apply_mirror_on_axis_for_modifier binary32 example_ops example_mmd example_ob example_mesh 0 true true).1.corner_verts.getD c 0 < ((source_mesh binary32 example_ops example_mmd example_ob example_mesh 0).totvert : Int)) ∧
      (0 ≤ (BKE_mesh_mirror_apply_mirror_on_axis_for_modifier binary32 example_ops example_mmd example_ob example_mesh 0 true true).1.corner_edges.getD c 0 ∧
        (BKE_mesh_mirror_apply_mirror_on_axis_for_modifier binary32 example_ops example_mmd example_ob example_mesh 0 true true).1.corner_edges.getD c 0 < ((source_mesh binary32 example_ops example_mmd example_ob example_mesh 0).totedge : Int))) ∧
    (∀ c, (source_mesh binary32 example_ops example_mmd example_ob example_mesh 0).totloop ≤ c → c < 2 * (source_mesh binary32 example_ops example_mmd example_ob example_mesh 0).totloop →
      (((source_mesh binary32 example_ops example_mmd example_ob example_mesh 0).totvert : Int) ≤ (BKE_mesh_mirror_apply_mirror_on_axis_for_modifier binary32 example_ops example_mmd example_ob example_mesh 0 true true).1.corner_verts.getD c 0 ∧
        (BKE_mesh_mirror_apply_mirror_on_axis_for_modifier binary32 example_ops example_mmd example_ob example_mesh 0 true true).1.corner_verts.getD c 0 < 2 * ((source_mesh binary32 example_ops example_mmd example_ob example_mesh 0).totvert : Int)) ∧
      (((source_mesh binary32 example_ops example_mmd example_ob example_mesh 0).totedge : Int) ≤ (BKE_mesh_mirror_apply_mirror_on_axis_for_modifier binary32 example_ops example_mmd example_ob example_mesh 0 true true).1.corner_edges.getD c 0 ∧
        (BKE_mesh_mirror_apply_mirror_on_axis_for_modifier binary32 example_ops example_mmd example_ob example_mesh 0 true true).1.corner_edges.getD c 0 < 2 * ((source_mesh binary32 example_ops example_mmd example_ob example_mesh 0).totedge : Int))) ∧
    (∀ i, i < (source_mesh binary32 example_ops example_mmd example_ob example_mesh 0).totpoly →
      (source_mesh binary32 example_ops example_mmd example_ob example_mesh 0).totloop ≤ ((BKE_mesh_mirror_apply_mirror_on_axis_for_modifier binary32 example_ops example_mmd example_ob example_mesh 0 true true).1.poly ((source_mesh binary32 example_ops example_mmd example_ob example_mesh 0).totpoly + i)).start ∧
      ((BKE_mesh_mirror_apply_mirror_on_axis_for_modifier binary32 example_ops example_mmd example_ob example_mesh 0 true true).1.poly ((source_mesh binary32 example_ops example_mmd example_ob example_mesh 0).totpoly + i)).start + ((BKE_mesh_mirror_apply_mirror_on_axis_for_modifier binary32 example_ops example_mmd example_ob example_mesh 0 true true).1.poly ((source_mesh binary32 example_ops example_mmd example_ob example_mesh 0).totpoly + i)).size ≤ 2 * (source_mesh binary32 example_ops example_mmd example_ob example_mesh 0).totloop ∧
      ((BKE_mesh_mirror_apply_mirror_on_axis_for_modifier binary32 example_ops example_mmd example_ob example_mesh 0 true true).1.poly ((source_mesh binary32 example_ops example_mmd example_ob example_mesh 0).totpoly + i)).start < ((BKE_mesh_mirror_apply_mirror_on_axis_for_modifier binary32 example_ops example_mmd example_ob example_mesh 0 true true).1.poly ((source_mesh binary32 example_ops example_mmd example_ob example_mesh 0).totpoly + i)).start + ((BKE_mesh_mirror_apply_mirror_on_axis_for_modifier binary32 example_ops example_mmd example_ob example_mesh 0 true true).1.poly ((source_mesh binary32 example_ops example_mmd example_ob example_mesh 0).totpoly + i)).size ∧
      ∀ j, 1 ≤ j → j < ((BKE_mesh_mirror_apply_mirror_on_axis_for_modifier binary32 example_ops example_mmd example_ob example_mesh 0 true true).1.poly ((source_mesh binary32 example_ops example_mmd example_ob example_mesh 0).totpoly + i)).size →
        ((BKE_mesh_mirror_apply_mirror_on_axis_for_modifier binary32 example_ops example_mmd example_ob example_mesh 0 true true).1.poly ((source_mesh binary32 example_ops example_mmd example_ob example_mesh 0).totpoly + i)).start ≤ IndexRange.last ((BKE_mesh_mirror_apply_mirror_on_axis_for_modifier binary32 example_ops example_mmd example_ob example_mesh 0 true true).1.poly ((source_mesh binary32 example_ops example_mmd example_ob example_mesh 0).totpoly + i)) (j - 1) ∧
        IndexRange.last ((BKE_mesh_mirror_apply_mirror_on_axis_for_modifier binary32 example_ops example_mmd example_ob example_mesh 0 true true).1.poly ((source_mesh binary32 example_ops example_mmd example_ob example_mesh 0).totpoly + i)) (j - 1) < ((BKE_mesh_mirror_apply_mirror_on_axis_for_modifier binary32 example_ops example_mmd example_ob example_mesh 0 true true).1.poly ((source_mesh binary32 example_ops example_mmd example_ob example_mesh 0).totpoly + i)).start + ((BKE_mesh_mirror_apply_mirror_on_axis_for_modifier binary32 example_ops example_mmd example_ob example_mesh 0 true true).1.poly ((source_mesh binary32 example_ops example_mmd example_ob example_mesh 0).totpoly + i)).size) :=
  ⟨by decide, by decide, by decide, by decide,
    C25_index_validity binary32 example_ops example_mmd example_ob example_mesh 0 true true
      (by decide) (by decide) (by decide) (by decide)⟩

/-- C26. The mirror transform is an involution: for every axis, and (when a mirror-reference
object is set) for every pair of invertible object world matrices, the mirror matrix `M`
satisfies `M * M = identity` in exact arithmetic; hence applying `M` twice to a homogeneous
vector returns the vector, mirroring a mirrored position returns the original position when
there is no reference object, and also with a reference object for the affine world
matrices objects have. -/
theorem C26_mirror_involution (mmd : MirrorModifierData) (ob : Object) (axis : Fin 3)
    (hdet : ∀ mirror_ob, mmd.mirror_ob = some mirror_ob →
      Matrix.det (Matrix.of ob.object_to_world) ≠ 0 ∧
      Matrix.det (Matrix.of mirror_ob.object_to_world) ≠ 0) :
    mul_m4_m4m4 (mirror_mtx mmd ob axis) (mirror_mtx mmd ob axis) = unit_m4 ∧
    (∀ v : float4,
      Matrix.vecMul (Matrix.vecMul v (Matrix.of (mirror_mtx mmd ob axis)))
        (Matrix.of (mirror_mtx mmd ob axis)) = v) ∧
    (mmd.mirror_ob = none →
      ∀ p : float3, mul_m4_v3 (mirror_mtx mmd ob axis) (mul_m4_v3 (mirror_mtx mmd ob axis) p) =
        p) ∧
    (∀ mirror_ob, mmd.mirror_ob = some mirror_ob →
      is_affine ob.object_to_world → is_affine mirror_ob.object_to_world →
      ∀ p : float3, mul_m4_v3 (mirror_mtx mmd ob axis) (mul_m4_v3 (mirror_mtx mmd ob axis) p) =
        p) := by
  have hinv := mirror_mtx_involution mmd ob axis hdet
  refine ⟨hinv, fun v => ?_, fun hnone p => ?_, fun mirror_ob hmob ha1 ha2 p => ?_⟩
  · have h := hinv
    rw [mul_m4_m4m4_eq, unit_m4_eq] at h
    rw [Matrix.vecMul_vecMul, h, Matrix.vecMul_one]
  · have ha : is_affine (mirror_mtx mmd ob axis) := by
      rw [mirror_mtx_none mmd ob axis hnone]
      exact is_affine_axis_flip_mtx axis
    rw [← mul_m4_v3_mul _ _ ha, hinv, mul_m4_v3_unit_m4]
  · rw [← mul_m4_v3_mul _ _ (is_affine_mirror_mtx mmd ob mirror_ob axis hmob
      (hdet mirror_ob hmob).1 (hdet mirror_ob hmob).2 ha1 ha2), hinv, mul_m4_v3_unit_m4]

theorem C26_mirror_involution_witness :
    (∀ mirror_ob, example_mmd_mirror_ob.mirror_ob = some mirror_ob →
      Matrix.det (Matrix.of example_ob_scaled.object_to_world) ≠ 0 ∧
      Matrix.det (Matrix.of mirror_ob.object_to_world) ≠ 0) ∧
    mul_m4_m4m4 (mirror_mtx example_mmd_mirror_ob example_ob_scaled 0)
      (mirror_mtx example_mmd_mirror_ob example_ob_scaled 0) = unit_m4 ∧
    (∀ v : float4,
      Matrix.vecMul
        (Matrix.vecMul v (Matrix.of (mirror_mtx example_mmd_mirror_ob example_ob_scaled 0)))
        (Matrix.of (mirror_mtx example_mmd_mirror_ob example_ob_scaled 0)) = v) ∧
    (example_mmd_mirror_ob.mirror_ob = none →
      ∀ p : float3, mul_m4_v3 (mirror_mtx example_mmd_mirror_ob example_ob_scaled 0)
        (mul_m4_v3 (mirror_mtx example_mmd_mirror_ob example_ob_scaled 0) p) = p) ∧
    (∀ mirror_ob, example_mmd_mirror_ob.mirror_ob = some mirror_ob →
      is_affine example_ob_scaled.object_to_world → is_affine mirror_ob.object_to_world →
      ∀ p : float3, mul_m4_v3 (mirror_mtx example_mmd_mirror_ob example_ob_scaled 0)
        (mul_m4_v3 (mirror_mtx example_mmd_mirror_ob example_ob_scaled 0) p) = p) :=
  ⟨example_mirror_ob_dets,
    C26_mirror_involution example_mmd_mirror_ob example_ob_scaled 0 example_mirror_ob_dets⟩

/-- C27. Merging happens only when a merge map is requested: if `MOD_MIR_NO_MERGE` is set or
the caller passes no merge-map output (`r_vert_merge_map` is null), then for every tolerance
and every source vertex `i` with position `p`, output position `i` is exactly `p` and output
position `N + i` is exactly `M p` (also when the two coincide), and neither the merge map nor
the merge count is written. -/
theorem C27_no_merge_without_map (fa : FloatArith) (ops : Collaborators)
    (mmd : MirrorModifierData) (ob : Object) (mesh : Mesh) (axis : Fin 3) (uco wmm : Bool)
    (hno : flag_test mmd.flag MOD_MIR_NO_MERGE = true ∨ wmm = false) :
    (∀ i p, i < (source_mesh fa ops mmd ob mesh axis).totvert →
      (source_mesh fa ops mmd ob mesh axis).positions[i]? = some p →
      (BKE_mesh_mirror_apply_mirror_on_axis_for_modifier fa ops mmd ob mesh axis uco
          wmm).1.positions[i]? = some p ∧
      (BKE_mesh_mirror_apply_mirror_on_axis_for_modifier fa ops mmd ob mesh axis uco
          wmm).1.positions[(source_mesh fa ops mmd ob mesh axis).totvert + i]? =
        some (mul_m4_v3 (mirror_mtx mmd ob axis) p)) ∧
    (BKE_mesh_mirror_apply_mirror_on_axis_for_modifier fa ops mmd ob mesh axis uco wmm).2 =
      none := by
  have hd := do_vtargetmap_false mmd wmm hno
  refine ⟨fun i p hi hp => ?_, ?_⟩
  · have hsrc : (source_mesh fa ops mmd ob mesh axis).positions.getD i 0 = p := by
      simp [List.getD_eq_getElem?_getD, hp]
    have h := (vert_pass_spec fa ops mmd ob mesh axis uco wmm).2.1 i p hi hsrc
    rw [hd] at h
    rw [result_positions]
    simpa using h
  · rw [result_merge_map, hd]
    rfl

theorem C27_no_merge_without_map_witness :
    (flag_test example_mmd.flag MOD_MIR_NO_MERGE = true ∨ false = false) ∧
    (∀ i p, i < (source_mesh binary32 example_ops example_mmd example_ob example_mesh 0).totvert →
      (source_mesh binary32 example_ops example_mmd example_ob example_mesh 0).positions[i]? = some p →
      (BKE_mesh_mirror_apply_mirror_on_axis_for_modifier binary32 example_ops example_mmd example_ob
          example_mesh 0 true false).1.positions[i]? = some p ∧
      (BKE_mesh_mirror_apply_mirror_on_axis_for_modifier binary32 example_ops example_mmd example_ob
          example_mesh 0 true false).1.positions[
            (source_mesh binary32 example_ops example_mmd example_ob example_mesh 0).totvert + i]? =
        some (mul_m4_v3 (mirror_mtx example_mmd example_ob 0) p)) ∧
    (BKE_mesh_mirror_apply_mirror_on_axis_for_modifier binary32 example_ops example_mmd example_ob
      example_mesh 0 true false).2 = none :=
  ⟨Or.inr rfl,
    C27_no_merge_without_map binary32 example_ops example_mmd example_ob example_mesh 0 true false
      (Or.inr rfl)⟩

/-- C28. Merged vertices land exactly on the mirror plane: with no mirror-reference object,
mirror axis `a` and merging active, for every source vertex `i` at `p` that merges
(`|p - M p|² < tolerance_sq`, the `float` product `tolerance * tolerance`), output positions
`i` and `N + i` are the same point `q`, whose component `a` is `0` and whose other two
components are those of `p` (exact arithmetic). -/
theorem C28_merged_on_plane (fa : FloatArith) (ops : Collaborators) (mmd : MirrorModifierData)
    (ob : Object) (mesh : Mesh) (axis : Fin 3) (uco wmm : Bool) (i : Nat) (p : float3)
    (hnone : mmd.mirror_ob = none)
    (hmerge : do_vtargetmap mmd wmm = true)
    (hi : i < (source_mesh fa ops mmd ob mesh axis).totvert)
    (hp : (source_mesh fa ops mmd ob mesh axis).positions[i]? = some p)
    (hm : len_squared_v3v3 p (mul_m4_v3 (mirror_mtx mmd ob axis) p) <
      fa.mul mmd.tolerance mmd.tolerance) :
    ∃ q : float3,
      (BKE_mesh_mirror_apply_mirror_on_axis_for_modifier fa ops mmd ob mesh axis uco
          wmm).1.positions[i]? = some q ∧
      (BKE_mesh_mirror_apply_mirror_on_axis_for_modifier fa ops mmd ob mesh axis uco
          wmm).1.positions[(source_mesh fa ops mmd ob mesh axis).totvert + i]? = some q ∧
      q axis = 0 ∧ ∀ k, k ≠ axis → q k = p k := by
  have hsrc : (source_mesh fa ops mmd ob mesh axis).positions.getD i 0 = p := by
    simp [List.getD_eq_getElem?_getD, hp]
  have h := (vert_pass_spec fa ops mmd ob mesh axis uco wmm).2.1 i p hi hsrc
  have ht : merge_test (mirror_mtx mmd ob axis) (fa.mul mmd.tolerance mmd.tolerance) p p = true := by
    unfold merge_test
    rw [decide_eq_true_iff]
    exact hm
  have hmtx : mirror_mtx mmd ob axis = axis_flip_mtx axis := by
    unfold mirror_mtx
    rw [hnone]
  rw [hmerge, ht, mid_v3_v3v3_eq, hmtx, mul_axis_flip_mtx] at h
  simp only [Bool.and_self, if_true] at h
  rw [result_positions]
  refine ⟨_, h.1, h.2, ?_, ?_⟩
  · simp
  · intro k hk
    simp only [if_neg hk]
    ring

theorem C28_merged_on_plane_witness :
    example_mmd.mirror_ob = none ∧
    do_vtargetmap example_mmd true = true ∧
    3 < (source_mesh binary32 example_ops example_mmd example_ob example_mesh 0).totvert ∧
    (source_mesh binary32 example_ops example_mmd example_ob example_mesh 0).positions[3]? =
      some ![0, 1, 0] ∧
    len_squared_v3v3 ![0, 1, 0] (mul_m4_v3 (mirror_mtx example_mmd example_ob 0) ![0, 1, 0]) <
      binary32.mul example_mmd.tolerance example_mmd.tolerance ∧
    ∃ q : float3,
      (BKE_mesh_mirror_apply_mirror_on_axis_for_modifier binary32 example_ops example_mmd example_ob
          example_mesh 0 true true).1.positions[3]? = some q ∧
      (BKE_mesh_mirror_apply_mirror_on_axis_for_modifier binary32 example_ops example_mmd example_ob
          example_mesh 0 true true).1.positions[
            (source_mesh binary32 example_ops example_mmd example_ob example_mesh 0).totvert + 3]? =
        some q ∧
      q 0 = 0 ∧ ∀ k, k ≠ (0 : Fin 3) → q k = (![0, 1, 0] : float3) k :=
  have hlt : len_squared_v3v3 ![0, 1, 0]
      (mul_m4_v3 (mirror_mtx example_mmd example_ob 0) ![0, 1, 0]) <
      binary32.mul example_mmd.tolerance example_mmd.tolerance := by
    have hmtx : mirror_mtx example_mmd example_ob 0 = axis_flip_mtx 0 := rfl
    rw [hmtx, len_squared_axis_flip, binary32_mul_example_tolerance]
    norm_num
  ⟨rfl, by decide, by decide, rfl, hlt,
    C28_merged_on_plane binary32 example_ops example_mmd example_ob example_mesh 0 true true 3
      ![0, 1, 0] rfl (by decide) (by decide) rfl hlt⟩

/-- C29. The setter `rna_HookModifier_vertex_indices_set` validates atomically: for a
non-empty index list, if any index is negative or any value occurs more than once, the
modifier's stored index array and count are left unchanged; otherwise the stored array is
the input sorted in strictly increasing order (a permutation of the input) and the stored
count equals the input length; an empty list clears the stored array and sets the count to
`0`. -/
theorem C29_vertex_indices_set_atomic (hmd : HookModifierData) (reports : List HookReport)
    (indices : List Int) :
    (indices ≠ [] → ((∃ x ∈ indices, x < 0) ∨ ¬ indices.Nodup) →
      (rna_HookModifier_vertex_indices_set hmd reports indices).1.indexar = hmd.indexar ∧
      (rna_HookModifier_vertex_indices_set hmd reports indices).1.indexar_num =
        hmd.indexar_num) ∧
    (indices ≠ [] → (∀ x ∈ indices, 0 ≤ x) → indices.Nodup →
      ∃ buffer : List Int,
        (rna_HookModifier_vertex_indices_set hmd reports indices).1.indexar = some buffer ∧
        buffer.Sorted (fun a b => a < b) ∧ buffer.Perm indices ∧
        (rna_HookModifier_vertex_indices_set hmd reports indices).1.indexar_num =
          (indices.length : Int)) ∧
    (indices = [] →
      (rna_HookModifier_vertex_indices_set hmd reports indices).1.indexar = none ∧
      (rna_HookModifier_vertex_indices_set hmd reports indices).1.indexar_num = 0) := by
  have h := vertex_indices_set_spec hmd reports indices
  have hq := qsort_int_spec indices
  refine ⟨fun hne hbad => ?_, fun hne hpos hnd => ?_, fun he => ?_⟩
  · rw [h.2.1 hne hbad]
    exact ⟨rfl, rfl⟩
  · rw [h.2.2 hne hpos hnd]
    exact ⟨qsort_int indices, rfl, hq.1.lt_of_le (hq.2.1.nodup_iff.2 hnd), hq.2.1, rfl⟩
  · rw [h.1 he]
    exact ⟨rfl, rfl⟩

theorem C29_vertex_indices_set_atomic_witness :
    (([5, 2, 9] : List Int) ≠ [] ∧ (∀ x ∈ ([5, 2, 9] : List Int), 0 ≤ x) ∧
      ([5, 2, 9] : List Int).Nodup) ∧
    ∃ buffer : List Int,
      (rna_HookModifier_vertex_indices_set example_hmd [] [5, 2, 9]).1.indexar = some buffer ∧
      buffer.Sorted (fun a b => a < b) ∧ buffer.Perm [5, 2, 9] ∧
      (rna_HookModifier_vertex_indices_set example_hmd [] [5, 2, 9]).1.indexar_num =
        (([5, 2, 9] : List Int).length : Int) :=
  ⟨⟨by decide, by decide, by decide⟩,
    (C29_vertex_indices_set_atomic example_hmd [] [5, 2, 9]).2.1 (by decide) (by decide)
      (by decide)⟩

/-- C30. The operator `CONSOLE_OT_indent` is described as "Add 4 spaces at line beginning"
(`console_ops.c`, line 608), for every console line. On the console line `" x"` (one
leading space, length 2) `console_indent_exec` adds 3 spaces, not 4: it inserts
`TAB_LENGTH - spaces % TAB_LENGTH = 4 - 1 % 4` spaces, so the new line is `"    x"` of length
5, which is not 4 spaces followed by the old line (that would have length 6). -/
theorem C30_indent_adds_three :
    example_console_line.line = [' ', 'x'] ∧ example_console_line.len = 2 ∧
    TAB_LENGTH - 1 % TAB_LENGTH = 3 ∧
    (console_indent_exec example_space_console example_console_line).2.line =
      [' ', ' ', ' ', ' ', 'x'] ∧
    (console_indent_exec example_space_console example_console_line).2.len = 5 ∧
    (console_indent_exec example_space_console example_console_line).2.line ≠
      List.replicate 4 ' ' ++ example_console_line.line ∧
    (console_indent_exec example_space_console example_console_line).2.len ≠
      example_console_line.len + 4 := by
  decide

end MeshMirror
